import Mathlib

/-!
# Tile shop: room scene geometry and the catalog/customer REST handlers

A shallow embedding of

* `src/src/pages/AiGeneration.jsx`: `SmartTexturedMesh`, `PlainMesh`,
  `SmartTexturedMeshContent`, `RoomScene` (panel sizes, positions, texture
  repeats, camera placement) and the page handlers `selectTile`,
  `applyWallTile`, the Cancel button, `handleDimensionChange`,
  `handleResetDesign`;
* `src/src/pages/AiDesignAssistant.jsx`: `generateResponse` of the chatbot and
  the suggestion lists of `StyleMatcher` and `IntelligentPairing`;
* `src/server/server.js`: the `/api/customers` and `/api/products` handlers
  (listing, creation, deletion) together with `readLocalCustomers` /
  `readLocalProducts` and the `useMongoDB` flag.

Conventions of the embedding.

* JavaScript numbers are modelled by exact rationals `ℚ`: every quantity that
  occurs (feet, JSON numbers, millisecond clocks) is finite, and `NaN`, the
  infinities and the negative zero are not represented.
* A JavaScript value that may be of any type is a `JsVal`; a property that is
  absent from an object reads as `JsVal.undefined`, exactly as destructuring
  does in the source.
* Angles are stored as rational multiples of `π`.
* What the handlers obtain from the outside world (the clock, the outcome of
  `fs.writeFile`, the outcome of a Mongoose call) is passed in explicitly.
* A collection file is the structured content it holds: `none` when it is
  missing, unreadable or does not parse, otherwise the JSON array written to
  it, with records in their JSON form; `FileRead` covers a file of any
  content, for the two readers and the listings.
* The built-ins `parseInt` and `ToNumber` on strings follow ECMAScript on exact
  numbers; the conversion of an array or object to a primitive, needed only
  when a stored id is one, is a parameter (`toPrimitive`) that may throw, and
  `jsonToPrimitive` is that conversion for values that came out of
  `JSON.parse`.
* A texture is shared by every mesh that shows the same image
  (`useTexture(imageUrl)`), so the repeat a mesh is drawn with is the one
  written last on the texture of its image; a scene records the writes in the
  order the layout effects run.
* `JSON.stringify(value, null, 2)` and `JSON.parse` are embedded on text
  (`jsonStringify`, `jsonParse`) following ECMAScript: two-space indentation,
  `QuoteJSONString`, the JSON grammar, properties in own-property order. The
  text of a number (`numberToString`) and the ISO text of a `Date`
  (`toISOString`) are parameters; a string holding a lone surrogate cannot be
  represented.
* Other built-ins whose result the program does not fix are parameters:
  `toLowerCase`, the text of a value in a template string, identity of two
  objects under `===`, the outcome of `sort` with a random comparator (any
  permutation) and the draws of `Math.random`.
-/

namespace TileShop

/-! ## JavaScript values -/

/-- A JavaScript value as far as the program distinguishes them. -/
inductive JsVal where
  | undefined : JsVal
  | null : JsVal
  | bool (b : Bool) : JsVal
  | num (q : ℚ) : JsVal
  | str (s : String) : JsVal
  | arr (xs : List JsVal) : JsVal
  | obj (kvs : List (String × JsVal)) : JsVal

/-- ECMAScript `ToBoolean`: `undefined`, `null`, `false`, `0` and `""` are
falsy, every other value (arrays and objects included) is truthy. -/
def truthy : JsVal → Bool
  | .undefined => false
  | .null => false
  | .bool b => b
  | .num q => decide (q ≠ 0)
  | .str s => decide (s ≠ "")
  | .arr _ => true
  | .obj _ => true

/-- The JavaScript expression `a || b`. -/
def jsOr (a b : JsVal) : JsVal := if truthy a then a else b

mutual
/-- Whether two values are the same value, component by component. -/
def JsVal.beq : JsVal → JsVal → Bool
  | .undefined, .undefined => true
  | .null, .null => true
  | .bool a, .bool b => decide (a = b)
  | .num a, .num b => decide (a = b)
  | .str a, .str b => decide (a = b)
  | .arr a, .arr b => JsVal.beqList a b
  | .obj a, .obj b => JsVal.beqProps a b
  | _, _ => false
/-- Whether two lists of values are the same, element by element. -/
def JsVal.beqList : List JsVal → List JsVal → Bool
  | [], [] => true
  | x :: xs, y :: ys => JsVal.beq x y && JsVal.beqList xs ys
  | _, _ => false
/-- Whether two lists of properties are the same, property by property. -/
def JsVal.beqProps : List (String × JsVal) → List (String × JsVal) → Bool
  | [], [] => true
  | (k, x) :: xs, (l, y) :: ys => decide (k = l) && JsVal.beq x y && JsVal.beqProps xs ys
  | _, _ => false
end

/-- `Math.round`: the nearest integer, a tie going towards `+∞`. -/
def mathRound (x : ℚ) : ℤ := ⌊x + 1 / 2⌋

/-- `Math.max` of two numbers. -/
def mathMax (a b : ℚ) : ℚ := if a ≤ b then b else a

/-! ## The room scene (`AiGeneration.jsx`) -/

/-- The room parameters held in the `setup` state of `AiGeneration`. -/
structure Setup where
  width : ℚ
  length : ℚ
  height : ℚ
  area : ℚ
  roomType : String
  model : String

/-- A catalog tile as the visualizer holds it. -/
structure Tile where
  id : JsVal
  image : JsVal
  design : JsVal
  size : JsVal
  amount : JsVal
  type : JsVal

/-- The four wall slots of the `walls` state. -/
structure Walls where
  front : Option Tile
  back : Option Tile
  left : Option Tile
  right : Option Tile

/-- A three-component vector (`[x, y, z]`). -/
structure Vec3 where
  x : ℚ
  y : ℚ
  z : ℚ
deriving DecidableEq

/-- The material of a mesh: a `meshStandardMaterial` whose `map` is the
texture `useTexture(imageUrl)` returns, or one with a flat colour. The texture
is not owned by the material: `useTexture` hands out one texture object per
image URL, shared by every material that maps that image. -/
inductive Material where
  | textured (imageUrl : JsVal) (roughness : ℚ) : Material
  | flat (color : Nat) (roughness : ℚ) : Material

/-- A rendered mesh: `position`, `rotation` (multiples of `π`), the arguments
of its geometry (`boxGeometry` has three, `planeGeometry` two) and its
material. -/
structure Mesh where
  position : Vec3
  rotation : Vec3
  geometry : List ℚ
  material : Material

/-- A call `tex.repeat.set(repeatX, repeatY)` made by a layout effect, `tex`
being the texture of `imageUrl`. -/
structure RepeatWrite where
  imageUrl : JsVal
  repeatX : ℤ
  repeatY : ℤ

/-- The `repeat` of the texture of `imageUrl` once the given writes have been
made in order: each write on that texture replaces the value, so the last one
stands; `none` when no write touched it. -/
def textureRepeatAfter (writes : List RepeatWrite) (imageUrl : JsVal) : Option (ℤ × ℤ) :=
  writes.foldl
    (fun current w => if JsVal.beq w.imageUrl imageUrl then some (w.repeatX, w.repeatY)
      else current)
    none

/-- What a component with a texture gives: the mesh it renders and the write
its `useLayoutEffect` makes on the shared texture (`none` for a component
without one). -/
structure Rendered where
  mesh : Mesh
  layoutEffect : Option RepeatWrite

/-- `rotation || [0, 0, 0]` for an optional rotation prop. -/
def rotationOrZero : Option Vec3 → Vec3
  | some r => r
  | none => ⟨0, 0, 0⟩

/-- Component `SmartTexturedMesh`: a box of the given `size` mapped with the
texture of `imageUrl`; its layout effect sets that texture's repeat to
`max(1, round(w / (3 * scaleFt)))` by `max(1, round(h / (3 * scaleFt)))`,
`[w, h]` being `faceDimensions`. -/
def SmartTexturedMesh (size : Vec3) (position : Vec3) (rotation : Option Vec3)
    (imageUrl : JsVal) (faceDimensions : ℚ × ℚ) (scaleFt : ℚ) : Rendered :=
  let w := faceDimensions.1
  let h := faceDimensions.2
  let rX := max 1 (mathRound (w / (3 * scaleFt)))
  let rY := max 1 (mathRound (h / (3 * scaleFt)))
  { mesh :=
      { position := position
        rotation := rotationOrZero rotation
        geometry := [size.x, size.y, size.z]
        material := .textured imageUrl 1 }
    layoutEffect := some ⟨imageUrl, rX, rY⟩ }

/-- Component `PlainMesh` with its default colour `0xf2efe8` and roughness. -/
def PlainMesh (size : Vec3) (position : Vec3) (rotation : Option Vec3) : Mesh :=
  { position := position
    rotation := rotationOrZero rotation
    geometry := [size.x, size.y, size.z]
    material := .flat 0xf2efe8 1 }

/-- What `SmartTexturedMeshContent` gives: the material and the write of its
layout effect. -/
structure RenderedMaterial where
  material : Material
  layoutEffect : RepeatWrite

/-- Component `SmartTexturedMeshContent`: the material of the floor, mapped
with the texture of `imageUrl`; its layout effect sets that texture's repeat
to `max(1, round(w / 3))` by `max(1, round(h / 3))`. -/
def SmartTexturedMeshContent (imageUrl : JsVal) (w h : ℚ) : RenderedMaterial :=
  { material := .textured imageUrl (95 / 100)
    layoutEffect := ⟨imageUrl, max 1 (mathRound (w / 3)), max 1 (mathRound (h / 3))⟩ }

/-- The names of the four wall slots. -/
inductive WallType where
  | front | back | left | right
deriving DecidableEq

/-- The lookup `walls[type]`. -/
def Walls.get (walls : Walls) : WallType → Option Tile
  | .front => walls.front
  | .back => walls.back
  | .left => walls.left
  | .right => walls.right

/-- The guard `tile && tile.image`. -/
def hasImage : Option Tile → Bool
  | some t => truthy t.image
  | none => false

/-- The image of the tile in a slot (`tile.image`), `undefined` for no tile. -/
def imageOf : Option Tile → JsVal
  | some t => t.image
  | none => .undefined

/-- The constant `SCALE_FT` of `RoomScene`. -/
def SCALE_FT : ℚ := 12 / 100

/-- The constant `wallThickness` of `RoomScene`. -/
def wallThickness : ℚ := 6 / 100

/-- The scaled extent `roomW` of `RoomScene`. -/
def roomW (setup : Setup) : ℚ := mathMax 1 setup.width * SCALE_FT

/-- The scaled extent `roomL` of `RoomScene`. -/
def roomL (setup : Setup) : ℚ := mathMax 1 setup.length * SCALE_FT

/-- The scaled extent `roomH` of `RoomScene`. -/
def roomH (setup : Setup) : ℚ := mathMax 1 setup.height * SCALE_FT

/-- The helper `RenderWall` inside `RoomScene`. -/
def RenderWall (setup : Setup) (walls : Walls) (type : WallType) (position : Vec3)
    (size : Vec3) (rotation : Option Vec3) (isSide : Bool) : Rendered :=
  let tile := walls.get type
  if hasImage tile then
    let wFt := if isSide then setup.length else setup.width
    let hFt := setup.height
    SmartTexturedMesh size position rotation (imageOf tile) (wFt, hFt) 1
  else
    { mesh := PlainMesh size position rotation, layoutEffect := none }

/-- What `RoomScene` renders, as far as the room shell and the camera go: the
camera position and target set by its effect, the floor plane, the four wall
boxes, and the writes its layout effects make on the shared textures, in the
order React runs them (the order of the elements in the JSX: floor, back,
front, left, right). The room-type furnishing groups, the lights and the grid
helper are not part of this record. -/
structure Scene where
  cameraPosition : Vec3
  cameraTarget : Vec3
  floor : Mesh
  back : Mesh
  front : Mesh
  left : Mesh
  right : Mesh
  repeatWrites : List RepeatWrite

/-- Component `RoomScene`, for a render in which every layout effect of the
room shell runs (the mount; the wall components are declared inside
`RoomScene`, so they are mounted anew and their effects run on every render).
The floor is the mesh written inline in the returned JSX (the local helper
`RenderFloor` is declared but never rendered). -/
def RoomScene (setup : Setup) (floorTile : Option Tile) (walls : Walls) : Scene :=
  let rW := roomW setup
  let rL := roomL setup
  let rH := roomH setup
  let diag := mathMax rW rL * (18 / 10)
  let floorContent := SmartTexturedMeshContent (imageOf floorTile) setup.width setup.length
  let back := RenderWall setup walls .back ⟨0, rH / 2, -rL / 2⟩ ⟨rW, rH, wallThickness⟩ none false
  let front := RenderWall setup walls .front ⟨0, rH / 2, rL / 2⟩ ⟨rW, rH, wallThickness⟩ none false
  let left := RenderWall setup walls .left ⟨-rW / 2, rH / 2, 0⟩ ⟨wallThickness, rH, rL⟩ none true
  let right := RenderWall setup walls .right ⟨rW / 2, rH / 2, 0⟩ ⟨wallThickness, rH, rL⟩ none true
  { cameraPosition := ⟨diag, rH * (12 / 10) + 2 / 10, diag⟩
    cameraTarget := ⟨0, rH * (45 / 100), 0⟩
    floor :=
      if hasImage floorTile then
        { position := ⟨0, 0, 0⟩
          rotation := ⟨-1 / 2, 0, 0⟩
          geometry := [rW, rL]
          material := floorContent.material }
      else
        { position := ⟨0, 0, 0⟩
          rotation := ⟨-1 / 2, 0, 0⟩
          geometry := [rW, rL]
          material := .flat 0xdbc3a2 (95 / 100) }
    back := back.mesh
    front := front.mesh
    left := left.mesh
    right := right.mesh
    repeatWrites :=
      (if hasImage floorTile then [floorContent.layoutEffect] else [])
        ++ back.layoutEffect.toList ++ front.layoutEffect.toList
        ++ left.layoutEffect.toList ++ right.layoutEffect.toList }

/-- The texture repeat a mesh of the scene is drawn with: the `repeat` of the
texture its material maps, after all the layout effects of the scene have run;
`none` for a mesh with a flat colour. -/
def Scene.repeatOf (s : Scene) (m : Mesh) : Option (ℤ × ℤ) :=
  match m.material with
  | .textured imageUrl _ => textureRepeatAfter s.repeatWrites imageUrl
  | .flat _ _ => none

/-! ## The REST handlers (`server.js`) -/

/-- The properties of `req.body` that `POST /api/customers` reads; a property
the caller left out is `undefined`. -/
structure CustomerBody where
  fullname : JsVal
  phone : JsVal
  address : JsVal
  attender : JsVal
  attenderPhone : JsVal
  totalAmount : JsVal
  totalArea : JsVal
  totalWeight : JsVal
  loadingCharges : JsVal
  totalTileCost : JsVal
  rooms : JsVal

/-- A customer record (`newCustomerData`); `createdAt` is the instant of the
`Date` in milliseconds. -/
structure CustomerRecord where
  fullname : JsVal
  phone : JsVal
  address : JsVal
  attender : JsVal
  attenderPhone : JsVal
  totalAmount : JsVal
  totalArea : JsVal
  totalWeight : JsVal
  loadingCharges : JsVal
  totalTileCost : JsVal
  rooms : JsVal
  createdAt : Nat

/-- The properties of `req.body` that `POST /api/products` reads. -/
structure ProductBody where
  id : JsVal
  type : JsVal
  image : JsVal
  size : JsVal
  design : JsVal
  amount : JsVal

/-- A product record (`newProductData`). -/
structure ProductRecord where
  id : JsVal
  type : JsVal
  image : JsVal
  size : JsVal
  design : JsVal
  amount : JsVal
  createdAt : Nat

/-- The server as the handlers see it: the storage-mode flag and the two
collection files. A file is `none` when it is missing, unreadable or does not
parse, and otherwise holds the JSON array that was written to it (the only
thing the server ever writes). The MongoDB collections live outside the
process and are reached through `Env`. -/
structure Server where
  useMongoDB : Bool
  customersFile : Option (List CustomerRecord)
  productsFile : Option (List ProductRecord)

/-- What one request obtains from the outside world. -/
structure Env where
  /-- The value `Date.now()` returns. -/
  dateNow : Nat
  /-- The instant `new Date()` captures. -/
  newDate : Nat
  /-- Whether `fs.writeFile` resolves (`false`: it rejects). -/
  writeFileOk : Bool
  /-- The document `new Customer(..).save()` resolves with, `none` when it rejects. -/
  mongoSaveCustomer : Option CustomerRecord
  /-- The document `new Product(..).save()` resolves with, `none` when it rejects. -/
  mongoSaveProduct : Option ProductRecord
  /-- The result of `Customer.find().sort(..)`, `none` when it rejects. -/
  mongoFindCustomers : Option (List CustomerRecord)
  /-- The result of `Product.find().sort(..)`, `none` when it rejects. -/
  mongoFindProducts : Option (List ProductRecord)
  /-- Whether `Product.findOneAndDelete(..)` resolves (`false`: it rejects). -/
  mongoDeleteOk : Bool

/-- The JSON body of a response. -/
inductive Body where
  | error (error : String) : Body
  | customerSaved (message : String) (customer : CustomerRecord) : Body
  | productSaved (message : String) (product : ProductRecord) : Body
  | customers (list : List CustomerRecord) : Body
  | products (list : List ProductRecord) : Body
  | message (message : String) : Body

/-- An HTTP response: status code and JSON body (`res.json` alone is 200). -/
structure Response where
  status : Nat
  body : Body

/-- An access to a store made while a request is handled; a Mongoose `save`
is recorded with the document handed to `new Customer(..)` / `new Product(..)`. -/
inductive Effect where
  | readCustomersFile : Effect
  | writeCustomersFile : Effect
  | readProductsFile : Effect
  | writeProductsFile : Effect
  | mongoCall : Effect
  | mongoSaveCustomer (document : CustomerRecord) : Effect
  | mongoSaveProduct (document : ProductRecord) : Effect

/-- The result of handling one request: the response, the server afterwards
and the store accesses made, in order. -/
structure Outcome where
  response : Response
  server : Server
  effects : List Effect

/-- Function `readLocalCustomers` on a file that is missing, unreadable or
unparseable (`none`, the `catch` gives `[]`) or holds an array of records (the
parsed array); `FileRead.readLocalCustomers` is the function on a file of any
content. -/
def readLocalCustomers (file : Option (List CustomerRecord)) : List CustomerRecord :=
  match file with
  | some data => data
  | none => []

/-- Function `readLocalProducts` on a file that is missing, unreadable or
unparseable (`none`) or holds an array of records; `FileRead.readLocalProducts`
is the function on a file of any content. -/
def readLocalProducts (file : Option (List ProductRecord)) : List ProductRecord :=
  match file with
  | some data => data
  | none => []

/-- What `await fs.readFile(.., 'utf-8')` followed by `JSON.parse(data)` comes
to for a collection file of any content: the read throws (the file is missing
or unreadable), the parse throws (the text is not JSON, the empty text
included), or the parse yields a value, of whatever JSON type. -/
inductive FileRead where
  | readFileThrows : FileRead
  | parseThrows : FileRead
  | parsed (value : JsVal) : FileRead

/-- Function `readLocalCustomers` on a file of any content: the value
`JSON.parse` yields, returned without a check, and `[]` from the `catch` when
reading or parsing throws. -/
def FileRead.readLocalCustomers : FileRead → JsVal
  | .readFileThrows => .arr []
  | .parseThrows => .arr []
  | .parsed value => value

/-- Function `readLocalProducts` on a file of any content. -/
def FileRead.readLocalProducts : FileRead → JsVal
  | .readFileThrows => .arr []
  | .parseThrows => .arr []
  | .parsed value => value

/-- The file-mode branch of `app.get('/api/customers')` on a file of any
content: `res.json(customers)`, status 200 with the value read as the body. -/
def FileRead.getCustomers (read : FileRead) : Nat × JsVal :=
  (200, read.readLocalCustomers)

/-- The file-mode branch of `app.get('/api/products')` on a file of any
content. -/
def FileRead.getProducts (read : FileRead) : Nat × JsVal :=
  (200, read.readLocalProducts)

/-- Whether a value is an array (`Array.isArray`). -/
def isArray : JsVal → Bool
  | .arr _ => true
  | _ => false

/-- Handler `app.get('/api/customers')`. -/
def getCustomers (srv : Server) (env : Env) : Response :=
  if srv.useMongoDB then
    match env.mongoFindCustomers with
    | some customers => ⟨200, .customers customers⟩
    | none => ⟨500, .error "Failed to fetch customers"⟩
  else
    ⟨200, .customers (readLocalCustomers srv.customersFile)⟩

/-- The object literal `newCustomerData` of `app.post('/api/customers')`. -/
def newCustomerData (body : CustomerBody) (env : Env) : CustomerRecord :=
  { fullname := body.fullname
    phone := body.phone
    address := body.address
    attender := body.attender
    attenderPhone := body.attenderPhone
    totalAmount := jsOr body.totalAmount (.num 0)
    totalArea := jsOr body.totalArea (.num 0)
    totalWeight := jsOr body.totalWeight (.num 0)
    loadingCharges := jsOr body.loadingCharges (.num 0)
    totalTileCost := jsOr body.totalTileCost (.num 0)
    rooms := jsOr body.rooms (.arr [])
    createdAt := env.newDate }

/-- Handler `app.post('/api/customers')`. A rejected `fs.writeFile` is taken
to leave the file as it was. -/
def postCustomers (srv : Server) (env : Env) (body : CustomerBody) : Outcome :=
  if !truthy body.fullname || !truthy body.phone || !truthy body.address
      || !truthy body.attender || !truthy body.attenderPhone then
    ⟨⟨400, .error "All fields are required"⟩, srv, []⟩
  else
    let data := newCustomerData body env
    if srv.useMongoDB then
      match env.mongoSaveCustomer with
      | some savedCustomer =>
        ⟨⟨201, .customerSaved "Customer saved successfully (MongoDB)" savedCustomer⟩, srv,
          [.mongoSaveCustomer data]⟩
      | none => ⟨⟨500, .error "Failed to save customer"⟩, srv, [.mongoSaveCustomer data]⟩
    else
      let customers := readLocalCustomers srv.customersFile
      let customers := data :: customers
      if env.writeFileOk then
        ⟨⟨201, .customerSaved "Customer saved successfully (Local File)" data⟩,
          { srv with customersFile := some customers },
          [.readCustomersFile, .writeCustomersFile]⟩
      else
        ⟨⟨500, .error "Failed to save customer"⟩, srv,
          [.readCustomersFile, .writeCustomersFile]⟩

/-- Handler `app.get('/api/products')`. -/
def getProducts (srv : Server) (env : Env) : Response :=
  if srv.useMongoDB then
    match env.mongoFindProducts with
    | some products => ⟨200, .products products⟩
    | none => ⟨500, .error "Failed to fetch products"⟩
  else
    ⟨200, .products (readLocalProducts srv.productsFile)⟩

/-- The object literal `newProductData` of `app.post('/api/products')`. -/
def newProductData (body : ProductBody) (env : Env) : ProductRecord :=
  { id := jsOr body.id (.num env.dateNow)
    type := body.type
    image := body.image
    size := body.size
    design := body.design
    amount := body.amount
    createdAt := env.newDate }

/-- Handler `app.post('/api/products')`. A rejected `fs.writeFile` is taken to
leave the file as it was. -/
def postProducts (srv : Server) (env : Env) (body : ProductBody) : Outcome :=
  if !truthy body.type || !truthy body.design || !truthy body.amount then
    ⟨⟨400, .error "Type, Design and Amount are required"⟩, srv, []⟩
  else
    let data := newProductData body env
    if srv.useMongoDB then
      match env.mongoSaveProduct with
      | some savedProduct =>
        ⟨⟨201, .productSaved "Product saved" savedProduct⟩, srv, [.mongoSaveProduct data]⟩
      | none => ⟨⟨500, .error "Failed to save product"⟩, srv, [.mongoSaveProduct data]⟩
    else
      let products := readLocalProducts srv.productsFile
      let products := products ++ [data]
      if env.writeFileOk then
        ⟨⟨201, .productSaved "Product saved" data⟩,
          { srv with productsFile := some products },
          [.readProductsFile, .writeProductsFile]⟩
      else
        ⟨⟨500, .error "Failed to save product"⟩, srv,
          [.readProductsFile, .writeProductsFile]⟩

/-! ## Deleting a product (`app.delete('/api/products/:id')`) -/

/-- The characters `parseInt` and `Number` skip around a numeric string
(`StrWhiteSpaceChar`: white space and line terminators), by code point. -/
def isStrWhiteSpace (c : Char) : Bool :=
  decide (c.toNat = 9 ∨ c.toNat = 10 ∨ c.toNat = 11 ∨ c.toNat = 12 ∨ c.toNat = 13
    ∨ c.toNat = 32 ∨ c.toNat = 160 ∨ c.toNat = 5760 ∨ (8192 ≤ c.toNat ∧ c.toNat ≤ 8202)
    ∨ c.toNat = 8232 ∨ c.toNat = 8233 ∨ c.toNat = 8239 ∨ c.toNat = 8287
    ∨ c.toNat = 12288 ∨ c.toNat = 65279)

/-- The value of a character as a digit (`0-9`, then `a-z` or `A-Z` from 10). -/
def digitValue (c : Char) : Option Nat :=
  if 48 ≤ c.toNat ∧ c.toNat ≤ 57 then some (c.toNat - 48)
  else if 97 ≤ c.toNat ∧ c.toNat ≤ 122 then some (c.toNat - 97 + 10)
  else if 65 ≤ c.toNat ∧ c.toNat ≤ 90 then some (c.toNat - 65 + 10)
  else none

/-- Whether a character is a digit of the given radix. -/
def isRadixDigit (radix : Nat) (c : Char) : Bool :=
  match digitValue c with
  | some d => decide (d < radix)
  | none => false

/-- The number a string of digits denotes in the given radix. -/
def digitsValue (radix : Nat) (cs : List Char) : Nat :=
  cs.foldl (fun acc c => acc * radix + (digitValue c).getD 0) 0

/-- Whether the characters start with a sign (`+` or `-`). -/
def startsWithSign : List Char → Bool
  | c :: _ => decide (c.toNat = 43 ∨ c.toNat = 45)
  | [] => false

/-- Whether the characters start with `-`. -/
def startsWithMinus : List Char → Bool
  | c :: _ => decide (c.toNat = 45)
  | [] => false

/-- Whether the characters start with `0` followed by one of two letters
(given by code point), as in `0x` / `0X`. -/
def startsWithZero (lower upper : Nat) : List Char → Bool
  | a :: b :: _ => decide (a.toNat = 48 ∧ (b.toNat = lower ∨ b.toNat = upper))
  | _ => false

/-- The global `parseInt(string)` without a radix: leading white space is
skipped, a sign is read, a `0x` / `0X` prefix selects radix 16 (radix 10
otherwise) and the longest run of digits is converted; `none` is `NaN` (no
digit). The result is the exact integer. -/
def parseInt (s : String) : Option ℤ :=
  let cs := s.toList.dropWhile isStrWhiteSpace
  let negative := startsWithMinus cs
  let cs := if startsWithSign cs then cs.drop 1 else cs
  let hex := startsWithZero 120 88 cs
  let radix := if hex then 16 else 10
  let cs := if hex then cs.drop 2 else cs
  let z := cs.takeWhile (isRadixDigit radix)
  if z.isEmpty then none
  else if negative then some (-(digitsValue radix z : ℤ))
  else some (digitsValue radix z : ℤ)

/-- A `0x`, `0o` or `0b` literal body: one or more digits of the radix and
nothing else. -/
def nonDecimalLiteral (radix : Nat) (cs : List Char) : Option ℚ :=
  if !cs.isEmpty && cs.all (isRadixDigit radix) then some (digitsValue radix cs : ℚ) else none

/-- An `ExponentPart_opt`: nothing (exponent 0), or `e` / `E`, an optional
sign and one or more decimal digits; `none` when the characters are anything
else. -/
def exponentPart : List Char → Option ℤ
  | [] => some 0
  | c :: rest =>
    if c.toNat = 101 ∨ c.toNat = 69 then
      let digits := if startsWithSign rest then rest.drop 1 else rest
      if !digits.isEmpty && digits.all (isRadixDigit 10) then
        if startsWithMinus rest then some (-(digitsValue 10 digits : ℤ))
        else some (digitsValue 10 digits : ℤ)
      else none
    else none

/-- A `StrUnsignedDecimalLiteral` other than `Infinity`: digits, an optional
fraction and an optional exponent, with at least one digit before the
exponent. -/
def unsignedDecimalLiteral (cs : List Char) : Option ℚ :=
  let intDigits := cs.takeWhile (isRadixDigit 10)
  let afterInt := cs.dropWhile (isRadixDigit 10)
  let hasDot := match afterInt with
    | c :: _ => decide (c.toNat = 46)
    | [] => false
  let fracDigits := if hasDot then (afterInt.drop 1).takeWhile (isRadixDigit 10) else []
  let afterFrac := if hasDot then (afterInt.drop 1).dropWhile (isRadixDigit 10) else afterInt
  if intDigits.isEmpty && fracDigits.isEmpty then none
  else
    match exponentPart afterFrac with
    | none => none
    | some e =>
      some ((digitsValue 10 (intDigits ++ fracDigits) : ℚ) * (10 : ℚ) ^ (e - fracDigits.length))

/-- The conversion `ToNumber` of a string (`StringToNumber`): white space is
trimmed on both sides, the empty string is 0, then a `0x` / `0o` / `0b`
literal or a signed decimal literal must fill the whole string. `none` stands
for `NaN` and also for the two infinities, none of which equals a finite
number. -/
def stringToNumber (s : String) : Option ℚ :=
  let cs := ((s.toList.dropWhile isStrWhiteSpace).reverse.dropWhile isStrWhiteSpace).reverse
  if cs.isEmpty then some 0
  else if startsWithZero 120 88 cs then nonDecimalLiteral 16 (cs.drop 2)
  else if startsWithZero 111 79 cs then nonDecimalLiteral 8 (cs.drop 2)
  else if startsWithZero 98 66 cs then nonDecimalLiteral 2 (cs.drop 2)
  else
    let body := if startsWithSign cs then cs.drop 1 else cs
    match unsignedDecimalLiteral body with
    | none => none
    | some q => if startsWithMinus cs then some (-q) else some q

/-- The comparison `v === numId` of a stored value with the result of
`parseInt` (`none` being `NaN`, which equals nothing). -/
def strictEqNumber (v : JsVal) (numId : Option ℤ) : Bool :=
  match v, numId with
  | .num q, some n => decide (q = (n : ℚ))
  | _, _ => false

/-- The comparison `v == id` of a stored value with a string: a string is
compared as text, a number with `ToNumber(id)`, a boolean as 1 or 0 with
`ToNumber(id)`, `undefined` and `null` equal no string, and an array or
object is first converted to a primitive (`toPrimitive`, a text, or `none`
when the conversion throws a `TypeError`). The result is `none` when the
comparison throws. -/
def looseEqString (toPrimitive : JsVal → Option String) (v : JsVal) (id : String) :
    Option Bool :=
  match v with
  | .undefined => some false
  | .null => some false
  | .bool b => some (decide (stringToNumber id = some (if b then 1 else 0)))
  | .num q => some (decide (stringToNumber id = some q))
  | .str s => some (decide (s = id))
  | .arr xs => (toPrimitive (.arr xs)).map (fun text => decide (text = id))
  | .obj kvs => (toPrimitive (.obj kvs)).map (fun text => decide (text = id))

/-- The call `products.filter(p => p.id != id)`: the records whose id is not
loosely equal to `id`, or `none` when the callback throws on some record. -/
def looseFilter (toPrimitive : JsVal → Option String) (id : String) :
    List ProductRecord → Option (List ProductRecord)
  | [] => some []
  | p :: rest =>
    match looseEqString toPrimitive p.id id with
    | none => none
    | some equal =>
      match looseFilter toPrimitive id rest with
      | none => none
      | some kept => some (if equal then kept else p :: kept)

/-- The file-mode body of the DELETE handler on the list read from the file:
the filter `p.id !== numId`, then, when that removed nothing and `numId` is
not `NaN`, the filter `p.id != id`; `none` when that second filter throws. -/
def deleteFilter (toPrimitive : JsVal → Option String) (products : List ProductRecord)
    (id : String) : Option (List ProductRecord) :=
  let numId := parseInt id
  let initialLength := products.length
  let products := products.filter (fun p => !strictEqNumber p.id numId)
  if products.length = initialLength ∧ numId.isSome then
    looseFilter toPrimitive id products
  else
    some products

/-- Handler `app.delete('/api/products/:id')`; `id` is `req.params.id`. An
exception thrown while filtering is caught by the handler's `catch` (500,
nothing written). A rejected `fs.writeFile` is taken to leave the file as it
was. -/
def deleteProduct (toPrimitive : JsVal → Option String) (srv : Server) (env : Env)
    (id : String) : Outcome :=
  if srv.useMongoDB then
    if env.mongoDeleteOk then
      ⟨⟨200, .message "Product deleted"⟩, srv, [.mongoCall]⟩
    else
      ⟨⟨500, .error "Failed to delete product"⟩, srv, [.mongoCall]⟩
  else
    match deleteFilter toPrimitive (readLocalProducts srv.productsFile) id with
    | none => ⟨⟨500, .error "Failed to delete product"⟩, srv, [.readProductsFile]⟩
    | some products =>
      if env.writeFileOk then
        ⟨⟨200, .message "Product deleted"⟩, { srv with productsFile := some products },
          [.readProductsFile, .writeProductsFile]⟩
      else
        ⟨⟨500, .error "Failed to delete product"⟩, srv,
          [.readProductsFile, .writeProductsFile]⟩

/-- An array or object converted as a plain object is (`[object Object]`);
used where a conversion has to be supplied and no value converted is an
array or an object with properties of its own that matter. -/
def plainObjectToString (_ : JsVal) : String := "[object Object]"

mutual
/-- The conversion `ToString` of a value that came out of `JSON.parse`,
`none` when it throws: an array is the texts of its elements joined by
commas (`Array.prototype.toString`), an object is `[object Object]` unless it
has a property `toString` of its own (a JSON value, hence not callable: then
neither `toString` nor `valueOf` yields a primitive and a `TypeError` is
thrown). `numberToString` is the text of a number. -/
def jsonToString (numberToString : ℚ → String) : JsVal → Option String
  | .undefined => some "undefined"
  | .null => some "null"
  | .bool b => some (if b then "true" else "false")
  | .num q => some (numberToString q)
  | .str s => some s
  | .arr xs => jsonJoin numberToString xs
  | .obj kvs =>
    if kvs.any (fun kv => kv.1 = "toString") then none else some "[object Object]"
/-- The method `join()` of an array that came out of `JSON.parse`: `undefined`
and `null` elements give the empty text. -/
def jsonJoin (numberToString : ℚ → String) : List JsVal → Option String
  | [] => some ""
  | [x] => jsonElement numberToString x
  | x :: y :: rest =>
    match jsonElement numberToString x, jsonJoin numberToString (y :: rest) with
    | some first, some others => some (first ++ "," ++ others)
    | _, _ => none
/-- The text of one element in `join()`. -/
def jsonElement (numberToString : ℚ → String) : JsVal → Option String
  | .undefined => some ""
  | .null => some ""
  | v => jsonToString numberToString v
end

/-- The conversion `ToPrimitive` that `==` applies to an array or object that
came out of `JSON.parse`; it gives the same text as `ToString`, or throws. -/
def jsonToPrimitive (numberToString : ℚ → String) (v : JsVal) : Option String :=
  jsonToString numberToString v

/-- The text of a whole number, for use where the numbers converted are whole. -/
def wholeNumberToString (q : ℚ) : String := toString q.floor

/-! ## JSON text -/

/-- The white space `JSON.parse` skips between tokens: tab, line feed,
carriage return and space. -/
def isJsonWhiteSpace (c : Char) : Bool :=
  decide (c.toNat = 9 ∨ c.toNat = 10 ∨ c.toNat = 13 ∨ c.toNat = 32)

/-- The text with leading JSON white space removed. -/
def skipWhiteSpace (cs : List Char) : List Char := cs.dropWhile isJsonWhiteSpace

/-- The lower-case hexadecimal digit of a number below 16. -/
def hexDigit (n : Nat) : Char :=
  if n < 10 then Char.ofNat (48 + n) else Char.ofNat (87 + n)

/-- `QuoteJSONString` on one character: the two-character escapes for
backspace, tab, line feed, form feed, carriage return, the double quote and
the backslash, a `u` escape with four hexadecimal digits for the other control
characters, and the character itself otherwise. -/
def quoteJSONChar (c : Char) : List Char :=
  if c.toNat = 8 then [Char.ofNat 92, 'b']
  else if c.toNat = 9 then [Char.ofNat 92, 't']
  else if c.toNat = 10 then [Char.ofNat 92, 'n']
  else if c.toNat = 12 then [Char.ofNat 92, 'f']
  else if c.toNat = 13 then [Char.ofNat 92, 'r']
  else if c.toNat = 34 then [Char.ofNat 92, Char.ofNat 34]
  else if c.toNat = 92 then [Char.ofNat 92, Char.ofNat 92]
  else if c.toNat < 32 then
    [Char.ofNat 92, 'u', '0', '0', hexDigit (c.toNat / 16), hexDigit (c.toNat % 16)]
  else [c]

/-- The characters of a string between the quotes of its JSON text. -/
def quoteJSONBody (cs : List Char) : List Char := cs.flatMap quoteJSONChar

/-- `QuoteJSONString`: the JSON text of a string. -/
def quoteJSONString (s : String) : List Char :=
  Char.ofNat 34 :: (quoteJSONBody s.toList ++ [Char.ofNat 34])

/-- The indentation of nesting level `level` with a gap of two spaces. -/
def jsonIndent (level : Nat) : List Char := List.replicate (2 * level) (Char.ofNat 32)

/-- The texts `parts` joined by a comma, a line feed and the indentation. -/
def joinLines (level : Nat) : List (List Char) → List Char
  | [] => []
  | [part] => part
  | part :: next :: rest =>
    part ++ (',' :: Char.ofNat 10 :: jsonIndent level) ++ joinLines level (next :: rest)

/-- A non-empty list of member or element texts between brackets, one per line. -/
def wrapLines (level : Nat) (opening closing : Char) (parts : List (List Char)) : List Char :=
  opening :: Char.ofNat 10 :: jsonIndent (level + 1) ++ joinLines (level + 1) parts
    ++ (Char.ofNat 10 :: jsonIndent level) ++ [closing]

mutual
/-- `SerializeJSONProperty` with a gap of two spaces, at nesting level
`level`, for a value that is serialised (`undefined` inside an array is
written `null`). `numberToString` is the text of a number. -/
def serializeValue (numberToString : ℚ → String) (level : Nat) : JsVal → List Char
  | .undefined => ['n', 'u', 'l', 'l']
  | .null => ['n', 'u', 'l', 'l']
  | .bool b => if b then ['t', 'r', 'u', 'e'] else ['f', 'a', 'l', 's', 'e']
  | .num q => (numberToString q).toList
  | .str s => quoteJSONString s
  | .arr xs =>
    match serializeElements numberToString (level + 1) xs with
    | [] => ['[', ']']
    | part :: parts => wrapLines level '[' ']' (part :: parts)
  | .obj kvs =>
    match serializeMembers numberToString (level + 1) kvs with
    | [] => [Char.ofNat 123, Char.ofNat 125]
    | part :: parts => wrapLines level (Char.ofNat 123) (Char.ofNat 125) (part :: parts)
/-- The texts of the elements of an array. -/
def serializeElements (numberToString : ℚ → String) (level : Nat) : List JsVal → List (List Char)
  | [] => []
  | x :: rest =>
    serializeValue numberToString level x :: serializeElements numberToString level rest
/-- The texts of the members of an object; a property whose value is
`undefined` is left out. -/
def serializeMembers (numberToString : ℚ → String) (level : Nat) :
    List (String × JsVal) → List (List Char)
  | [] => []
  | (_, .undefined) :: rest => serializeMembers numberToString level rest
  | (key, value) :: rest =>
    (quoteJSONString key ++ (':' :: Char.ofNat 32 :: serializeValue numberToString level value))
      :: serializeMembers numberToString level rest
end

/-- The value of four hexadecimal digits, `none` when one is not a digit. -/
def hex4 (a b c d : Char) : Option Nat :=
  if isRadixDigit 16 a && isRadixDigit 16 b && isRadixDigit 16 c && isRadixDigit 16 d then
    some (digitsValue 16 [a, b, c, d])
  else none

/-- The character a two-character escape of a JSON string stands for, by the
character after the backslash. -/
def unescapeChar (c : Char) : Option Char :=
  if c.toNat = 34 then some (Char.ofNat 34)
  else if c.toNat = 92 then some (Char.ofNat 92)
  else if c.toNat = 47 then some (Char.ofNat 47)
  else if c.toNat = 98 then some (Char.ofNat 8)
  else if c.toNat = 102 then some (Char.ofNat 12)
  else if c.toNat = 110 then some (Char.ofNat 10)
  else if c.toNat = 114 then some (Char.ofNat 13)
  else if c.toNat = 116 then some (Char.ofNat 9)
  else none

/-- The code unit of a `u` escape: four hexadecimal digits at the front of a
text, and the text after them. -/
def parseHex4 : List Char → Option (Nat × List Char)
  | a :: b :: c :: d :: rest =>
    match hex4 a b c d with
    | none => none
    | some n => some (n, rest)
  | _ => none

/-- One character of a JSON string at the front of a text that does not start
with the closing quote, escapes resolved, and the text after it. An unescaped
control character and an unknown escape give `none`. A `u` escape of a high
surrogate followed by one of a low surrogate is the character of the pair; a
surrogate on its own, which a string here cannot hold, gives `none`. -/
def parseStringChar : List Char → Option (Char × List Char)
  | [] => none
  | c :: rest =>
    if c.toNat = 92 then
      match rest with
      | [] => none
      | e :: rest2 =>
        if e.toNat = 117 then
          match parseHex4 rest2 with
          | none => none
          | some (n, rest3) =>
            if 55296 ≤ n ∧ n < 56320 then
              match rest3 with
              | b :: u :: rest4 =>
                if b.toNat = 92 ∧ u.toNat = 117 then
                  match parseHex4 rest4 with
                  | none => none
                  | some (m, rest5) =>
                    if 56320 ≤ m ∧ m < 57344 then
                      some (Char.ofNat (65536 + (n - 55296) * 1024 + (m - 56320)), rest5)
                    else none
                else none
              | _ => none
            else if 56320 ≤ n ∧ n < 57344 then none
            else some (Char.ofNat n, rest3)
        else
          match unescapeChar e with
          | none => none
          | some ch => some (ch, rest2)
    else if c.toNat < 32 then none
    else some (c, rest)

/-- The rest of a JSON string after its opening quote: the characters up to
the closing quote and the text after the closing quote; `none` when a
character is not allowed or the closing quote is missing. The first argument
bounds the number of characters read. -/
def parseStringBody : Nat → List Char → Option (List Char × List Char)
  | 0, _ => none
  | fuel + 1, cs =>
    match cs with
    | [] => none
    | c :: rest =>
      if c.toNat = 34 then some ([], rest)
      else
        match parseStringChar (c :: rest) with
        | none => none
        | some (ch, rest2) =>
          match parseStringBody fuel rest2 with
          | none => none
          | some (s, after) => some (ch :: s, after)

/-- A JSON string after its opening quote: its characters and the text after
the closing quote. Every character read costs one step, so the length of the
text is a bound that is never reached (`parseString_of_bound`). -/
def parseString (cs : List Char) : Option (List Char × List Char) :=
  parseStringBody cs.length cs

/-- The characters a JSON number is made of. -/
def isJsonNumberChar (c : Char) : Bool :=
  isRadixDigit 10 c
    || decide (c.toNat = 43 ∨ c.toNat = 45 ∨ c.toNat = 46 ∨ c.toNat = 69 ∨ c.toNat = 101)

/-- Whether the characters start with the digit `0`. -/
def startsWithZeroDigit : List Char → Bool
  | c :: _ => decide (c.toNat = 48)
  | [] => false

/-- The number a JSON number token denotes: an optional `-`, an integer part
without a leading zero (unless it is `0`), an optional fraction with at least
one digit and an optional exponent; `none` when the token is not a JSON
number. The result is the exact number. -/
def readJsonNumber (token : List Char) : Option ℚ :=
  let negative := startsWithMinus token
  let body := if negative then token.drop 1 else token
  let intDigits := body.takeWhile (isRadixDigit 10)
  let afterInt := body.dropWhile (isRadixDigit 10)
  let hasDot := match afterInt with
    | c :: _ => decide (c.toNat = 46)
    | [] => false
  let fracDigits := if hasDot then (afterInt.drop 1).takeWhile (isRadixDigit 10) else []
  let afterFrac := if hasDot then (afterInt.drop 1).dropWhile (isRadixDigit 10) else afterInt
  if intDigits.isEmpty then none
  else if decide (1 < intDigits.length) && startsWithZeroDigit intDigits then none
  else if hasDot && fracDigits.isEmpty then none
  else
    match exponentPart afterFrac with
    | none => none
    | some e =>
      let q := (digitsValue 10 (intDigits ++ fracDigits) : ℚ) * (10 : ℚ) ^ (e - fracDigits.length)
      if negative then some (-q) else some q

/-- The array index a property key is (`0`, `1`, .. below `2^32 - 1`, written
canonically), `none` for any other key. -/
def arrayIndexOf (key : String) : Option Nat :=
  let cs := key.toList
  if !cs.isEmpty && cs.all (isRadixDigit 10)
      && (decide (cs.length = 1) || !startsWithZeroDigit cs)
      && decide (digitsValue 10 cs < 4294967295) then
    some (digitsValue 10 cs)
  else none

/-- A new property with array index `i` put in its place among the
properties of an object: after the array indices below it, before everything
else. -/
def insertIndexed (i : Nat) (key : String) (value : JsVal) :
    List (String × JsVal) → List (String × JsVal)
  | [] => [(key, value)]
  | (k, v) :: rest =>
    match arrayIndexOf k with
    | some j =>
      if j < i then (k, v) :: insertIndexed i key value rest
      else (key, value) :: (k, v) :: rest
    | none => (key, value) :: (k, v) :: rest

/-- `CreateDataProperty` on the properties of an object, listed in the order
`JSON.stringify` and `Object.keys` visit them (array indices ascending, then
the other keys in creation order): an existing key keeps its place and takes
the new value, a new key is added in its place. -/
def defineProperty (props : List (String × JsVal)) (key : String) (value : JsVal) :
    List (String × JsVal) :=
  if props.any (fun kv => kv.1 = key) then
    props.map (fun kv => if kv.1 = key then (kv.1, value) else kv)
  else
    match arrayIndexOf key with
    | some i => insertIndexed i key value props
    | none => props ++ [(key, value)]

/-- The properties of the object a list of parsed members gives, members
defined one after the other. -/
def objectOfMembers (members : List (String × JsVal)) : List (String × JsVal) :=
  members.foldl (fun props kv => defineProperty props kv.1 kv.2) []

mutual
/-- A JSON value at the front of a text, and the text after it; `none` when
the text does not start with a JSON value. The first argument bounds the
nesting and the number of elements read. -/
def parseValue : Nat → List Char → Option (JsVal × List Char)
  | 0, _ => none
  | fuel + 1, cs =>
    match skipWhiteSpace cs with
    | [] => none
    | c :: rest =>
      if c.toNat = 91 then
        match skipWhiteSpace rest with
        | [] => none
        | d :: rest2 =>
          if d.toNat = 93 then some (.arr [], rest2)
          else
            match parseElements fuel (d :: rest2) with
            | none => none
            | some (xs, after) => some (.arr xs, after)
      else if c.toNat = 123 then
        match skipWhiteSpace rest with
        | [] => none
        | d :: rest2 =>
          if d.toNat = 125 then some (.obj [], rest2)
          else
            match parseMembers fuel (d :: rest2) with
            | none => none
            | some (members, after) => some (.obj (objectOfMembers members), after)
      else if c.toNat = 34 then
        match parseString rest with
        | none => none
        | some (s, after) => some (.str (String.mk s), after)
      else if c.toNat = 110 then
        match rest with
        | 'u' :: 'l' :: 'l' :: after => some (.null, after)
        | _ => none
      else if c.toNat = 116 then
        match rest with
        | 'r' :: 'u' :: 'e' :: after => some (.bool true, after)
        | _ => none
      else if c.toNat = 102 then
        match rest with
        | 'a' :: 'l' :: 's' :: 'e' :: after => some (.bool false, after)
        | _ => none
      else
        match readJsonNumber ((c :: rest).takeWhile isJsonNumberChar) with
        | none => none
        | some q => some (.num q, (c :: rest).dropWhile isJsonNumberChar)
/-- The elements of an array after its opening bracket, up to and including
the closing bracket. -/
def parseElements : Nat → List Char → Option (List JsVal × List Char)
  | 0, _ => none
  | fuel + 1, cs =>
    match parseValue fuel cs with
    | none => none
    | some (x, rest) =>
      match skipWhiteSpace rest with
      | [] => none
      | d :: rest2 =>
        if d.toNat = 44 then
          match parseElements fuel rest2 with
          | none => none
          | some (xs, after) => some (x :: xs, after)
        else if d.toNat = 93 then some ([x], rest2)
        else none
/-- The members of an object after its opening brace, up to and including the
closing brace, in the order of the text. -/
def parseMembers : Nat → List Char → Option (List (String × JsVal) × List Char)
  | 0, _ => none
  | fuel + 1, cs =>
    match skipWhiteSpace cs with
    | [] => none
    | q :: rest =>
      if q.toNat = 34 then
        match parseString rest with
        | none => none
        | some (key, rest2) =>
          match skipWhiteSpace rest2 with
          | [] => none
          | colon :: rest3 =>
            if colon.toNat = 58 then
              match parseValue fuel rest3 with
              | none => none
              | some (value, rest4) =>
                match skipWhiteSpace rest4 with
                | [] => none
                | d :: rest5 =>
                  if d.toNat = 44 then
                    match parseMembers fuel rest5 with
                    | none => none
                    | some (members, after) => some ((String.mk key, value) :: members, after)
                  else if d.toNat = 125 then some ([(String.mk key, value)], rest5)
                  else none
            else none
      else none
end

/-- `JSON.parse(text)`: the value the text denotes, `none` when it throws a
`SyntaxError`. The bound handed to `parseValue` is never what stops it
(`jsonParse_of_bound`): a nested array or object costs two steps and at least
one character, a further element or member one step and at least two
characters. -/
def jsonParse (text : String) : Option JsVal :=
  match parseValue (2 * text.length + 2) text.toList with
  | none => none
  | some (value, rest) => if (skipWhiteSpace rest).isEmpty then some value else none

/-- `JSON.stringify(value, null, 2)` for a value that is serialised. -/
def jsonStringify (numberToString : ℚ → String) (value : JsVal) : String :=
  String.mk (serializeValue numberToString 0 value)

/-- Whether key `a` comes before a different key `b` in the order the
properties of an object are visited: array indices ascending, then the other
keys (which keep their creation order). -/
def keyBefore (a b : String) : Bool :=
  match arrayIndexOf a, arrayIndexOf b with
  | some i, some j => decide (i < j)
  | some _, none => true
  | none, some _ => false
  | none, none => decide (a ≠ b)

/-- Whether a list of keys is the key list of an object: no key twice, array
indices first and ascending. -/
def keysInOrder : List String → Bool
  | [] => true
  | key :: rest => rest.all (keyBefore key) && keysInOrder rest

/-- Whether the text `numberToString` gives for a number is a JSON number
that reads back as that number. -/
def isNumberText (numberToString : ℚ → String) (q : ℚ) : Bool :=
  !(numberToString q).toList.isEmpty && (numberToString q).toList.all isJsonNumberChar
    && decide (readJsonNumber (numberToString q).toList = some q)

mutual
/-- Whether a value is one `JSON.parse` yields and `JSON.stringify` writes
back: no `undefined` in it, every number with a text that reads back as the
number, the properties of every object in the order an object lists them. -/
def isJson (numberToString : ℚ → String) : JsVal → Bool
  | .undefined => false
  | .null => true
  | .bool _ => true
  | .num q => isNumberText numberToString q
  | .str _ => true
  | .arr xs => isJsonList numberToString xs
  | .obj kvs => isJsonProps numberToString kvs && keysInOrder (kvs.map Prod.fst)
/-- Whether every value of a list is a JSON value. -/
def isJsonList (numberToString : ℚ → String) : List JsVal → Bool
  | [] => true
  | x :: rest => isJson numberToString x && isJsonList numberToString rest
/-- Whether every property value of a list is a JSON value. -/
def isJsonProps (numberToString : ℚ → String) : List (String × JsVal) → Bool
  | [] => true
  | (_, value) :: rest => isJson numberToString value && isJsonProps numberToString rest
end

/-- Whether a text starts with a character a number is made of. -/
def startsWithNumberChar : List Char → Bool
  | c :: _ => isJsonNumberChar c
  | [] => false

/-- A text whose first character is not white space and closes neither an
array nor an object. -/
def startsValue (cs : List Char) : Prop :=
  ∃ d tail, cs = d :: tail ∧ isJsonWhiteSpace d = false ∧ d.toNat ≠ 93 ∧ d.toNat ≠ 125

/-- What reading and parsing a collection file comes to, from what
`fs.readFile(.., 'utf-8')` gives: `none` when it throws, the text of the file
otherwise. -/
def FileRead.ofText : Option String → FileRead
  | none => .readFileThrows
  | some text =>
    match jsonParse text with
    | none => .parseThrows
    | some value => .parsed value

/-- Whether a value is `undefined`. -/
def isUndefined : JsVal → Bool
  | .undefined => true
  | _ => false

/-- The properties of an object literal that `JSON.stringify` writes: those
whose value is not `undefined`. -/
def definedProps (props : List (String × JsVal)) : List (String × JsVal) :=
  props.filter (fun kv => !isUndefined kv.2)

/-- The JSON form of a customer record, as `JSON.stringify` writes it and
`JSON.parse` reads it back: the properties in the order of the object literal
`newCustomerData`, a property that is absent left out, and `createdAt` as the
text `Date.prototype.toJSON` gives (`toISOString`, a parameter). -/
def CustomerRecord.toJson (toISOString : Nat → String) (c : CustomerRecord) : JsVal :=
  .obj (definedProps
    [("fullname", c.fullname), ("phone", c.phone), ("address", c.address),
     ("attender", c.attender), ("attenderPhone", c.attenderPhone),
     ("totalAmount", c.totalAmount), ("totalArea", c.totalArea),
     ("totalWeight", c.totalWeight), ("loadingCharges", c.loadingCharges),
     ("totalTileCost", c.totalTileCost), ("rooms", c.rooms),
     ("createdAt", .str (toISOString c.createdAt))])

/-- Whether every field of a customer record is absent or a JSON value, as
the fields of a parsed request body and of a parsed file are. -/
def CustomerRecord.fieldsAreJson (numberToString : ℚ → String) (c : CustomerRecord) : Bool :=
  [c.fullname, c.phone, c.address, c.attender, c.attenderPhone, c.totalAmount, c.totalArea,
    c.totalWeight, c.loadingCharges, c.totalTileCost, c.rooms].all
    (fun v => isUndefined v || isJson numberToString v)

/-- Whether every field of a customer payload is absent or a JSON value, as
the fields of a body parsed by `express.json()` are. -/
def CustomerBody.fieldsAreJson (numberToString : ℚ → String) (body : CustomerBody) : Bool :=
  [body.fullname, body.phone, body.address, body.attender, body.attenderPhone,
    body.totalAmount, body.totalArea, body.totalWeight, body.loadingCharges,
    body.totalTileCost, body.rooms].all
    (fun v => isUndefined v || isJson numberToString v)

/-- The text `JSON.stringify(customers, null, 2)` that `app.post('/api/customers')`
hands to `fs.writeFile`. -/
def customersFileText (numberToString : ℚ → String) (toISOString : Nat → String)
    (customers : List CustomerRecord) : String :=
  jsonStringify numberToString (.arr (customers.map (CustomerRecord.toJson toISOString)))

/-! ## Sequences of requests -/

/-- Successive `POST /api/customers` requests, each served on the server the
previous one left: the final server and the responses in request order. -/
def postCustomersSeq (srv : Server) : List (Env × CustomerBody) → Server × List Response
  | [] => (srv, [])
  | (env, body) :: rest =>
    let out := postCustomers srv env body
    let tail := postCustomersSeq out.server rest
    (tail.1, out.response :: tail.2)

/-- Successive `POST /api/products` requests. -/
def postProductsSeq (srv : Server) : List (Env × ProductBody) → Server × List Response
  | [] => (srv, [])
  | (env, body) :: rest =>
    let out := postProducts srv env body
    let tail := postProductsSeq out.server rest
    (tail.1, out.response :: tail.2)

/-- The store accesses successive `POST /api/products` requests make, in
order. -/
def postProductsSeqEffects (srv : Server) : List (Env × ProductBody) → List Effect
  | [] => []
  | (env, body) :: rest =>
    (postProducts srv env body).effects
      ++ postProductsSeqEffects (postProducts srv env body).server rest

/-- The `customer` property of a response body, when it has one. -/
def Response.customer (r : Response) : Option CustomerRecord :=
  match r.body with
  | .customerSaved _ c => some c
  | _ => none

/-- The `product` property of a response body, when it has one. -/
def Response.product (r : Response) : Option ProductRecord :=
  match r.body with
  | .productSaved _ p => some p
  | _ => none

/-- A required text field that is absent or the empty string. -/
def missingOrEmpty : JsVal → Bool
  | .undefined => true
  | .str s => decide (s = "")
  | _ => false

/-- A field that is absent or a string. -/
def absentOrString : JsVal → Bool
  | .undefined => true
  | .str _ => true
  | _ => false

/-- A field that is a non-empty string. -/
def nonEmptyString : JsVal → Bool
  | .str s => decide (s ≠ "")
  | _ => false

/-- Successive `DELETE /api/products/:id` requests for the same `id`, each in
an outside world where every store call succeeds. -/
def deleteTimes (toPrimitive : JsVal → Option String) (srv : Server) (env : Env)
    (id : String) : Nat → Server
  | 0 => srv
  | n + 1 => (deleteProduct toPrimitive (deleteTimes toPrimitive srv env id n) env id).server

/-- The products file after a DELETE whose write succeeds: the filtered list,
or the file as it was when the filter throws. -/
def deleteStored (toPrimitive : JsVal → Option String) (id : String)
    (file : Option (List ProductRecord)) : Option (List ProductRecord) :=
  match deleteFilter toPrimitive (readLocalProducts file) id with
  | none => file
  | some products => some products

/-! ## The storage mode over the life of the process -/

/-- What can happen to the server process: the promise of `mongoose.connect`
settles, or a request is served. -/
inductive Event where
  | connectResolved : Event
  | connectRejected : Event
  | getCustomers (env : Env) : Event
  | postCustomers (env : Env) (body : CustomerBody) : Event
  | getProducts (env : Env) : Event
  | postProducts (env : Env) (body : ProductBody) : Event
  | deleteProduct (env : Env) (id : String) : Event

/-- Whether the event is the `.then` callback of `mongoose.connect`. -/
def Event.isConnectResolved : Event → Bool
  | .connectResolved => true
  | _ => false

/-- Whether the event is a request. -/
def Event.isRequest : Event → Bool
  | .connectResolved => false
  | .connectRejected => false
  | _ => true

/-- The server when the module has been loaded: `let useMongoDB = false`, with
whatever the two files hold. -/
def initialServer (customersFile : Option (List CustomerRecord))
    (productsFile : Option (List ProductRecord)) : Server :=
  { useMongoDB := false, customersFile := customersFile, productsFile := productsFile }

/-- The server after one event. The `.then` callback sets `useMongoDB = true`,
the `.catch` callback only logs, a request leaves what its handler leaves. -/
def step (toPrimitive : JsVal → Option String) (srv : Server) : Event → Server
  | .connectResolved => { srv with useMongoDB := true }
  | .connectRejected => srv
  | .getCustomers _ => srv
  | .postCustomers env body => (postCustomers srv env body).server
  | .getProducts _ => srv
  | .postProducts env body => (postProducts srv env body).server
  | .deleteProduct env id => (deleteProduct toPrimitive srv env id).server

/-- The server after a sequence of events. -/
def run (toPrimitive : JsVal → Option String) (srv : Server) (events : List Event) : Server :=
  events.foldl (step toPrimitive) srv

/-- The storage mode in which each request of a sequence of events is served,
in order: the value of `useMongoDB` when the request is handled (`true` is
database mode). -/
def modesServed (toPrimitive : JsVal → Option String) (srv : Server) : List Event → List Bool
  | [] => []
  | e :: rest =>
    if e.isRequest then
      srv.useMongoDB :: modesServed toPrimitive (step toPrimitive srv e) rest
    else
      modesServed toPrimitive (step toPrimitive srv e) rest

/-! ## The tile picker (`AiGeneration`) -/

/-- The state of the `AiGeneration` page that its handlers read and write
(`sceneInfo`, a handle on the camera, is left out). -/
structure Visualizer where
  loading : Bool
  setup : Setup
  showPicker : Bool
  pickerType : String
  availableTiles : List Tile
  floorTile : Option Tile
  walls : Walls
  pendingWallTile : Option Tile
  showWallModal : Bool

/-- Handler `applyWallTile(scope)`. -/
def applyWallTile (st : Visualizer) (scope : String) : Visualizer :=
  match st.pendingWallTile with
  | none => st
  | some pendingWallTile =>
    let walls : Walls :=
      if scope = "all" then
        { front := some pendingWallTile
          back := some pendingWallTile
          left := some pendingWallTile
          right := some pendingWallTile }
      else if scope = "front" then { st.walls with front := some pendingWallTile }
      else if scope = "back" then { st.walls with back := some pendingWallTile }
      else if scope = "left" then { st.walls with left := some pendingWallTile }
      else if scope = "right" then { st.walls with right := some pendingWallTile }
      else st.walls
    { st with walls := walls, showWallModal := false, pendingWallTile := none }

/-- The property name of a wall slot, as passed to `applyWallTile`. -/
def WallType.key : WallType → String
  | .front => "front"
  | .back => "back"
  | .left => "left"
  | .right => "right"

/-- Handler `selectTile(tile)`. -/
def selectTile (st : Visualizer) (tile : Tile) : Visualizer :=
  if st.pickerType = "floor" then
    { st with floorTile := some tile }
  else
    { st with pendingWallTile := some tile, showWallModal := true }

/-- The `onClick` of the Cancel button of the wall modal. -/
def cancelWallChoice (st : Visualizer) : Visualizer :=
  { st with showWallModal := false, pendingWallTile := none }

/-- The second argument of `handleDimensionChange` at its three call sites,
the literals `width`, `length` and `height`. -/
inductive Dimension where
  | width | length | height
deriving DecidableEq

/-- Handler `handleDimensionChange(e, dim)`, with `val = Number(e.target.value)`
the value of the slider. -/
def handleDimensionChange (st : Visualizer) (val : ℚ) (dim : Dimension) : Visualizer :=
  let prev := st.setup
  let area :=
    match dim with
    | .height => prev.area
    | .width => val * prev.length
    | .length => prev.width * val
  let setup : Setup :=
    match dim with
    | .width => { prev with width := val, area := area }
    | .length => { prev with length := val, area := area }
    | .height => { prev with height := val, area := area }
  { st with setup := setup }

/-- Handler `handleResetDesign` (its call of `sceneInfo.resetView()` moves the
camera only). -/
def handleResetDesign (st : Visualizer) : Visualizer :=
  { st with
    floorTile := none
    walls := { front := none, back := none, left := none, right := none } }

/-- Successive slider changes, applied in order. -/
def dimensionChanges (st : Visualizer) (changes : List (ℚ × Dimension)) : Visualizer :=
  changes.foldl (fun acc c => handleDimensionChange acc c.1 c.2) st

/-! ## The design assistant (`AiDesignAssistant.jsx`) -/

/-- The method `s.includes(searchString)`: whether `searchString` occurs in `s`
as a contiguous run of characters. -/
def includes (s searchString : String) : Bool :=
  decide (searchString.toList <:+: s.toList)

/-- The reply to a question about price or cost. -/
def priceReply : String :=
  "Our tiles range from ₹45 to ₹250 per sq.ft depending on the material (Ceramic vs Vitrified). Would you like to see a specific category?"

/-- The reply to a question about bathrooms. -/
def bathroomReply : String :=
  "For bathrooms, I highly recommend 'Anti-Skid' or 'Matte Finish' tiles to prevent slipping when wet. 300x300mm is a popular size."

/-- The reply to a question about kitchens. -/
def kitchenReply : String :=
  "Kitchens look great with Dado tiles (highlighters) above the counter. Glossy finishes are easier to clean oil splashes from."

/-- The reply to a question about living rooms. -/
def livingReply : String :=
  "Large format (600x1200mm) GVT tiles are trending for living rooms as they give a spacious, seamless look."

/-- The reply to thanks. -/
def thankReply : String :=
  "You're welcome! Let me know if you need help with anything else."

/-- The reply when no keyword occurs. -/
def fallbackReply : String :=
  "That's an interesting question. While I'm still learning, I'd suggest visiting our 'Tile Collection' page to explore more options or contacting our sales team for specific queries."

/-- Function `generateResponse(query)` of `ChatbotAdvisor`. The built-in
`String.prototype.toLowerCase` is passed in. -/
def generateResponse (toLowerCase : String → String) (query : String) : String :=
  let q := toLowerCase query
  if includes q "price" || includes q "cost" then priceReply
  else if includes q "bathroom" || includes q "toilet" then bathroomReply
  else if includes q "kitchen" then kitchenReply
  else if includes q "living" then livingReply
  else if includes q "thank" then thankReply
  else fallbackReply

/-- The rule table of the chatbot in the words of the specification: the
keywords of each rule and its reply, in the fixed order. -/
def chatRules : List (List String × String) :=
  [(["price", "cost"], priceReply),
   (["bathroom", "toilet"], bathroomReply),
   (["kitchen"], kitchenReply),
   (["living"], livingReply),
   (["thank"], thankReply)]

/-- The reply of the first rule of `chatRules` one of whose keywords occurs in
`q`, the fallback reply when there is none (the specification's reading). -/
def firstMatchingReply (q : String) : String :=
  match chatRules.find? (fun rule => rule.1.any (fun keyword => includes q keyword)) with
  | some rule => rule.2
  | none => fallbackReply

/-- Lower-casing of the letters `A` to `Z` only, every other character kept: what
`toLowerCase` does on ASCII text. -/
def asciiToLowerCase (s : String) : String :=
  String.mk (s.toList.map Char.toLower)

/-- `Math.floor`. -/
def mathFloor (x : ℚ) : ℤ := ⌊x⌋

/-- A suggestion of `StyleMatcher` (`matchText` is its property `match`). -/
structure MatchSuggestion where
  id : JsVal
  name : JsVal
  type : JsVal
  matchText : String
  img : JsVal

/-- The results `handleImageUpload` of `StyleMatcher` sets once the timer
fires, for a file that was chosen. `shuffle` is what
`sort(() => 0.5 - Math.random())` makes of a list and `random i` the value of
`Math.random()` drawn for the suggestion at index `i`. -/
def styleMatcherResults (shuffle : List Tile → List Tile) (random : Nat → ℚ)
    (allTiles : List Tile) : List MatchSuggestion :=
  if allTiles.length > 0 then
    let shuffled := shuffle allTiles
    (shuffled.take 3).enum.map (fun p =>
      { id := p.2.id
        name := p.2.design
        type := p.2.type
        matchText := toString (mathFloor (random p.1 * (99 - 85) + 85)) ++ "%"
        img := p.2.image })
  else
    []

/-- The comparison `a === b`: primitives by value; for two arrays or objects
it is identity of reference, supplied by `sameObject`. -/
def strictEquals (sameObject : JsVal → JsVal → Bool) : JsVal → JsVal → Bool
  | .undefined, .undefined => true
  | .null, .null => true
  | .bool a, .bool b => decide (a = b)
  | .num a, .num b => decide (a = b)
  | .str a, .str b => decide (a = b)
  | .arr a, .arr b => sameObject (.arr a) (.arr b)
  | .arr a, .obj b => sameObject (.arr a) (.obj b)
  | .obj a, .arr b => sameObject (.obj a) (.arr b)
  | .obj a, .obj b => sameObject (.obj a) (.obj b)
  | _, _ => false

/-- A suggestion of `IntelligentPairing`; `reason` is `undefined` (`none`) when
the index drawn is outside the four reasons. -/
structure PairingSuggestion where
  id : JsVal
  name : JsVal
  img : JsVal
  reason : Option String

/-- The array `reasons` built for a tile; `toText` is the conversion of a
value inside a template string. -/
def pairingReasons (toText : JsVal → String) (t : Tile) : List String :=
  ["The texture of " ++ toText t.design ++ " provides a striking contrast to the selected tile.",
   "This " ++ toText t.type ++ " tile shares complementary undertones, creating a cohesive look.",
   "A perfect match! The finish of this tile balances the base selection beautifully.",
   "This pairing works well because the neutral colors ground the bolder base tile."]

/-- The element `reasons[k]` for the number `k` computed by `Math.floor`. -/
def reasonAt (reasons : List String) (k : ℤ) : Option String :=
  if 0 ≤ k then reasons[k.toNat]? else none

/-- The effect of `IntelligentPairing` for the current `selectedTile`: the list
it passes to `setSuggestions`, `none` when `selectedTile` is falsy and nothing
is set. -/
def pairingSuggestions (sameObject : JsVal → JsVal → Bool) (toText : JsVal → String)
    (shuffle : List Tile → List Tile) (random : Nat → ℚ) (allTiles : List Tile)
    (selectedTile : JsVal) : Option (List PairingSuggestion) :=
  if truthy selectedTile then
    let others := allTiles.filter (fun t => !strictEquals sameObject t.id selectedTile)
    let shuffled := shuffle others
    some ((shuffled.take 2).enum.map (fun p =>
      let reasons := pairingReasons toText p.2
      let randomReason := reasonAt reasons (mathFloor (random p.1 * reasons.length))
      { id := p.2.id
        name := p.2.design
        img := p.2.image
        reason := randomReason }))
  else
    none

/-! ## Sample requests -/

/-- An outside world in which the clock reads `t` and every store call
succeeds (the database calls are not used in file mode). -/
def sampleEnv (t : Nat) : Env :=
  { dateNow := t
    newDate := t
    writeFileOk := true
    mongoSaveCustomer := none
    mongoSaveProduct := none
    mongoFindCustomers := none
    mongoFindProducts := none
    mongoDeleteOk := false }

/-- A customer payload that gives the five required fields and nothing else. -/
def sampleCustomerBody (fullname : String) : CustomerBody :=
  { fullname := .str fullname
    phone := .str "9876543210"
    address := .str "12 Main Road"
    attender := .str "Ravi"
    attenderPhone := .str "9123456780"
    totalAmount := .undefined
    totalArea := .undefined
    totalWeight := .undefined
    loadingCharges := .undefined
    totalTileCost := .undefined
    rooms := .undefined }

/-- The text `toISOString` gives for the instant 1000 ms after the epoch, the
instant of the sample requests it is used with. -/
def sampleISOString (_ : Nat) : String := "1970-01-01T00:00:01.000Z"

/-- The text of a customers file that holds the one record created from
`sampleCustomerBody "Anand"` at the instant 1000, as
`JSON.stringify(customers, null, 2)` writes it. -/
def sampleCustomersFileText : String :=
  "[\n"
    ++ "  \x7b\n"
    ++ "    \"fullname\": \"Anand\",\n"
    ++ "    \"phone\": \"9876543210\",\n"
    ++ "    \"address\": \"12 Main Road\",\n"
    ++ "    \"attender\": \"Ravi\",\n"
    ++ "    \"attenderPhone\": \"9123456780\",\n"
    ++ "    \"totalAmount\": 0,\n"
    ++ "    \"totalArea\": 0,\n"
    ++ "    \"totalWeight\": 0,\n"
    ++ "    \"loadingCharges\": 0,\n"
    ++ "    \"totalTileCost\": 0,\n"
    ++ "    \"rooms\": [],\n"
    ++ "    \"createdAt\": \"1970-01-01T00:00:01.000Z\"\n"
    ++ "  \x7d\n"
    ++ "]"

/-- A product payload with the given `id` property. -/
def sampleProductBody (id : JsVal) (design : String) : ProductBody :=
  { id := id
    type := .str "floor"
    image := .undefined
    size := .str "2x2"
    design := .str design
    amount := .num 120 }

/-- A server in file mode whose collection files do not exist yet. -/
def freshFileServer : Server :=
  { useMongoDB := false, customersFile := none, productsFile := none }

/-- A stored product with the given id. -/
def sampleProduct (id : JsVal) : ProductRecord :=
  { id := id
    type := .str "floor"
    image := .undefined
    size := .str "2x2"
    design := .str "Marble White"
    amount := .num 120
    createdAt := 1000 }

/-- An id that is an object with a property `toString` of its own, as the
body `{"id": {"toString": 1}, ..}` gives. -/
def objectId : JsVal := .obj [("toString", .num 1)]

/-- A server in file mode whose products file holds the given records. -/
def fileServerWith (products : List ProductRecord) : Server :=
  { useMongoDB := false, customersFile := none, productsFile := some products }

/-- A catalog tile with the given design name. -/
def sampleTile (design : String) : Tile :=
  { id := .num 1
    image := .str "tile.png"
    design := .str design
    size := .str "2x2"
    amount := .num 120
    type := .str "wall" }

/-- The visualizer with the given wall slots and pending tile, the wall modal
open. -/
def sampleVisualizer (walls : Walls) (pending : Option Tile) : Visualizer :=
  { loading := false
    setup := ⟨15, 20, 9, 300, "Living Room", "Normal Room"⟩
    showPicker := true
    pickerType := "wall"
    availableTiles := []
    floorTile := some (sampleTile "Granite Grey")
    walls := walls
    pendingWallTile := pending
    showWallModal := true }

/-- The wall mesh of a scene by slot name. -/
def Scene.wall (s : Scene) : WallType → Mesh
  | .front => s.front
  | .back => s.back
  | .left => s.left
  | .right => s.right

/-! ## Lemmas on the numeric helpers -/

theorem mathRound_eq_round (x : ℚ) : mathRound x = round x := by
  unfold mathRound
  rw [round_eq]

theorem mathMax_eq_max (a b : ℚ) : mathMax a b = max a b := by
  unfold mathMax
  split_ifs with h
  · exact (max_eq_right h).symm
  · exact (max_eq_left (le_of_not_le h)).symm

theorem mathRound_eq_iff (x : ℚ) (n : ℤ) :
    mathRound x = n ↔ (n : ℚ) ≤ x + 1 / 2 ∧ x + 1 / 2 < n + 1 := by
  unfold mathRound
  exact Int.floor_eq_iff

theorem one_le_mathMax_one (a : ℚ) : 1 ≤ mathMax 1 a := by
  rw [mathMax_eq_max]
  exact le_max_left 1 a

theorem SCALE_FT_le_extent (a : ℚ) : 12 / 100 ≤ mathMax 1 a * SCALE_FT := by
  have h := one_le_mathMax_one a
  unfold SCALE_FT
  linarith

theorem roomW_pos (setup : Setup) : 0 < roomW setup := by
  have h := SCALE_FT_le_extent setup.width
  unfold roomW
  linarith

theorem roomL_pos (setup : Setup) : 0 < roomL setup := by
  have h := SCALE_FT_le_extent setup.length
  unfold roomL
  linarith

theorem roomH_pos (setup : Setup) : 0 < roomH setup := by
  have h := SCALE_FT_le_extent setup.height
  unfold roomH
  linarith

theorem RenderWall_geometry (setup : Setup) (walls : Walls) (type : WallType)
    (position size : Vec3) (rotation : Option Vec3) (isSide : Bool) :
    (RenderWall setup walls type position size rotation isSide).mesh.geometry
      = [size.x, size.y, size.z] := by
  unfold RenderWall
  by_cases h : hasImage (walls.get type) = true
  · simp [h, SmartTexturedMesh]
  · simp [h, PlainMesh]

theorem RenderWall_position (setup : Setup) (walls : Walls) (type : WallType)
    (position size : Vec3) (rotation : Option Vec3) (isSide : Bool) :
    (RenderWall setup walls type position size rotation isSide).mesh.position = position := by
  unfold RenderWall
  by_cases h : hasImage (walls.get type) = true
  · simp [h, SmartTexturedMesh]
  · simp [h, PlainMesh]

theorem RenderWall_textured (setup : Setup) (walls : Walls) (type : WallType)
    (position size : Vec3) (rotation : Option Vec3) (isSide : Bool)
    (h : hasImage (walls.get type) = true) :
    (RenderWall setup walls type position size rotation isSide).mesh.material
        = .textured (imageOf (walls.get type)) 1
      ∧ (RenderWall setup walls type position size rotation isSide).layoutEffect
        = some ⟨imageOf (walls.get type),
            max 1 (round ((if isSide then setup.length else setup.width) / 3)),
            max 1 (round (setup.height / 3))⟩ := by
  unfold RenderWall
  simp only [h, if_true, SmartTexturedMesh, mathRound_eq_round, mul_one, and_self]

theorem RenderWall_plain (setup : Setup) (walls : Walls) (type : WallType)
    (position size : Vec3) (rotation : Option Vec3) (isSide : Bool)
    (h : hasImage (walls.get type) = false) :
    (RenderWall setup walls type position size rotation isSide).layoutEffect = none := by
  unfold RenderWall
  simp [h]

theorem mathRound_five : mathRound (15 / 3) = 5 := by
  rw [mathRound_eq_iff]; norm_num

theorem mathRound_seven : mathRound (20 / 3) = 7 := by
  rw [mathRound_eq_iff]; norm_num

theorem mathRound_three : mathRound (9 / 3) = 3 := by
  rw [mathRound_eq_iff]; norm_num

/-! ## The room scene: texture repeats and panel geometry -/

/-- When no wall slot holds a tile with an image, the floor of a tile whose
image is a non-empty text is drawn with the repeat its own effect wrote,
`max(1, round(w/3))` by `max(1, round(l/3))`. -/
theorem floor_repeat_without_wall_tiles (setup : Setup) (tile : Tile) (walls : Walls)
    (url : String) (himage : tile.image = .str url) (hurl : url ≠ "")
    (hwalls : ∀ type : WallType, hasImage (walls.get type) = false) :
    (RoomScene setup (some tile) walls).repeatOf (RoomScene setup (some tile) walls).floor
      = some (max 1 (round (setup.width / 3)), max 1 (round (setup.length / 3))) := by
  have hfloor : hasImage (some tile) = true := by simp [hasImage, himage, truthy, hurl]
  have hb := RenderWall_plain setup walls .back ⟨0, roomH setup / 2, -roomL setup / 2⟩
    ⟨roomW setup, roomH setup, wallThickness⟩ none false (hwalls .back)
  have hf := RenderWall_plain setup walls .front ⟨0, roomH setup / 2, roomL setup / 2⟩
    ⟨roomW setup, roomH setup, wallThickness⟩ none false (hwalls .front)
  have hl := RenderWall_plain setup walls .left ⟨-roomW setup / 2, roomH setup / 2, 0⟩
    ⟨wallThickness, roomH setup, roomL setup⟩ none true (hwalls .left)
  have hr := RenderWall_plain setup walls .right ⟨roomW setup / 2, roomH setup / 2, 0⟩
    ⟨wallThickness, roomH setup, roomL setup⟩ none true (hwalls .right)
  simp only [Scene.repeatOf, RoomScene, hfloor, if_true, hb, hf, hl, hr, Option.toList,
    List.append_nil, SmartTexturedMeshContent, textureRepeatAfter, List.foldl, imageOf, himage,
    JsVal.beq, decide_True, mathRound_eq_round]

/-- C1 fails when a wall carries the image of the floor tile: in a 15 ft by
20 ft room, 9 ft high, with the same tile on the floor and on the right wall,
the floor's effect writes the repeat `(5, 7)` on the texture, and the right
wall's effect, which runs later on the same texture, leaves `(7, 3)`: the
floor is drawn with `(7, 3)`. -/
theorem C1_floor_repeat_overwritten :
    (RoomScene ⟨15, 20, 9, 300, "Living Room", "Normal Room"⟩
        (some (sampleTile "Marble White"))
        ⟨none, none, none, some (sampleTile "Marble White")⟩).repeatWrites
        = [⟨.str "tile.png", 5, 7⟩, ⟨.str "tile.png", 7, 3⟩]
      ∧ (RoomScene ⟨15, 20, 9, 300, "Living Room", "Normal Room"⟩
          (some (sampleTile "Marble White"))
          ⟨none, none, none, some (sampleTile "Marble White")⟩).repeatOf
          (RoomScene ⟨15, 20, 9, 300, "Living Room", "Normal Room"⟩
            (some (sampleTile "Marble White"))
            ⟨none, none, none, some (sampleTile "Marble White")⟩).floor
        = some (7, 3) := by
  have hw : (RoomScene ⟨15, 20, 9, 300, "Living Room", "Normal Room"⟩
        (some (sampleTile "Marble White"))
        ⟨none, none, none, some (sampleTile "Marble White")⟩).repeatWrites
        = [⟨.str "tile.png", 5, 7⟩, ⟨.str "tile.png", 7, 3⟩] := by
    simp [RoomScene, RenderWall, SmartTexturedMesh, SmartTexturedMeshContent, hasImage,
      imageOf, Walls.get, sampleTile, truthy, mathRound_five, mathRound_seven,
      mathRound_three]
  refine ⟨hw, ?_⟩
  simp only [Scene.repeatOf, hw]
  simp [RoomScene, SmartTexturedMeshContent, hasImage, imageOf, sampleTile, truthy,
    textureRepeatAfter, JsVal.beq]

/-- A wall that alone holds a tile with an image (no image on the floor or on
another wall) is drawn with the repeat `RenderWall` computes from the
un-scaled dimensions: width (front, back) or length (left, right) by height. -/
theorem wall_repeat_single_tile (setup : Setup) (floorTile : Option Tile) (walls : Walls)
    (type : WallType) (url : String) (himage : imageOf (walls.get type) = .str url)
    (himg : hasImage (walls.get type) = true) (hfloor : hasImage floorTile = false)
    (hothers : ∀ other : WallType, other ≠ type → hasImage (walls.get other) = false) :
    (RoomScene setup floorTile walls).repeatOf ((RoomScene setup floorTile walls).wall type)
      = some (max 1 (round ((if type = .left ∨ type = .right then setup.length
                              else setup.width) / 3)),
              max 1 (round (setup.height / 3))) := by
  cases type
  · have hb := RenderWall_plain setup walls .back ⟨0, roomH setup / 2, -roomL setup / 2⟩
      ⟨roomW setup, roomH setup, wallThickness⟩ none false (hothers .back (by decide))
    have hl := RenderWall_plain setup walls .left ⟨-roomW setup / 2, roomH setup / 2, 0⟩
      ⟨wallThickness, roomH setup, roomL setup⟩ none true (hothers .left (by decide))
    have hr := RenderWall_plain setup walls .right ⟨roomW setup / 2, roomH setup / 2, 0⟩
      ⟨wallThickness, roomH setup, roomL setup⟩ none true (hothers .right (by decide))
    have ht := RenderWall_textured setup walls .front ⟨0, roomH setup / 2, roomL setup / 2⟩
      ⟨roomW setup, roomH setup, wallThickness⟩ none false himg
    simp [Scene.repeatOf, Scene.wall, RoomScene, hfloor, hb, hl, hr, ht.1, ht.2, himage,
      textureRepeatAfter, JsVal.beq]
  · have hf := RenderWall_plain setup walls .front ⟨0, roomH setup / 2, roomL setup / 2⟩
      ⟨roomW setup, roomH setup, wallThickness⟩ none false (hothers .front (by decide))
    have hl := RenderWall_plain setup walls .left ⟨-roomW setup / 2, roomH setup / 2, 0⟩
      ⟨wallThickness, roomH setup, roomL setup⟩ none true (hothers .left (by decide))
    have hr := RenderWall_plain setup walls .right ⟨roomW setup / 2, roomH setup / 2, 0⟩
      ⟨wallThickness, roomH setup, roomL setup⟩ none true (hothers .right (by decide))
    have ht := RenderWall_textured setup walls .back ⟨0, roomH setup / 2, -roomL setup / 2⟩
      ⟨roomW setup, roomH setup, wallThickness⟩ none false himg
    simp [Scene.repeatOf, Scene.wall, RoomScene, hfloor, hf, hl, hr, ht.1, ht.2, himage,
      textureRepeatAfter, JsVal.beq]
  · have hb := RenderWall_plain setup walls .back ⟨0, roomH setup / 2, -roomL setup / 2⟩
      ⟨roomW setup, roomH setup, wallThickness⟩ none false (hothers .back (by decide))
    have hf := RenderWall_plain setup walls .front ⟨0, roomH setup / 2, roomL setup / 2⟩
      ⟨roomW setup, roomH setup, wallThickness⟩ none false (hothers .front (by decide))
    have hr := RenderWall_plain setup walls .right ⟨roomW setup / 2, roomH setup / 2, 0⟩
      ⟨wallThickness, roomH setup, roomL setup⟩ none true (hothers .right (by decide))
    have ht := RenderWall_textured setup walls .left ⟨-roomW setup / 2, roomH setup / 2, 0⟩
      ⟨wallThickness, roomH setup, roomL setup⟩ none true himg
    simp [Scene.repeatOf, Scene.wall, RoomScene, hfloor, hb, hf, hr, ht.1, ht.2, himage,
      textureRepeatAfter, JsVal.beq]
  · have hb := RenderWall_plain setup walls .back ⟨0, roomH setup / 2, -roomL setup / 2⟩
      ⟨roomW setup, roomH setup, wallThickness⟩ none false (hothers .back (by decide))
    have hf := RenderWall_plain setup walls .front ⟨0, roomH setup / 2, roomL setup / 2⟩
      ⟨roomW setup, roomH setup, wallThickness⟩ none false (hothers .front (by decide))
    have hl := RenderWall_plain setup walls .left ⟨-roomW setup / 2, roomH setup / 2, 0⟩
      ⟨wallThickness, roomH setup, roomL setup⟩ none true (hothers .left (by decide))
    have ht := RenderWall_textured setup walls .right ⟨roomW setup / 2, roomH setup / 2, 0⟩
      ⟨wallThickness, roomH setup, roomL setup⟩ none true himg
    simp [Scene.repeatOf, Scene.wall, RoomScene, hfloor, hb, hf, hl, ht.1, ht.2, himage,
      textureRepeatAfter, JsVal.beq]

/-- C2 fails when walls share a tile: with one tile on all four walls of a
15 ft by 20 ft room, 9 ft high (what Apply to All 4 Walls sets), the effects of
the back and front walls write `(5, 3)` on the texture, as width by height
gives, and the effects of the left and right walls, which run later on the same
texture, write `(7, 3)`: the front and back walls are drawn with `(7, 3)`. -/
theorem C2_wall_repeat_overwritten :
    (RoomScene ⟨15, 20, 9, 300, "Living Room", "Normal Room"⟩ none
        ⟨some (sampleTile "Wood Finish"), some (sampleTile "Wood Finish"),
          some (sampleTile "Wood Finish"), some (sampleTile "Wood Finish")⟩).repeatWrites
        = [⟨.str "tile.png", 5, 3⟩, ⟨.str "tile.png", 5, 3⟩, ⟨.str "tile.png", 7, 3⟩,
            ⟨.str "tile.png", 7, 3⟩]
      ∧ (RoomScene ⟨15, 20, 9, 300, "Living Room", "Normal Room"⟩ none
          ⟨some (sampleTile "Wood Finish"), some (sampleTile "Wood Finish"),
            some (sampleTile "Wood Finish"), some (sampleTile "Wood Finish")⟩).repeatOf
          (RoomScene ⟨15, 20, 9, 300, "Living Room", "Normal Room"⟩ none
            ⟨some (sampleTile "Wood Finish"), some (sampleTile "Wood Finish"),
              some (sampleTile "Wood Finish"), some (sampleTile "Wood Finish")⟩).front
        = some (7, 3)
      ∧ (RoomScene ⟨15, 20, 9, 300, "Living Room", "Normal Room"⟩ none
          ⟨some (sampleTile "Wood Finish"), some (sampleTile "Wood Finish"),
            some (sampleTile "Wood Finish"), some (sampleTile "Wood Finish")⟩).repeatOf
          (RoomScene ⟨15, 20, 9, 300, "Living Room", "Normal Room"⟩ none
            ⟨some (sampleTile "Wood Finish"), some (sampleTile "Wood Finish"),
              some (sampleTile "Wood Finish"), some (sampleTile "Wood Finish")⟩).back
        = some (7, 3) := by
  have hw : (RoomScene ⟨15, 20, 9, 300, "Living Room", "Normal Room"⟩ none
        ⟨some (sampleTile "Wood Finish"), some (sampleTile "Wood Finish"),
          some (sampleTile "Wood Finish"), some (sampleTile "Wood Finish")⟩).repeatWrites
        = [⟨.str "tile.png", 5, 3⟩, ⟨.str "tile.png", 5, 3⟩, ⟨.str "tile.png", 7, 3⟩,
            ⟨.str "tile.png", 7, 3⟩] := by
    simp [RoomScene, RenderWall, SmartTexturedMesh, hasImage, imageOf, Walls.get, sampleTile,
      truthy, mathRound_five, mathRound_seven, mathRound_three]
  refine ⟨hw, ?_, ?_⟩
  · simp only [Scene.repeatOf, hw]
    simp [RoomScene, RenderWall, SmartTexturedMesh, hasImage, imageOf, Walls.get, sampleTile,
      truthy, textureRepeatAfter, JsVal.beq]
  · simp only [Scene.repeatOf, hw]
    simp [RoomScene, RenderWall, SmartTexturedMesh, hasImage, imageOf, Walls.get, sampleTile,
      truthy, textureRepeatAfter, JsVal.beq]

/-- C3: for every submitted width, length and height, zero and negative values
included, `RoomScene` computes each scaled extent as `max(1, dimension) * 0.12`;
a submitted width of 0 gives the extent of width 1, every extent is at least
0.12, and the floor panel and the four wall panels have strictly positive
area. -/
theorem C3_extents_clamped (setup : Setup) (floorTile : Option Tile) (walls : Walls) :
    (roomW setup = max 1 setup.width * (12 / 100)
        ∧ roomL setup = max 1 setup.length * (12 / 100)
        ∧ roomH setup = max 1 setup.height * (12 / 100))
      ∧ roomW { setup with width := 0 } = roomW { setup with width := 1 }
      ∧ (12 / 100 ≤ roomW setup ∧ 12 / 100 ≤ roomL setup ∧ 12 / 100 ≤ roomH setup)
      ∧ ((RoomScene setup floorTile walls).floor.geometry = [roomW setup, roomL setup]
          ∧ 0 < roomW setup * roomL setup)
      ∧ (∀ type : WallType, ∃ a b c : ℚ,
          ((RoomScene setup floorTile walls).wall type).geometry = [a, b, c]
            ∧ 0 < a ∧ 0 < b ∧ 0 < c
            ∧ (a * b = roomW setup * roomH setup ∨ c * b = roomL setup * roomH setup)) := by
  refine ⟨⟨?_, ?_, ?_⟩, ?_, ⟨?_, ?_, ?_⟩, ⟨?_, ?_⟩, ?_⟩
  · simp only [roomW, mathMax_eq_max, SCALE_FT]
  · simp only [roomL, mathMax_eq_max, SCALE_FT]
  · simp only [roomH, mathMax_eq_max, SCALE_FT]
  · simp only [roomW, mathMax_eq_max]
    norm_num
  · exact SCALE_FT_le_extent setup.width
  · exact SCALE_FT_le_extent setup.length
  · exact SCALE_FT_le_extent setup.height
  · by_cases h : hasImage floorTile = true <;> simp [RoomScene, h]
  · exact mul_pos (roomW_pos setup) (roomL_pos setup)
  · have hW := roomW_pos setup
    have hL := roomL_pos setup
    have hH := roomH_pos setup
    have hT : (0 : ℚ) < wallThickness := by unfold wallThickness; norm_num
    intro type
    cases type
    · exact ⟨roomW setup, roomH setup, wallThickness,
        by simp only [RoomScene, Scene.wall, RenderWall_geometry], hW, hH, hT, Or.inl rfl⟩
    · exact ⟨roomW setup, roomH setup, wallThickness,
        by simp only [RoomScene, Scene.wall, RenderWall_geometry], hW, hH, hT, Or.inl rfl⟩
    · exact ⟨wallThickness, roomH setup, roomL setup,
        by simp only [RoomScene, Scene.wall, RenderWall_geometry], hT, hH, hL, Or.inr rfl⟩
    · exact ⟨wallThickness, roomH setup, roomL setup,
        by simp only [RoomScene, Scene.wall, RenderWall_geometry], hT, hH, hL, Or.inr rfl⟩

/-- C4: with `roomW`, `roomL`, `roomH` the clamped scaled extents, `RoomScene`
produces a floor panel of `roomW x roomL`, a front and a back wall of size
`(roomW, roomH, 0.06)` centred at `z = +roomL/2` and `z = -roomL/2`, and a left
and a right wall of size `(0.06, roomH, roomL)` centred at `x = -roomW/2` and
`x = +roomW/2`, all four walls centred at height `roomH/2`. -/
theorem C4_panel_layout (setup : Setup) (floorTile : Option Tile) (walls : Walls) :
    (RoomScene setup floorTile walls).floor.geometry = [roomW setup, roomL setup]
      ∧ (RoomScene setup floorTile walls).front.geometry = [roomW setup, roomH setup, 6 / 100]
      ∧ (RoomScene setup floorTile walls).front.position
          = ⟨0, roomH setup / 2, roomL setup / 2⟩
      ∧ (RoomScene setup floorTile walls).back.geometry = [roomW setup, roomH setup, 6 / 100]
      ∧ (RoomScene setup floorTile walls).back.position
          = ⟨0, roomH setup / 2, -roomL setup / 2⟩
      ∧ (RoomScene setup floorTile walls).left.geometry = [6 / 100, roomH setup, roomL setup]
      ∧ (RoomScene setup floorTile walls).left.position
          = ⟨-roomW setup / 2, roomH setup / 2, 0⟩
      ∧ (RoomScene setup floorTile walls).right.geometry = [6 / 100, roomH setup, roomL setup]
      ∧ (RoomScene setup floorTile walls).right.position
          = ⟨roomW setup / 2, roomH setup / 2, 0⟩ := by
  refine ⟨?_, ?_, ?_, ?_, ?_, ?_, ?_, ?_, ?_⟩
  · by_cases h : hasImage floorTile = true <;> simp [RoomScene, h]
  all_goals
    simp only [RoomScene, RenderWall_geometry, RenderWall_position, wallThickness]

/-! ## The REST handlers: creation order -/

theorem postCustomers_created (srv : Server) (env : Env) (body : CustomerBody)
    (hmode : srv.useMongoDB = false)
    (hok : (postCustomers srv env body).response.status = 201) :
    (postCustomers srv env body).server
        = { srv with
            customersFile :=
              some (newCustomerData body env :: readLocalCustomers srv.customersFile) }
      ∧ (postCustomers srv env body).response.customer = some (newCustomerData body env) := by
  unfold postCustomers at hok ⊢
  split_ifs at hok ⊢ with hv hw <;> simp_all [Response.customer]

theorem postProducts_created (srv : Server) (env : Env) (body : ProductBody)
    (hmode : srv.useMongoDB = false)
    (hok : (postProducts srv env body).response.status = 201) :
    (postProducts srv env body).server
        = { srv with
            productsFile :=
              some (readLocalProducts srv.productsFile ++ [newProductData body env]) }
      ∧ (postProducts srv env body).response.product = some (newProductData body env) := by
  unfold postProducts at hok ⊢
  split_ifs at hok ⊢ with hv hw <;> simp_all [Response.product]

theorem postProducts_database (srv : Server) (env : Env) (body : ProductBody)
    (hmode : srv.useMongoDB = true)
    (hok : (postProducts srv env body).response.status = 201) :
    (postProducts srv env body).effects = [.mongoSaveProduct (newProductData body env)]
      ∧ (postProducts srv env body).server = srv
      ∧ (postProducts srv env body).response.product = env.mongoSaveProduct := by
  unfold postProducts at hok ⊢
  split_ifs at hok ⊢ with hv
  · simp at hok
  · cases hsave : env.mongoSaveProduct with
    | none => rw [hsave] at hok; simp at hok
    | some saved => simp [Response.product]

theorem postProductsSeq_database (reqs : List (Env × ProductBody)) :
    ∀ srv : Server, srv.useMongoDB = true →
      (∀ r ∈ (postProductsSeq srv reqs).2, r.status = 201) →
      (postProductsSeq srv reqs).1 = srv
        ∧ postProductsSeqEffects srv reqs
          = reqs.map (fun p => Effect.mongoSaveProduct (newProductData p.2 p.1)) := by
  induction reqs with
  | nil =>
    intro srv _ _
    simp [postProductsSeq, postProductsSeqEffects]
  | cons p rest ih =>
    intro srv hmode hok
    obtain ⟨env, body⟩ := p
    simp only [postProductsSeq, List.mem_cons, forall_eq_or_imp] at hok
    obtain ⟨h1, hrest⟩ := hok
    obtain ⟨heff, hsrv, _⟩ := postProducts_database srv env body hmode h1
    rw [hsrv] at hrest
    obtain ⟨ih1, ih2⟩ := ih srv hmode hrest
    constructor
    · simp only [postProductsSeq, hsrv, ih1]
    · simp only [postProductsSeqEffects, heff, hsrv, ih2, List.map_cons, List.singleton_append]

theorem postCustomersSeq_file (reqs : List (Env × CustomerBody)) :
    ∀ srv : Server, srv.useMongoDB = false →
      (∀ r ∈ (postCustomersSeq srv reqs).2, r.status = 201) →
      (postCustomersSeq srv reqs).1.useMongoDB = false
        ∧ readLocalCustomers (postCustomersSeq srv reqs).1.customersFile
          = (reqs.map (fun p => newCustomerData p.2 p.1)).reverse
              ++ readLocalCustomers srv.customersFile
        ∧ (postCustomersSeq srv reqs).2.filterMap Response.customer
          = reqs.map (fun p => newCustomerData p.2 p.1) := by
  induction reqs with
  | nil =>
    intro srv hmode _
    simp [postCustomersSeq, hmode]
  | cons p rest ih =>
    intro srv hmode hok
    obtain ⟨env, body⟩ := p
    simp only [postCustomersSeq, List.mem_cons, forall_eq_or_imp] at hok
    obtain ⟨h1, hrest⟩ := hok
    obtain ⟨hsrv, hcust⟩ := postCustomers_created srv env body hmode h1
    have hmode2 : (postCustomers srv env body).server.useMongoDB = false := by
      rw [hsrv]; exact hmode
    obtain ⟨ih0, ih1, ih2⟩ := ih _ hmode2 hrest
    refine ⟨ih0, ?_, ?_⟩
    · have hfile : readLocalCustomers (postCustomers srv env body).server.customersFile
          = newCustomerData body env :: readLocalCustomers srv.customersFile := by
        rw [hsrv]; rfl
      simp only [postCustomersSeq, ih1, hfile, List.map_cons, List.reverse_cons,
        List.append_assoc, List.singleton_append]
    · simp only [postCustomersSeq, List.filterMap_cons, hcust, ih2, List.map_cons]

theorem postProductsSeq_file (reqs : List (Env × ProductBody)) :
    ∀ srv : Server, srv.useMongoDB = false →
      (∀ r ∈ (postProductsSeq srv reqs).2, r.status = 201) →
      (postProductsSeq srv reqs).1.useMongoDB = false
        ∧ readLocalProducts (postProductsSeq srv reqs).1.productsFile
          = readLocalProducts srv.productsFile
              ++ reqs.map (fun p => newProductData p.2 p.1)
        ∧ (postProductsSeq srv reqs).2.filterMap Response.product
          = reqs.map (fun p => newProductData p.2 p.1) := by
  induction reqs with
  | nil =>
    intro srv hmode _
    simp [postProductsSeq, hmode]
  | cons p rest ih =>
    intro srv hmode hok
    obtain ⟨env, body⟩ := p
    simp only [postProductsSeq, List.mem_cons, forall_eq_or_imp] at hok
    obtain ⟨h1, hrest⟩ := hok
    obtain ⟨hsrv, hprod⟩ := postProducts_created srv env body hmode h1
    have hmode2 : (postProducts srv env body).server.useMongoDB = false := by
      rw [hsrv]; exact hmode
    obtain ⟨ih0, ih1, ih2⟩ := ih _ hmode2 hrest
    refine ⟨ih0, ?_, ?_⟩
    · have hfile : readLocalProducts (postProducts srv env body).server.productsFile
          = readLocalProducts srv.productsFile ++ [newProductData body env] := by
        rw [hsrv]; rfl
      simp only [postProductsSeq, ih1, hfile, List.map_cons, List.append_assoc,
        List.singleton_append]
    · simp only [postProductsSeq, List.filterMap_cons, hprod, ih2, List.map_cons]

/-- C5: starting from any stored customer list `L`, after `N` sequential
successful `POST /api/customers` calls in file mode creating `c1, ..., cN`,
`GET /api/customers` returns `cN, ..., c1` followed by `L`: reverse creation
order, most recent first. -/
theorem C5_customers_listed_newest_first (srv : Server) (reqs : List (Env × CustomerBody))
    (env : Env) (hmode : srv.useMongoDB = false)
    (hok : ∀ r ∈ (postCustomersSeq srv reqs).2, r.status = 201) :
    ((postCustomersSeq srv reqs).2.filterMap Response.customer).length = reqs.length
      ∧ getCustomers (postCustomersSeq srv reqs).1 env
        = ⟨200, .customers
            (((postCustomersSeq srv reqs).2.filterMap Response.customer).reverse
              ++ readLocalCustomers srv.customersFile)⟩ := by
  obtain ⟨h0, h1, h2⟩ := postCustomersSeq_file reqs srv hmode hok
  constructor
  · rw [h2, List.length_map]
  · unfold getCustomers
    rw [h0, h1, h2]
    simp

/-- Two customers created one after the other on an empty store are listed
second first. -/
theorem C5_customers_listed_newest_first_witness :
    getCustomers
        (postCustomersSeq freshFileServer
          [(sampleEnv 1000, sampleCustomerBody "Anand"),
           (sampleEnv 2000, sampleCustomerBody "Bala")]).1 (sampleEnv 3000)
      = ⟨200, .customers
          [newCustomerData (sampleCustomerBody "Bala") (sampleEnv 2000),
           newCustomerData (sampleCustomerBody "Anand") (sampleEnv 1000)]⟩ := by
  have h := (C5_customers_listed_newest_first freshFileServer
    [(sampleEnv 1000, sampleCustomerBody "Anand"), (sampleEnv 2000, sampleCustomerBody "Bala")]
    (sampleEnv 3000) rfl
    (by simp [postCustomersSeq, postCustomers, sampleCustomerBody, sampleEnv, freshFileServer,
          truthy])).2
  rw [h]
  simp [postCustomersSeq, postCustomers, sampleCustomerBody, sampleEnv, freshFileServer,
    truthy, Response.customer, readLocalCustomers]

/-- C6: starting from any stored product list `L`, after `N` sequential
successful `POST /api/products` calls in file mode creating `p1, ..., pN`,
`GET /api/products` returns `L` followed by `p1, ..., pN`: oldest first, the
opposite of customers. -/
theorem C6_products_listed_oldest_first (srv : Server) (reqs : List (Env × ProductBody))
    (env : Env) (hmode : srv.useMongoDB = false)
    (hok : ∀ r ∈ (postProductsSeq srv reqs).2, r.status = 201) :
    ((postProductsSeq srv reqs).2.filterMap Response.product).length = reqs.length
      ∧ getProducts (postProductsSeq srv reqs).1 env
        = ⟨200, .products
            (readLocalProducts srv.productsFile
              ++ (postProductsSeq srv reqs).2.filterMap Response.product)⟩ := by
  obtain ⟨h0, h1, h2⟩ := postProductsSeq_file reqs srv hmode hok
  constructor
  · rw [h2, List.length_map]
  · unfold getProducts
    rw [h0, h1, h2]
    simp

/-- Two products created one after the other on an empty store are listed
first first. -/
theorem C6_products_listed_oldest_first_witness :
    getProducts
        (postProductsSeq freshFileServer
          [(sampleEnv 1000, sampleProductBody (.num 7) "Marble White"),
           (sampleEnv 2000, sampleProductBody (.num 8) "Granite Grey")]).1 (sampleEnv 3000)
      = ⟨200, .products
          [newProductData (sampleProductBody (.num 7) "Marble White") (sampleEnv 1000),
           newProductData (sampleProductBody (.num 8) "Granite Grey") (sampleEnv 2000)]⟩ := by
  have h := (C6_products_listed_oldest_first freshFileServer
    [(sampleEnv 1000, sampleProductBody (.num 7) "Marble White"),
     (sampleEnv 2000, sampleProductBody (.num 8) "Granite Grey")]
    (sampleEnv 3000) rfl
    (by simp [postProductsSeq, postProducts, sampleProductBody, sampleEnv, freshFileServer,
          truthy])).2
  rw [h]
  simp [postProductsSeq, postProducts, sampleProductBody, sampleEnv, freshFileServer,
    truthy, Response.product, readLocalProducts]

/-! ## The REST handlers: validation and defaults -/

theorem truthy_of_nonEmptyString (v : JsVal) (h : nonEmptyString v = true) :
    truthy v = true := by
  cases v <;> simp_all [nonEmptyString, truthy]

theorem truthy_eq_false_iff_missingOrEmpty (v : JsVal) (h : absentOrString v = true) :
    truthy v = false ↔ missingOrEmpty v = true := by
  cases v <;> simp_all [absentOrString, missingOrEmpty, truthy]

theorem jsOr_undefined (d : JsVal) : jsOr .undefined d = d := by
  simp [jsOr, truthy]

theorem jsOr_num_zero (q : ℚ) : jsOr (.num q) (.num 0) = .num q := by
  by_cases h : q = 0 <;> simp [jsOr, truthy, h]

theorem jsOr_arr (xs : List JsVal) (d : JsVal) : jsOr (.arr xs) d = .arr xs := by
  simp [jsOr, truthy]

theorem jsOr_ne_undefined_null (a : JsVal) (n : ℚ) :
    jsOr a (.num n) ≠ .undefined ∧ jsOr a (.num n) ≠ .null := by
  cases a <;> simp [jsOr, truthy] <;> split_ifs <;> simp

theorem postCustomers_status_400_iff (srv : Server) (env : Env) (body : CustomerBody) :
    (postCustomers srv env body).response.status = 400 ↔
      (truthy body.fullname = false ∨ truthy body.phone = false ∨ truthy body.address = false
        ∨ truthy body.attender = false ∨ truthy body.attenderPhone = false) := by
  unfold postCustomers
  split_ifs with hv hm hw
  · simp only [true_iff]
    simpa [or_assoc] using hv
  · cases hs : env.mongoSaveCustomer <;> simp_all
  · simp_all
  · simp_all

/-- C7: `POST /api/customers` responds 400 exactly when one of `fullname`,
`phone`, `address`, `attender`, `attenderPhone` is falsy, which for text fields
(each absent or a string) means missing or empty; whenever it responds 400 the
server state is unchanged and no store was read or written. -/
theorem C7_customer_validation (srv : Server) (env : Env) (body : CustomerBody) :
    ((postCustomers srv env body).response.status = 400 ↔
        (truthy body.fullname = false ∨ truthy body.phone = false
          ∨ truthy body.address = false ∨ truthy body.attender = false
          ∨ truthy body.attenderPhone = false))
      ∧ ((postCustomers srv env body).response.status = 400 →
          (postCustomers srv env body).server = srv
            ∧ (postCustomers srv env body).effects = [])
      ∧ (absentOrString body.fullname = true → absentOrString body.phone = true →
          absentOrString body.address = true → absentOrString body.attender = true →
          absentOrString body.attenderPhone = true →
          ((postCustomers srv env body).response.status = 400 ↔
            (missingOrEmpty body.fullname = true ∨ missingOrEmpty body.phone = true
              ∨ missingOrEmpty body.address = true ∨ missingOrEmpty body.attender = true
              ∨ missingOrEmpty body.attenderPhone = true))) := by
  refine ⟨postCustomers_status_400_iff srv env body, ?_, ?_⟩
  · intro h
    unfold postCustomers at h ⊢
    split_ifs at h ⊢ with hv hm hw
    · exact ⟨rfl, rfl⟩
    · cases hs : env.mongoSaveCustomer <;> simp_all
    · simp at h
    · simp at h
  · intro h1 h2 h3 h4 h5
    rw [postCustomers_status_400_iff,
      truthy_eq_false_iff_missingOrEmpty _ h1, truthy_eq_false_iff_missingOrEmpty _ h2,
      truthy_eq_false_iff_missingOrEmpty _ h3, truthy_eq_false_iff_missingOrEmpty _ h4,
      truthy_eq_false_iff_missingOrEmpty _ h5]

/-- A payload whose phone is the empty string is refused with 400 and the
server is left as it was. -/
theorem C7_customer_validation_witness :
    (postCustomers freshFileServer (sampleEnv 1000)
        { sampleCustomerBody "Anand" with phone := .str "" }).response.status = 400
      ∧ (postCustomers freshFileServer (sampleEnv 1000)
          { sampleCustomerBody "Anand" with phone := .str "" }).server = freshFileServer
      ∧ (postCustomers freshFileServer (sampleEnv 1000)
          { sampleCustomerBody "Anand" with phone := .str "" }).effects = [] := by
  have h := C7_customer_validation freshFileServer (sampleEnv 1000)
    { sampleCustomerBody "Anand" with phone := .str "" }
  have h400 := (h.2.2 (by simp [sampleCustomerBody, absentOrString])
    (by simp [absentOrString]) (by simp [sampleCustomerBody, absentOrString])
    (by simp [sampleCustomerBody, absentOrString])
    (by simp [sampleCustomerBody, absentOrString])).mpr
    (Or.inr (Or.inl (by simp [missingOrEmpty])))
  exact ⟨h400, h.2.1 h400⟩

theorem postProducts_response_400_iff (srv : Server) (env : Env) (body : ProductBody) :
    (postProducts srv env body).response.status = 400 ↔
      (truthy body.type = false ∨ truthy body.design = false ∨ truthy body.amount = false) := by
  unfold postProducts
  split_ifs with hv hm hw
  · simp only [true_iff]
    simpa [or_assoc] using hv
  · cases hs : env.mongoSaveProduct <;> simp_all
  · simp_all
  · simp_all

theorem postProducts_400 (srv : Server) (env : Env) (body : ProductBody)
    (h : (postProducts srv env body).response.status = 400) :
    postProducts srv env body
      = ⟨⟨400, .error "Type, Design and Amount are required"⟩, srv, []⟩ := by
  unfold postProducts at h ⊢
  split_ifs at h ⊢ with hv hm hw
  · rfl
  · cases hs : env.mongoSaveProduct <;> simp_all
  · simp at h
  · simp at h

/-- C8: for every customer payload whose five required fields are non-empty
strings, `POST /api/customers` in file mode with no I/O failure responds 201,
and in the returned customer each of `totalAmount`, `totalArea`, `totalWeight`,
`loadingCharges`, `totalTileCost` is the submitted number when one was
submitted and 0 when it was omitted, and `rooms` is the submitted list, the
empty list when omitted. -/
theorem C8_customer_created_defaults (srv : Server) (env : Env) (body : CustomerBody)
    (hmode : srv.useMongoDB = false) (hio : env.writeFileOk = true)
    (h1 : nonEmptyString body.fullname = true) (h2 : nonEmptyString body.phone = true)
    (h3 : nonEmptyString body.address = true) (h4 : nonEmptyString body.attender = true)
    (h5 : nonEmptyString body.attenderPhone = true) :
    ∃ c : CustomerRecord,
      (postCustomers srv env body).response
          = ⟨201, .customerSaved "Customer saved successfully (Local File)" c⟩
        ∧ ((body.totalAmount = .undefined → c.totalAmount = .num 0)
            ∧ ∀ q : ℚ, body.totalAmount = .num q → c.totalAmount = .num q)
        ∧ ((body.totalArea = .undefined → c.totalArea = .num 0)
            ∧ ∀ q : ℚ, body.totalArea = .num q → c.totalArea = .num q)
        ∧ ((body.totalWeight = .undefined → c.totalWeight = .num 0)
            ∧ ∀ q : ℚ, body.totalWeight = .num q → c.totalWeight = .num q)
        ∧ ((body.loadingCharges = .undefined → c.loadingCharges = .num 0)
            ∧ ∀ q : ℚ, body.loadingCharges = .num q → c.loadingCharges = .num q)
        ∧ ((body.totalTileCost = .undefined → c.totalTileCost = .num 0)
            ∧ ∀ q : ℚ, body.totalTileCost = .num q → c.totalTileCost = .num q)
        ∧ ((body.rooms = .undefined → c.rooms = .arr [])
            ∧ ∀ xs : List JsVal, body.rooms = .arr xs → c.rooms = .arr xs) := by
  have t1 := truthy_of_nonEmptyString _ h1
  have t2 := truthy_of_nonEmptyString _ h2
  have t3 := truthy_of_nonEmptyString _ h3
  have t4 := truthy_of_nonEmptyString _ h4
  have t5 := truthy_of_nonEmptyString _ h5
  have key : ∀ (v r : JsVal), r = jsOr v (.num 0) →
      (v = .undefined → r = .num 0) ∧ ∀ q : ℚ, v = .num q → r = .num q := by
    intro v r hr
    refine ⟨fun hv => ?_, fun q hv => ?_⟩
    · rw [hr, hv, jsOr_undefined]
    · rw [hr, hv, jsOr_num_zero]
  refine ⟨newCustomerData body env, ?_, key _ _ rfl, key _ _ rfl, key _ _ rfl, key _ _ rfl,
    key _ _ rfl, ?_, ?_⟩
  · simp [postCustomers, t1, t2, t3, t4, t5, hmode, hio]
  · intro hv
    simp only [newCustomerData, hv, jsOr_undefined]
  · intro xs hv
    simp only [newCustomerData, hv, jsOr_arr]

/-- A payload with the five required fields, a submitted `totalAmount` of 4500
and nothing else is answered 201 with `totalAmount = 4500` and `totalArea = 0`. -/
theorem C8_customer_created_defaults_witness :
    ∃ c : CustomerRecord,
      (postCustomers freshFileServer (sampleEnv 1000)
          { sampleCustomerBody "Anand" with totalAmount := .num 4500 }).response
          = ⟨201, .customerSaved "Customer saved successfully (Local File)" c⟩
        ∧ c.totalAmount = .num 4500 ∧ c.totalArea = .num 0 ∧ c.rooms = .arr [] := by
  obtain ⟨c, hc, ha, hb, _, _, _, hr⟩ := C8_customer_created_defaults freshFileServer
    (sampleEnv 1000) { sampleCustomerBody "Anand" with totalAmount := .num 4500 } rfl rfl
    (by simp [sampleCustomerBody, nonEmptyString]) (by simp [sampleCustomerBody, nonEmptyString])
    (by simp [sampleCustomerBody, nonEmptyString]) (by simp [sampleCustomerBody, nonEmptyString])
    (by simp [sampleCustomerBody, nonEmptyString])
  exact ⟨c, hc, ha.2 4500 rfl, hb.1 rfl, hr.1 rfl⟩

/-- C9: `POST /api/products` responds 400 with the error 'Type, Design and
Amount are required' exactly when one of `type`, `design`, `amount` is absent
or falsy, and then leaves the server state unchanged without touching a store;
otherwise, in file mode with no I/O failure, it responds 201 and returns the
record it appended to the products file. -/
theorem C9_product_validation (srv : Server) (env : Env) (body : ProductBody) :
    ((postProducts srv env body).response.status = 400 ↔
        (truthy body.type = false ∨ truthy body.design = false ∨ truthy body.amount = false))
      ∧ ((postProducts srv env body).response.status = 400 →
          (postProducts srv env body).response
              = ⟨400, .error "Type, Design and Amount are required"⟩
            ∧ (postProducts srv env body).server = srv
            ∧ (postProducts srv env body).effects = [])
      ∧ (¬ (truthy body.type = false ∨ truthy body.design = false ∨ truthy body.amount = false) →
          srv.useMongoDB = false → env.writeFileOk = true →
          ∃ p : ProductRecord,
            (postProducts srv env body).response = ⟨201, .productSaved "Product saved" p⟩
              ∧ (postProducts srv env body).server.productsFile
                = some (readLocalProducts srv.productsFile ++ [p])) := by
  refine ⟨postProducts_response_400_iff srv env body, ?_, ?_⟩
  · intro h
    rw [postProducts_400 srv env body h]
    exact ⟨rfl, rfl, rfl⟩
  · intro hv hmode hio
    refine ⟨newProductData body env, ?_, ?_⟩ <;>
      simp_all [postProducts]

/-- A payload without `amount` is refused with the 400 error; the same payload
with an amount is stored at the end of the file and returned with 201. -/
theorem C9_product_validation_witness :
    (postProducts freshFileServer (sampleEnv 1000)
        { sampleProductBody (.num 7) "Marble White" with amount := .undefined }).response
        = ⟨400, .error "Type, Design and Amount are required"⟩
      ∧ ∃ p : ProductRecord,
          (postProducts freshFileServer (sampleEnv 1000)
              (sampleProductBody (.num 7) "Marble White")).response
              = ⟨201, .productSaved "Product saved" p⟩
            ∧ (postProducts freshFileServer (sampleEnv 1000)
                (sampleProductBody (.num 7) "Marble White")).server.productsFile
              = some (readLocalProducts freshFileServer.productsFile ++ [p]) := by
  have hbad := C9_product_validation freshFileServer (sampleEnv 1000)
    { sampleProductBody (.num 7) "Marble White" with amount := .undefined }
  have hgood := C9_product_validation freshFileServer (sampleEnv 1000)
    (sampleProductBody (.num 7) "Marble White")
  exact ⟨(hbad.2.1 (hbad.1.mpr (Or.inr (Or.inr (by simp [truthy]))))).1,
    hgood.2.2 (by simp [sampleProductBody, truthy]) rfl rfl⟩

/-- C10 as stated fails: a caller-supplied identifier 0 is accepted (201) and
the record stored in the file carries the clock reading instead of 0. -/
theorem C10_counterexample :
    (sampleProductBody (.num 0) "Marble White").id = .num 0
      ∧ (postProducts freshFileServer (sampleEnv 1700000000000)
          (sampleProductBody (.num 0) "Marble White")).response.status = 201
      ∧ ((postProducts freshFileServer (sampleEnv 1700000000000)
          (sampleProductBody (.num 0) "Marble White")).server.productsFile).map
            (List.map ProductRecord.id) = some [.num 1700000000000]
      ∧ (JsVal.num 1700000000000 ≠ JsVal.num 0) := by
  refine ⟨rfl, ?_, ?_, ?_⟩
  · simp [postProducts, sampleProductBody, sampleEnv, freshFileServer, truthy]
  · simp [postProducts, sampleProductBody, sampleEnv, freshFileServer, truthy,
      readLocalProducts, newProductData, jsOr]
  · simp

/-- C10 (amended): for every accepted product create, in either storage mode,
the record the handler builds is `newProductData`, whose id is the caller's
identifier when that identifier is truthy, is the current time in milliseconds
when the identifier is omitted or falsy (0, `null`, `false`, the empty
string), and is never `null` or `undefined`. In file mode that record is the
one stored (appended to the file) and returned; in database mode it is the
document handed to `new Product(..).save()`, nothing is written to the files,
and the response carries what Mongoose resolved. -/
theorem C10_product_id (srv : Server) (env : Env) (body : ProductBody)
    (hok : (postProducts srv env body).response.status = 201) :
    (truthy body.id = true → (newProductData body env).id = body.id)
      ∧ (body.id = .undefined → (newProductData body env).id = .num env.dateNow)
      ∧ (truthy body.id = false → (newProductData body env).id = .num env.dateNow)
      ∧ (newProductData body env).id ≠ .undefined
      ∧ (newProductData body env).id ≠ .null
      ∧ (srv.useMongoDB = false →
          (postProducts srv env body).server.productsFile
              = some (readLocalProducts srv.productsFile ++ [newProductData body env])
            ∧ (postProducts srv env body).response.product = some (newProductData body env))
      ∧ (srv.useMongoDB = true →
          (postProducts srv env body).effects = [.mongoSaveProduct (newProductData body env)]
            ∧ (postProducts srv env body).server = srv
            ∧ (postProducts srv env body).response.product = env.mongoSaveProduct) := by
  refine ⟨?_, ?_, ?_, ?_, ?_, ?_, ?_⟩
  · intro h
    simp [newProductData, jsOr, h]
  · intro h
    simp [newProductData, h, jsOr_undefined]
  · intro h
    simp [newProductData, jsOr, h]
  · exact (jsOr_ne_undefined_null body.id env.dateNow).1
  · exact (jsOr_ne_undefined_null body.id env.dateNow).2
  · intro hmode
    obtain ⟨hsrv, hprod⟩ := postProducts_created srv env body hmode hok
    exact ⟨by rw [hsrv], hprod⟩
  · intro hmode
    exact postProducts_database srv env body hmode hok

/-- A create that supplies id 7 builds a record with id 7: in file mode the
record is appended to the file, in database mode it is the document handed to
Mongoose. -/
theorem C10_product_id_witness :
    ((postProducts freshFileServer (sampleEnv 1000)
          (sampleProductBody (.num 7) "Marble White")).server.productsFile
          = some [newProductData (sampleProductBody (.num 7) "Marble White") (sampleEnv 1000)]
        ∧ (newProductData (sampleProductBody (.num 7) "Marble White") (sampleEnv 1000)).id
          = .num 7)
      ∧ (postProducts { freshFileServer with useMongoDB := true }
          { sampleEnv 1000 with mongoSaveProduct := some (sampleProduct (.num 7)) }
          (sampleProductBody (.num 7) "Marble White")).effects
        = [.mongoSaveProduct
            (newProductData (sampleProductBody (.num 7) "Marble White")
              { sampleEnv 1000 with mongoSaveProduct := some (sampleProduct (.num 7)) })] := by
  have h := C10_product_id freshFileServer (sampleEnv 1000)
    (sampleProductBody (.num 7) "Marble White")
    (by simp [postProducts, sampleProductBody, sampleEnv, freshFileServer, truthy])
  have hdb := C10_product_id { freshFileServer with useMongoDB := true }
    { sampleEnv 1000 with mongoSaveProduct := some (sampleProduct (.num 7)) }
    (sampleProductBody (.num 7) "Marble White")
    (by simp [postProducts, sampleProductBody, sampleEnv, freshFileServer, truthy])
  exact ⟨⟨(h.2.2.2.2.2.1 rfl).1, h.1 (by simp [sampleProductBody, truthy])⟩,
    (hdb.2.2.2.2.2.2 rfl).1⟩

/-! ## Product identifiers taken from the clock -/

/-- C11 as stated fails: two creates that omit `id` and are served within the
same millisecond are both accepted and stored with the same id. -/
theorem C11_counterexample :
    (postProductsSeq freshFileServer
        [(sampleEnv 1700000000000, sampleProductBody .undefined "Marble White"),
         (sampleEnv 1700000000000, sampleProductBody .undefined "Granite Grey")]).2.map
          Response.status = [201, 201]
      ∧ ((postProductsSeq freshFileServer
          [(sampleEnv 1700000000000, sampleProductBody .undefined "Marble White"),
           (sampleEnv 1700000000000, sampleProductBody .undefined "Granite Grey")]).1.productsFile).map
            (List.map ProductRecord.id)
          = some [.num 1700000000000, .num 1700000000000] := by
  constructor <;>
    simp [postProductsSeq, postProducts, sampleProductBody, sampleEnv, freshFileServer, truthy,
      readLocalProducts, newProductData, jsOr]

/-- C11 (amended): for every sequence of successive accepted product creates
that omit `id`, in either storage mode, the ids of the records the handler
builds are, in order, the integer clock readings `Date.now()` of the creates,
so they are strictly increasing whenever those readings are strictly
increasing. In file mode these records are the ones stored (appended to the
file in order) and returned; in database mode they are the documents handed to
`new Product(..).save()`, one per create and in order. -/
theorem C11_ids_are_clock_readings (srv : Server) (reqs : List (Env × ProductBody))
    (hok : ∀ r ∈ (postProductsSeq srv reqs).2, r.status = 201)
    (homit : ∀ p ∈ reqs, p.2.id = .undefined) :
    (reqs.map (fun p => (newProductData p.2 p.1).id)
        = reqs.map (fun p => JsVal.num ((p.1.dateNow : ℕ) : ℚ)))
      ∧ ((reqs.map (fun p => p.1.dateNow)).Pairwise (fun a b => a < b) →
          (reqs.map (fun p => (newProductData p.2 p.1).id)).Pairwise
            (fun a b => ∃ x y : ℕ, a = .num x ∧ b = .num y ∧ x < y))
      ∧ (srv.useMongoDB = false →
          readLocalProducts (postProductsSeq srv reqs).1.productsFile
              = readLocalProducts srv.productsFile
                  ++ reqs.map (fun p => newProductData p.2 p.1)
            ∧ (postProductsSeq srv reqs).2.filterMap Response.product
              = reqs.map (fun p => newProductData p.2 p.1)
            ∧ ((postProductsSeq srv reqs).2.filterMap Response.product).map ProductRecord.id
              = reqs.map (fun p => JsVal.num ((p.1.dateNow : ℕ) : ℚ)))
      ∧ (srv.useMongoDB = true →
          postProductsSeqEffects srv reqs
              = reqs.map (fun p => Effect.mongoSaveProduct (newProductData p.2 p.1))
            ∧ (postProductsSeq srv reqs).1 = srv) := by
  have hids : reqs.map (fun p => (newProductData p.2 p.1).id)
      = reqs.map (fun p => JsVal.num ((p.1.dateNow : ℕ) : ℚ)) := by
    apply List.map_congr_left
    intro p hp
    simp [newProductData, homit p hp, jsOr_undefined]
  refine ⟨hids, ?_, ?_, ?_⟩
  · intro hclock
    rw [hids, List.pairwise_map]
    rw [List.pairwise_map] at hclock
    exact hclock.imp (fun {a b} hab => ⟨a.1.dateNow, b.1.dateNow, rfl, rfl, hab⟩)
  · intro hmode
    obtain ⟨_, h1, h2⟩ := postProductsSeq_file reqs srv hmode hok
    refine ⟨h1, h2, ?_⟩
    rw [h2, List.map_map, ← hids]
    rfl
  · intro hmode
    obtain ⟨h1, h2⟩ := postProductsSeq_database reqs srv hmode hok
    exact ⟨h2, h1⟩

/-- Two creates that omit `id`, served at clock readings 1000 and 2000, are
stored in file mode with the ids 1000 and 2000, and are handed to Mongoose in
database mode with those ids. -/
theorem C11_ids_are_clock_readings_witness :
    (((postProductsSeq freshFileServer
          [(sampleEnv 1000, sampleProductBody .undefined "Marble White"),
           (sampleEnv 2000, sampleProductBody .undefined "Granite Grey")]).2.filterMap
            Response.product).map ProductRecord.id
        = [.num 1000, .num 2000])
      ∧ postProductsSeqEffects { freshFileServer with useMongoDB := true }
          [({ sampleEnv 1000 with mongoSaveProduct := some (sampleProduct (.num 1000)) },
              sampleProductBody .undefined "Marble White"),
           ({ sampleEnv 2000 with mongoSaveProduct := some (sampleProduct (.num 2000)) },
              sampleProductBody .undefined "Granite Grey")]
        = [.mongoSaveProduct
            { sampleProduct (.num 1000) with
              createdAt := 1000 },
           .mongoSaveProduct
            { sampleProduct (.num 2000) with
              design := .str "Granite Grey"
              createdAt := 2000 }] := by
  constructor
  · have h := ((C11_ids_are_clock_readings freshFileServer
      [(sampleEnv 1000, sampleProductBody .undefined "Marble White"),
       (sampleEnv 2000, sampleProductBody .undefined "Granite Grey")]
      (by simp [postProductsSeq, postProducts, sampleProductBody, sampleEnv, freshFileServer,
            truthy])
      (by simp [sampleProductBody])).2.2.1 rfl).2.2
    rw [h]
    simp [sampleEnv]
  · have h := ((C11_ids_are_clock_readings { freshFileServer with useMongoDB := true }
      [({ sampleEnv 1000 with mongoSaveProduct := some (sampleProduct (.num 1000)) },
          sampleProductBody .undefined "Marble White"),
       ({ sampleEnv 2000 with mongoSaveProduct := some (sampleProduct (.num 2000)) },
          sampleProductBody .undefined "Granite Grey")]
      (by simp [postProductsSeq, postProducts, sampleProductBody, sampleEnv, freshFileServer,
            truthy])
      (by simp [sampleProductBody])).2.2.2 rfl).1
    rw [h]
    simp [newProductData, sampleProductBody, sampleEnv, sampleProduct, jsOr, truthy]

/-! ## Deleting a product -/

theorem strictEqNumber_none (v : JsVal) : strictEqNumber v none = false := by
  cases v <;> rfl

theorem looseEqString_primitive (toPrimitive : JsVal → Option String) (v : JsVal)
    (id : String) (harr : ∀ xs, v ≠ .arr xs) (hobj : ∀ kvs, v ≠ .obj kvs) :
    looseEqString toPrimitive v id ≠ none := by
  cases v with
  | arr xs => exact absurd rfl (harr xs)
  | obj kvs => exact absurd rfl (hobj kvs)
  | _ => simp [looseEqString]

theorem looseFilter_eq_none_iff (toPrimitive : JsVal → Option String) (id : String)
    (products : List ProductRecord) :
    looseFilter toPrimitive id products = none ↔
      ∃ p ∈ products, looseEqString toPrimitive p.id id = none := by
  induction products with
  | nil => simp [looseFilter]
  | cons p rest ih =>
    unfold looseFilter
    cases h : looseEqString toPrimitive p.id id with
    | none => simp [h]
    | some equal =>
      cases h2 : looseFilter toPrimitive id rest with
      | none =>
        have := ih.mp h2
        simp [h, this]
      | some kept =>
        have hno : ¬ ∃ p ∈ rest, looseEqString toPrimitive p.id id = none := by
          intro hc
          rw [ih.mpr hc] at h2
          exact absurd h2 (by simp)
        constructor
        · intro hc; exact absurd hc (by simp)
        · rintro ⟨q, hq, hqn⟩
          rcases List.mem_cons.mp hq with hq | hq
          · rw [hq, h] at hqn
            exact absurd hqn (by simp)
          · exact absurd ⟨q, hq, hqn⟩ hno

theorem looseFilter_eq_some (toPrimitive : JsVal → Option String) (id : String)
    (products kept : List ProductRecord)
    (h : looseFilter toPrimitive id products = some kept) :
    kept = products.filter (fun p => !decide (looseEqString toPrimitive p.id id = some true))
      ∧ ∀ p ∈ products, looseEqString toPrimitive p.id id ≠ none := by
  induction products generalizing kept with
  | nil =>
    simp [looseFilter] at h
    simp [h]
  | cons p rest ih =>
    unfold looseFilter at h
    cases h1 : looseEqString toPrimitive p.id id with
    | none => rw [h1] at h; exact absurd h (by simp)
    | some equal =>
      rw [h1] at h
      cases h2 : looseFilter toPrimitive id rest with
      | none => rw [h2] at h; exact absurd h (by simp)
      | some keptRest =>
        rw [h2] at h
        obtain ⟨hk, hno⟩ := ih keptRest h2
        simp only [Option.some.injEq] at h
        constructor
        · rw [← h, hk]
          cases equal <;> simp [List.filter_cons, h1]
        · intro q hq
          rcases List.mem_cons.mp hq with hq | hq
          · rw [hq, h1]; simp
          · exact hno q hq

theorem looseFilter_of_no_throw (toPrimitive : JsVal → Option String) (id : String)
    (products : List ProductRecord)
    (h : ∀ p ∈ products, looseEqString toPrimitive p.id id ≠ none) :
    looseFilter toPrimitive id products
      = some (products.filter
          (fun p => !decide (looseEqString toPrimitive p.id id = some true))) := by
  cases hf : looseFilter toPrimitive id products with
  | none =>
    obtain ⟨p, hp, hnone⟩ := (looseFilter_eq_none_iff toPrimitive id products).mp hf
    exact absurd hnone (h p hp)
  | some kept => rw [(looseFilter_eq_some toPrimitive id products kept hf).1]

theorem deleteFilter_cases (toPrimitive : JsVal → Option String)
    (products : List ProductRecord) (id : String) :
    deleteFilter toPrimitive products id
      = if (∀ p ∈ products, strictEqNumber p.id (parseInt id) = false)
            ∧ (parseInt id).isSome = true then
          looseFilter toPrimitive id products
        else some (products.filter (fun p => !strictEqNumber p.id (parseInt id))) := by
  unfold deleteFilter
  simp only [List.filter_length_eq_length]
  by_cases h : (∀ a ∈ products, (!strictEqNumber a.id (parseInt id)) = true)
      ∧ (parseInt id).isSome = true
  · have h2 : (∀ p ∈ products, strictEqNumber p.id (parseInt id) = false)
        ∧ (parseInt id).isSome = true :=
      ⟨fun a ha => by simpa using h.1 a ha, h.2⟩
    rw [if_pos h, if_pos h2, List.filter_eq_self.mpr h.1]
  · have h2 : ¬ ((∀ p ∈ products, strictEqNumber p.id (parseInt id) = false)
        ∧ (parseInt id).isSome = true) := by
      intro hc
      exact h ⟨fun a ha => by simpa using hc.1 a ha, hc.2⟩
    rw [if_neg h, if_neg h2]

theorem deleteFilter_none (toPrimitive : JsVal → Option String)
    (products : List ProductRecord) (id : String)
    (h : deleteFilter toPrimitive products id = none) :
    (∀ p ∈ products, strictEqNumber p.id (parseInt id) = false)
      ∧ (parseInt id).isSome = true
      ∧ looseFilter toPrimitive id products = none := by
  rw [deleteFilter_cases] at h
  split_ifs at h with hc
  exact ⟨hc.1, hc.2, h⟩

theorem deleteFilter_of_no_strict (toPrimitive : JsVal → Option String)
    (products : List ProductRecord) (id : String)
    (h : ∀ p ∈ products, strictEqNumber p.id (parseInt id) = false) :
    deleteFilter toPrimitive products id
      = if (parseInt id).isSome then looseFilter toPrimitive id products
        else some products := by
  rw [deleteFilter_cases]
  by_cases hs : (parseInt id).isSome = true
  · rw [if_pos ⟨h, hs⟩, if_pos hs]
  · have hself : products.filter (fun p => !strictEqNumber p.id (parseInt id)) = products :=
      List.filter_eq_self.mpr (fun p hp => by simp [h p hp])
    rw [if_neg (fun hc => hs hc.2), if_neg hs, hself]

theorem deleteFilter_some (toPrimitive : JsVal → Option String)
    (products kept : List ProductRecord) (id : String)
    (h : deleteFilter toPrimitive products id = some kept) :
    List.Sublist kept products
      ∧ (∀ p ∈ kept, strictEqNumber p.id (parseInt id) = false)
      ∧ (((∃ p ∈ products, strictEqNumber p.id (parseInt id) = true) ∨ parseInt id = none) →
          kept = products.filter (fun p => !strictEqNumber p.id (parseInt id)))
      ∧ ((∀ p ∈ products, strictEqNumber p.id (parseInt id) = false) →
          (parseInt id).isSome = true →
          kept = products.filter
              (fun p => !decide (looseEqString toPrimitive p.id id = some true))
            ∧ ∀ p ∈ products, looseEqString toPrimitive p.id id ≠ none) := by
  rw [deleteFilter_cases] at h
  split_ifs at h with hc
  · obtain ⟨hk, hno⟩ := looseFilter_eq_some toPrimitive id products kept h
    refine ⟨?_, ?_, ?_, ?_⟩
    · rw [hk]; exact List.filter_sublist _
    · intro p hp
      rw [hk] at hp
      exact hc.1 p (List.mem_filter.mp hp).1
    · rintro (⟨p, hp, hst⟩ | hnone)
      · rw [hc.1 p hp] at hst
        exact absurd hst (by simp)
      · rw [hnone] at hc
        exact absurd hc.2 (by simp)
    · intro _ _
      exact ⟨hk, hno⟩
  · simp only [Option.some.injEq] at h
    refine ⟨?_, ?_, ?_, ?_⟩
    · rw [← h]; exact List.filter_sublist _
    · intro p hp
      rw [← h] at hp
      simpa using (List.mem_filter.mp hp).2
    · intro _
      exact h.symm
    · intro hall hsome
      exact absurd ⟨hall, hsome⟩ hc

theorem deleteProduct_file (toPrimitive : JsVal → Option String) (srv : Server) (env : Env)
    (id : String) (hmode : srv.useMongoDB = false) (hio : env.writeFileOk = true) :
    (deleteFilter toPrimitive (readLocalProducts srv.productsFile) id = none →
        deleteProduct toPrimitive srv env id
          = ⟨⟨500, .error "Failed to delete product"⟩, srv, [.readProductsFile]⟩)
      ∧ (∀ kept, deleteFilter toPrimitive (readLocalProducts srv.productsFile) id = some kept →
          deleteProduct toPrimitive srv env id
            = ⟨⟨200, .message "Product deleted"⟩,
                { srv with
                  productsFile := some kept },
                [.readProductsFile, .writeProductsFile]⟩) := by
  constructor
  · intro h
    simp [deleteProduct, hmode, h]
  · intro kept h
    simp [deleteProduct, hmode, hio, h]

theorem deleteProduct_server (toPrimitive : JsVal → Option String) (srv : Server) (env : Env)
    (id : String) (hmode : srv.useMongoDB = false) (hio : env.writeFileOk = true) :
    (deleteProduct toPrimitive srv env id).server
      = { srv with
          productsFile := deleteStored toPrimitive id srv.productsFile } := by
  unfold deleteStored
  cases h : deleteFilter toPrimitive (readLocalProducts srv.productsFile) id with
  | none => rw [(deleteProduct_file toPrimitive srv env id hmode hio).1 h]
  | some kept => rw [(deleteProduct_file toPrimitive srv env id hmode hio).2 kept h]

theorem deleteTimes_file (toPrimitive : JsVal → Option String) (srv : Server) (env : Env)
    (id : String) (hmode : srv.useMongoDB = false) (hio : env.writeFileOk = true) (n : Nat) :
    deleteTimes toPrimitive srv env id n
      = { srv with
          productsFile := (deleteStored toPrimitive id)^[n] srv.productsFile } := by
  induction n with
  | zero => rfl
  | succ k ih =>
    have hm : (deleteTimes toPrimitive srv env id k).useMongoDB = false := by
      rw [ih]; exact hmode
    show (deleteProduct toPrimitive (deleteTimes toPrimitive srv env id k) env id).server = _
    rw [deleteProduct_server toPrimitive _ env id hm hio, ih, Function.iterate_succ_apply']

theorem server_file_eq_iff (srv : Server) (f g : Option (List ProductRecord)) :
    ({ srv with productsFile := f } : Server) = { srv with productsFile := g } ↔ f = g := by
  constructor
  · intro h
    exact congrArg Server.productsFile h
  · intro h
    rw [h]

theorem deleteStored_read (toPrimitive : JsVal → Option String) (id : String)
    (file : Option (List ProductRecord)) :
    (deleteFilter toPrimitive (readLocalProducts file) id = none
        ∧ deleteStored toPrimitive id file = file)
      ∨ ∃ kept, deleteFilter toPrimitive (readLocalProducts file) id = some kept
          ∧ deleteStored toPrimitive id file = some kept := by
  unfold deleteStored
  cases h : deleteFilter toPrimitive (readLocalProducts file) id with
  | none => exact Or.inl ⟨rfl, rfl⟩
  | some kept => exact Or.inr ⟨kept, rfl, rfl⟩

theorem deleteStored_strict_free (toPrimitive : JsVal → Option String) (id : String)
    (file : Option (List ProductRecord)) :
    ∀ p ∈ readLocalProducts (deleteStored toPrimitive id file),
      strictEqNumber p.id (parseInt id) = false := by
  rcases deleteStored_read toPrimitive id file with ⟨hnone, hfile⟩ | ⟨kept, hsome, hfile⟩
  · rw [hfile]
    exact (deleteFilter_none toPrimitive _ id hnone).1
  · rw [hfile]
    exact (deleteFilter_some toPrimitive _ kept id hsome).2.1

theorem deleteStored_twice_iff (toPrimitive : JsVal → Option String) (id : String)
    (file : Option (List ProductRecord)) :
    deleteStored toPrimitive id (deleteStored toPrimitive id file)
        = deleteStored toPrimitive id file ↔
      (parseInt id = none
        ∨ deleteFilter toPrimitive
            (readLocalProducts (deleteStored toPrimitive id file)) id = none
        ∨ ∀ p ∈ readLocalProducts (deleteStored toPrimitive id file),
            looseEqString toPrimitive p.id id ≠ some true) := by
  have hfree := deleteStored_strict_free toPrimitive id file
  have hsecond := deleteFilter_of_no_strict toPrimitive _ id hfree
  rcases deleteStored_read toPrimitive id (deleteStored toPrimitive id file) with
    ⟨hnone2, hfile2⟩ | ⟨kept2, hsome2, hfile2⟩
  · rw [hfile2]
    exact ⟨fun _ => Or.inr (Or.inl hnone2), fun _ => rfl⟩
  · rw [hfile2]
    rcases deleteStored_read toPrimitive id file with ⟨hnone1, hfile1⟩ | ⟨kept1, hsome1, hfile1⟩
    · rw [hfile1] at hsome2
      rw [hnone1] at hsome2
      exact absurd hsome2 (by simp)
    · rw [hfile1] at hsome2 hsecond ⊢
      have hread : readLocalProducts (some kept1) = kept1 := rfl
      rw [hread] at hsome2 hsecond ⊢
      rw [hsome2] at hsecond
      by_cases hs : (parseInt id).isSome = true
      · rw [if_pos hs] at hsecond
        obtain ⟨hk, _⟩ := looseFilter_eq_some toPrimitive id kept1 kept2 hsecond.symm
        have hne : parseInt id ≠ none := by
          intro hc; rw [hc] at hs; exact absurd hs (by simp)
        constructor
        · intro heq
          right; right
          have hk2 : kept2 = kept1 := by simpa using heq
          rw [hk2] at hk
          intro p hp
          have := (List.filter_eq_self.mp hk.symm) p hp
          simpa using this
        · rintro (hc | hc | hc)
          · exact absurd hc hne
          · rw [hsome2] at hc
            exact absurd hc (by simp)
          · have hself : kept1.filter
                (fun p => !decide (looseEqString toPrimitive p.id id = some true)) = kept1 :=
              List.filter_eq_self.mpr (fun p hp => by simpa using hc p hp)
            rw [hk, hself]
      · rw [if_neg hs] at hsecond
        have hk2 : kept2 = kept1 := by simpa using hsecond
        rw [hk2]
        have hnone : parseInt id = none := by
          cases hp : parseInt id with
          | none => rfl
          | some n => rw [hp] at hs; exact absurd rfl hs
        exact ⟨fun _ => Or.inl hnone, fun _ => rfl⟩

theorem deleteStored_thrice (toPrimitive : JsVal → Option String) (id : String)
    (file : Option (List ProductRecord)) :
    deleteStored toPrimitive id
        (deleteStored toPrimitive id (deleteStored toPrimitive id file))
      = deleteStored toPrimitive id (deleteStored toPrimitive id file) := by
  rw [deleteStored_twice_iff]
  have hfree := deleteStored_strict_free toPrimitive id file
  have hsecond := deleteFilter_of_no_strict toPrimitive _ id hfree
  rcases deleteStored_read toPrimitive id (deleteStored toPrimitive id file) with
    ⟨hnone2, hfile2⟩ | ⟨kept2, hsome2, hfile2⟩
  · rw [hfile2]
    exact Or.inr (Or.inl hnone2)
  · rw [hfile2]
    by_cases hs : (parseInt id).isSome = true
    · rw [hsome2, if_pos hs] at hsecond
      obtain ⟨hk, _⟩ := looseFilter_eq_some toPrimitive id _ kept2 hsecond.symm
      right; right
      intro p hp
      have hp2 : p ∈ kept2 := hp
      rw [hk] at hp2
      simpa using (List.mem_filter.mp hp2).2
    · left
      cases hp : parseInt id with
      | none => rfl
      | some n => rw [hp] at hs; exact absurd rfl hs

theorem deleteStored_twice_of_no_strict (toPrimitive : JsVal → Option String) (id : String)
    (file : Option (List ProductRecord))
    (hno : ∀ p ∈ readLocalProducts file, strictEqNumber p.id (parseInt id) = false) :
    deleteStored toPrimitive id (deleteStored toPrimitive id file)
      = deleteStored toPrimitive id file := by
  rw [deleteStored_twice_iff]
  have hfirst := deleteFilter_of_no_strict toPrimitive _ id hno
  rcases deleteStored_read toPrimitive id file with ⟨hnone1, hfile1⟩ | ⟨kept1, hsome1, hfile1⟩
  · rw [hfile1]
    exact Or.inr (Or.inl hnone1)
  · rw [hfile1]
    by_cases hs : (parseInt id).isSome = true
    · rw [hsome1, if_pos hs] at hfirst
      obtain ⟨hk, _⟩ := looseFilter_eq_some toPrimitive id _ kept1 hfirst.symm
      right; right
      intro p hp
      have hp2 : p ∈ kept1 := hp
      rw [hk] at hp2
      simpa using (List.mem_filter.mp hp2).2
    · left
      cases hp : parseInt id with
      | none => rfl
      | some n => rw [hp] at hs; exact absurd rfl hs

theorem parseInt_five : parseInt "5" = some 5 := by decide

theorem parseInt_seven : parseInt "7" = some 7 := by decide

theorem parseInt_abc : parseInt "abc" = none := by decide

theorem parseInt_1e3 : parseInt "1e3" = some 1 := by decide

theorem parseInt_1abc : parseInt "1abc" = some 1 := by decide

theorem stringToNumber_1e3 : stringToNumber "1e3" = some 1000 := by
  simp [stringToNumber, isStrWhiteSpace, startsWithZero, startsWithSign, startsWithMinus,
    unsignedDecimalLiteral, isRadixDigit, digitValue, exponentPart, digitsValue]
  norm_num

theorem stringToNumber_1abc : stringToNumber "1abc" = none := by
  simp [stringToNumber, isStrWhiteSpace, startsWithZero, startsWithSign, startsWithMinus,
    unsignedDecimalLiteral, isRadixDigit, digitValue, exponentPart, digitsValue]

theorem stringToNumber_seven : stringToNumber "7" = some 7 := by
  simp [stringToNumber, isStrWhiteSpace, startsWithZero, startsWithSign, startsWithMinus,
    unsignedDecimalLiteral, isRadixDigit, digitValue, exponentPart, digitsValue]

theorem jsonToPrimitive_objectId :
    jsonToPrimitive wholeNumberToString objectId = none := by
  simp [jsonToPrimitive, jsonToString, objectId]

/-! ## Deleting a product: success, idempotence, fallback and frame -/

/-- C12 as stated fails: a create in file mode accepts the id
`{"toString": 1}` (201, stored as sent); `DELETE /api/products/5` then finds no
numeric match, the comparison `p.id != id` throws on that id and the handler
answers 500 without writing, although no I/O failed. With the products 5 and
`{"toString": 1}` stored, the first `DELETE /api/products/5` answers 200 and
the second one 500. -/
theorem C12_counterexample :
    ((postProducts freshFileServer (sampleEnv 1000)
          (sampleProductBody objectId "Marble White")).response.status = 201
        ∧ (postProducts freshFileServer (sampleEnv 1000)
            (sampleProductBody objectId "Marble White")).server
          = fileServerWith
              [newProductData (sampleProductBody objectId "Marble White") (sampleEnv 1000)]
        ∧ (newProductData (sampleProductBody objectId "Marble White") (sampleEnv 1000)).id
          = objectId
        ∧ deleteProduct (jsonToPrimitive wholeNumberToString)
            (fileServerWith
              [newProductData (sampleProductBody objectId "Marble White") (sampleEnv 1000)])
            (sampleEnv 2000) "5"
          = ⟨⟨500, .error "Failed to delete product"⟩,
              fileServerWith
                [newProductData (sampleProductBody objectId "Marble White") (sampleEnv 1000)],
              [.readProductsFile]⟩)
      ∧ ((deleteProduct (jsonToPrimitive wholeNumberToString)
            (fileServerWith [sampleProduct (.num 5), sampleProduct objectId])
            (sampleEnv 2000) "5").response = ⟨200, .message "Product deleted"⟩
        ∧ (deleteProduct (jsonToPrimitive wholeNumberToString)
            (fileServerWith [sampleProduct (.num 5), sampleProduct objectId])
            (sampleEnv 2000) "5").server = fileServerWith [sampleProduct objectId]
        ∧ (deleteProduct (jsonToPrimitive wholeNumberToString)
            (fileServerWith [sampleProduct objectId])
            (sampleEnv 3000) "5").response = ⟨500, .error "Failed to delete product"⟩) := by
  refine ⟨⟨?_, ?_, ?_, ?_⟩, ⟨?_, ?_, ?_⟩⟩
  · simp [postProducts, sampleProductBody, sampleEnv, freshFileServer, truthy]
  · simp [postProducts, sampleProductBody, sampleEnv, freshFileServer, truthy, fileServerWith,
      readLocalProducts]
  · simp [newProductData, sampleProductBody, objectId, jsOr, truthy]
  · simp [deleteProduct, fileServerWith, sampleEnv, readLocalProducts, deleteFilter,
      parseInt_five, strictEqNumber, looseFilter, looseEqString, jsonToPrimitive,
      jsonToString, newProductData, sampleProductBody, objectId, jsOr, truthy]
  · simp [deleteProduct, fileServerWith, sampleEnv, readLocalProducts, deleteFilter,
      parseInt_five, strictEqNumber, sampleProduct, objectId]
  · simp [deleteProduct, fileServerWith, sampleEnv, readLocalProducts, deleteFilter,
      parseInt_five, strictEqNumber, sampleProduct, objectId]
  · simp [deleteProduct, fileServerWith, sampleEnv, readLocalProducts, deleteFilter,
      parseInt_five, strictEqNumber, looseFilter, looseEqString, jsonToPrimitive,
      jsonToString, sampleProduct, objectId]

/-- C12 (amended): in file mode with no I/O failure, for every stored product
collection on which the comparison `p.id != id` does not throw (so whenever
no stored id is an array or an object, as with the numbers of the data model)
and every request id, `DELETE /api/products/:id` responds 200 with the message
'Product deleted', and so does a second delete of the same id, whether or not
a record matched. In general the response is either that success or 500
'Failed to delete product' with the server left as it was, the latter exactly
when no stored id is the parsed number, the request id parses as an integer
and the comparison throws on some stored id. -/
theorem C12_delete_reports_success (toPrimitive : JsVal → Option String) (srv : Server)
    (env env2 : Env) (id : String) (hmode : srv.useMongoDB = false)
    (hio : env.writeFileOk = true) (hio2 : env2.writeFileOk = true) :
    ((∀ p ∈ readLocalProducts srv.productsFile, looseEqString toPrimitive p.id id ≠ none) →
        (deleteProduct toPrimitive srv env id).response = ⟨200, .message "Product deleted"⟩
          ∧ (deleteProduct toPrimitive (deleteProduct toPrimitive srv env id).server env2
              id).response = ⟨200, .message "Product deleted"⟩)
      ∧ ((∀ p ∈ readLocalProducts srv.productsFile,
            (∀ xs, p.id ≠ .arr xs) ∧ (∀ kvs, p.id ≠ .obj kvs)) →
          ∀ p ∈ readLocalProducts srv.productsFile, looseEqString toPrimitive p.id id ≠ none)
      ∧ ((deleteProduct toPrimitive srv env id).response = ⟨200, .message "Product deleted"⟩
          ∨ ((deleteProduct toPrimitive srv env id).response
                = ⟨500, .error "Failed to delete product"⟩
              ∧ (deleteProduct toPrimitive srv env id).server = srv))
      ∧ ((deleteProduct toPrimitive srv env id).response
            = ⟨500, .error "Failed to delete product"⟩ ↔
          ((∀ p ∈ readLocalProducts srv.productsFile,
              strictEqNumber p.id (parseInt id) = false)
            ∧ (parseInt id).isSome = true
            ∧ ∃ p ∈ readLocalProducts srv.productsFile,
                looseEqString toPrimitive p.id id = none)) := by
  have hfile := deleteProduct_file toPrimitive srv env id hmode hio
  have hthrow : deleteFilter toPrimitive (readLocalProducts srv.productsFile) id = none ↔
      ((∀ p ∈ readLocalProducts srv.productsFile, strictEqNumber p.id (parseInt id) = false)
        ∧ (parseInt id).isSome = true
        ∧ ∃ p ∈ readLocalProducts srv.productsFile,
            looseEqString toPrimitive p.id id = none) := by
    constructor
    · intro h
      obtain ⟨h1, h2, h3⟩ := deleteFilter_none toPrimitive _ id h
      exact ⟨h1, h2, (looseFilter_eq_none_iff toPrimitive id _).mp h3⟩
    · rintro ⟨h1, h2, h3⟩
      rw [deleteFilter_cases, if_pos ⟨h1, h2⟩]
      exact (looseFilter_eq_none_iff toPrimitive id _).mpr h3
  refine ⟨?_, ?_, ?_, ?_⟩
  · intro hno
    cases h : deleteFilter toPrimitive (readLocalProducts srv.productsFile) id with
    | none =>
      obtain ⟨p, hp, hnone⟩ := (hthrow.mp h).2.2
      exact absurd hnone (hno p hp)
    | some kept =>
      have h1 := hfile.2 kept h
      refine ⟨by rw [h1], ?_⟩
      rw [h1]
      have hsub := (deleteFilter_some toPrimitive _ kept id h).1
      cases h2 : deleteFilter toPrimitive kept id with
      | none =>
        obtain ⟨_, _, h3⟩ := deleteFilter_none toPrimitive _ id h2
        obtain ⟨p, hp, hnone⟩ := (looseFilter_eq_none_iff toPrimitive id _).mp h3
        exact absurd hnone (hno p (hsub.subset hp))
      | some kept2 =>
        simp [deleteProduct, hmode, hio2, readLocalProducts, h2]
  · intro hprim p hp
    exact looseEqString_primitive toPrimitive p.id id (hprim p hp).1 (hprim p hp).2
  · cases h : deleteFilter toPrimitive (readLocalProducts srv.productsFile) id with
    | none => right; rw [hfile.1 h]; exact ⟨rfl, rfl⟩
    | some kept => left; rw [hfile.2 kept h]
  · rw [← hthrow]
    cases h : deleteFilter toPrimitive (readLocalProducts srv.productsFile) id with
    | none => rw [hfile.1 h]; simp
    | some kept => rw [hfile.2 kept h]; simp

/-- With the products 7 and 8 stored, deleting id 7 reports success, and so
does deleting it again when it is no longer there. -/
theorem C12_delete_reports_success_witness :
    (deleteProduct (jsonToPrimitive wholeNumberToString)
        (fileServerWith [sampleProduct (.num 7), sampleProduct (.num 8)])
        (sampleEnv 1000) "7").response = ⟨200, .message "Product deleted"⟩
      ∧ (deleteProduct (jsonToPrimitive wholeNumberToString)
          (deleteProduct (jsonToPrimitive wholeNumberToString)
            (fileServerWith [sampleProduct (.num 7), sampleProduct (.num 8)])
            (sampleEnv 1000) "7").server
          (sampleEnv 2000) "7").response = ⟨200, .message "Product deleted"⟩ :=
  (C12_delete_reports_success (jsonToPrimitive wholeNumberToString)
    (fileServerWith [sampleProduct (.num 7), sampleProduct (.num 8)])
    (sampleEnv 1000) (sampleEnv 2000) "7" rfl rfl rfl).1
    ((C12_delete_reports_success (jsonToPrimitive wholeNumberToString)
      (fileServerWith [sampleProduct (.num 7), sampleProduct (.num 8)])
      (sampleEnv 1000) (sampleEnv 2000) "7" rfl rfl rfl).2.1
      (by simp [fileServerWith, readLocalProducts, sampleProduct]))

/-- C13 as stated fails: with the products 5 and "5" stored, the first
`DELETE /api/products/5` removes only the record whose id is the number 5 and
the second removes the record whose id is the string "5"; with the products 1
and 1000 stored, the first `DELETE /api/products/1e3` removes product 1 and
the second removes product 1000. -/
theorem C13_counterexample :
    ((deleteTimes (jsonToPrimitive wholeNumberToString)
          (fileServerWith [sampleProduct (.num 5), sampleProduct (.str "5")])
          (sampleEnv 1000) "5" 1).productsFile = some [sampleProduct (.str "5")]
        ∧ (deleteTimes (jsonToPrimitive wholeNumberToString)
          (fileServerWith [sampleProduct (.num 5), sampleProduct (.str "5")])
          (sampleEnv 1000) "5" 2).productsFile = some [])
      ∧ ((deleteTimes (jsonToPrimitive wholeNumberToString)
          (fileServerWith [sampleProduct (.num 1), sampleProduct (.num 1000)])
          (sampleEnv 1000) "1e3" 1).productsFile = some [sampleProduct (.num 1000)]
        ∧ (deleteTimes (jsonToPrimitive wholeNumberToString)
          (fileServerWith [sampleProduct (.num 1), sampleProduct (.num 1000)])
          (sampleEnv 1000) "1e3" 2).productsFile = some []) := by
  refine ⟨⟨?_, ?_⟩, ⟨?_, ?_⟩⟩
  · simp [deleteTimes, deleteProduct, fileServerWith, sampleEnv, readLocalProducts,
      deleteFilter, parseInt_five, sampleProduct, strictEqNumber]
  · simp [deleteTimes, deleteProduct, fileServerWith, sampleEnv, readLocalProducts,
      deleteFilter, parseInt_five, sampleProduct, strictEqNumber, looseFilter, looseEqString]
  · simp [deleteTimes, deleteProduct, fileServerWith, sampleEnv, readLocalProducts,
      deleteFilter, parseInt_1e3, sampleProduct, strictEqNumber]
  · simp [deleteTimes, deleteProduct, fileServerWith, sampleEnv, readLocalProducts,
      deleteFilter, parseInt_1e3, sampleProduct, strictEqNumber, looseFilter, looseEqString,
      stringToNumber_1e3]

/-- C13 (amended): in file mode with no I/O failure, applying
`DELETE /api/products/:id` twice leaves the same stored collection as applying
it once exactly when the request id does not parse as an integer, or the
second delete throws while comparing (500, nothing written), or no record left
by the first delete has an id loosely equal (`==`) to the raw request id; this
is so in particular when the numeric match of the first delete removed
nothing. A third delete never changes what the second left. -/
theorem C13_delete_twice (toPrimitive : JsVal → Option String) (srv : Server) (env : Env)
    (id : String) (hmode : srv.useMongoDB = false) (hio : env.writeFileOk = true) :
    (deleteTimes toPrimitive srv env id 2 = deleteTimes toPrimitive srv env id 1 ↔
        (parseInt id = none
          ∨ deleteFilter toPrimitive
              (readLocalProducts (deleteTimes toPrimitive srv env id 1).productsFile) id = none
          ∨ ∀ p ∈ readLocalProducts (deleteTimes toPrimitive srv env id 1).productsFile,
              looseEqString toPrimitive p.id id ≠ some true))
      ∧ ((deleteProduct toPrimitive (deleteTimes toPrimitive srv env id 1) env id).response
            = ⟨500, .error "Failed to delete product"⟩ ↔
          deleteFilter toPrimitive
            (readLocalProducts (deleteTimes toPrimitive srv env id 1).productsFile) id = none)
      ∧ ((∀ p ∈ readLocalProducts srv.productsFile,
            strictEqNumber p.id (parseInt id) = false) →
          deleteTimes toPrimitive srv env id 2 = deleteTimes toPrimitive srv env id 1)
      ∧ deleteTimes toPrimitive srv env id 3 = deleteTimes toPrimitive srv env id 2 := by
  have h1 := deleteTimes_file toPrimitive srv env id hmode hio 1
  have h2 := deleteTimes_file toPrimitive srv env id hmode hio 2
  have h3 := deleteTimes_file toPrimitive srv env id hmode hio 3
  simp only [Function.iterate_succ, Function.iterate_zero, Function.comp_apply, id_eq] at h1 h2 h3
  have hm1 : (deleteTimes toPrimitive srv env id 1).useMongoDB = false := by
    rw [h1]; exact hmode
  have hfile1 : (deleteTimes toPrimitive srv env id 1).productsFile
      = deleteStored toPrimitive id srv.productsFile := by
    rw [h1]
  refine ⟨?_, ?_, ?_, ?_⟩
  · rw [hfile1, h2, h1, server_file_eq_iff]
    exact deleteStored_twice_iff toPrimitive id srv.productsFile
  · have hfile := deleteProduct_file toPrimitive _ env id hm1 hio
    cases h : deleteFilter toPrimitive
        (readLocalProducts (deleteTimes toPrimitive srv env id 1).productsFile) id with
    | none => rw [hfile.1 h]; simp
    | some kept => rw [hfile.2 kept h]; simp
  · intro hno
    rw [h2, h1, server_file_eq_iff]
    exact deleteStored_twice_of_no_strict toPrimitive id srv.productsFile hno
  · rw [h3, h2, server_file_eq_iff]
    exact deleteStored_thrice toPrimitive id srv.productsFile

/-- With the products 7 and 8 stored, no stored id is the number 9, and
deleting id 9 twice leaves what deleting it once leaves. -/
theorem C13_delete_twice_witness :
    deleteTimes (jsonToPrimitive wholeNumberToString)
        (fileServerWith [sampleProduct (.num 7), sampleProduct (.num 8)]) (sampleEnv 1000) "9" 2
      = deleteTimes (jsonToPrimitive wholeNumberToString)
        (fileServerWith [sampleProduct (.num 7), sampleProduct (.num 8)]) (sampleEnv 1000) "9" 1 :=
  (C13_delete_twice (jsonToPrimitive wholeNumberToString)
    (fileServerWith [sampleProduct (.num 7), sampleProduct (.num 8)]) (sampleEnv 1000) "9"
    rfl rfl).2.2.1
    (by
      have h9 : parseInt "9" = some 9 := by decide
      simp [fileServerWith, readLocalProducts, sampleProduct, strictEqNumber, h9])

/-- C14 as stated fails: with a record whose id is the string "abc" stored,
`DELETE /api/products/abc` finds no numeric match, yet the string fallback is
skipped (`parseInt` gives `NaN`) and the record stays, although its id is
loosely equal to the request id. And with the ids `{"toString": 1}` and "5"
stored, `DELETE /api/products/5` finds no numeric match, the fallback throws
on the first record, the handler answers 500 and the record whose id is "5"
stays. -/
theorem C14_counterexample :
    ((deleteProduct (jsonToPrimitive wholeNumberToString)
          (fileServerWith [sampleProduct (.str "abc")])
          (sampleEnv 1000) "abc").server.productsFile = some [sampleProduct (.str "abc")]
        ∧ (deleteProduct (jsonToPrimitive wholeNumberToString)
            (fileServerWith [sampleProduct (.str "abc")])
            (sampleEnv 1000) "abc").response.status = 200
        ∧ looseEqString (jsonToPrimitive wholeNumberToString)
            (sampleProduct (.str "abc")).id "abc" = some true
        ∧ strictEqNumber (sampleProduct (.str "abc")).id (parseInt "abc") = false)
      ∧ (deleteProduct (jsonToPrimitive wholeNumberToString)
            (fileServerWith [sampleProduct objectId, sampleProduct (.str "5")])
            (sampleEnv 1000) "5"
          = ⟨⟨500, .error "Failed to delete product"⟩,
              fileServerWith [sampleProduct objectId, sampleProduct (.str "5")],
              [.readProductsFile]⟩
        ∧ strictEqNumber (sampleProduct objectId).id (parseInt "5") = false
        ∧ strictEqNumber (sampleProduct (.str "5")).id (parseInt "5") = false) := by
  refine ⟨⟨?_, ?_, ?_, ?_⟩, ⟨?_, ?_, ?_⟩⟩
  · simp [deleteProduct, fileServerWith, sampleEnv, readLocalProducts, deleteFilter,
      parseInt_abc, sampleProduct, strictEqNumber]
  · simp [deleteProduct, fileServerWith, sampleEnv, readLocalProducts, deleteFilter,
      parseInt_abc, sampleProduct, strictEqNumber]
  · simp [looseEqString, sampleProduct]
  · simp [strictEqNumber, sampleProduct]
  · simp [deleteProduct, fileServerWith, sampleEnv, readLocalProducts, deleteFilter,
      parseInt_five, strictEqNumber, looseFilter, looseEqString, jsonToPrimitive,
      jsonToString, sampleProduct, objectId]
  · simp [strictEqNumber, sampleProduct, objectId]
  · simp [strictEqNumber, sampleProduct]

/-- C14 (amended): in file mode with no I/O failure, whenever the direct
numeric match removes no record, the request id parses as an integer
(`parseInt` is not `NaN`) and the comparison `p.id != id` throws on no stored
id, DELETE answers 200 and keeps exactly the records whose id is not loosely
equal (`==`) to the raw request id, so no record whose id is the string `id`
remains; when the comparison throws on a stored id the handler answers 500
and writes nothing; when the request id does not parse as an integer the
fallback is skipped and the stored list is written back unchanged. -/
theorem C14_string_fallback (toPrimitive : JsVal → Option String) (srv : Server) (env : Env)
    (id : String) (hmode : srv.useMongoDB = false) (hio : env.writeFileOk = true) :
    ((parseInt id).isSome = true →
        (∀ p ∈ readLocalProducts srv.productsFile,
            strictEqNumber p.id (parseInt id) = false) →
        ((∀ p ∈ readLocalProducts srv.productsFile,
              looseEqString toPrimitive p.id id ≠ none) →
          (deleteProduct toPrimitive srv env id).response = ⟨200, .message "Product deleted"⟩
            ∧ (deleteProduct toPrimitive srv env id).server.productsFile
              = some ((readLocalProducts srv.productsFile).filter
                  (fun p => !decide (looseEqString toPrimitive p.id id = some true)))
            ∧ ∀ p ∈ readLocalProducts (deleteProduct toPrimitive srv env id).server.productsFile,
                p.id ≠ .str id)
          ∧ ((∃ p ∈ readLocalProducts srv.productsFile,
                looseEqString toPrimitive p.id id = none) →
              deleteProduct toPrimitive srv env id
                = ⟨⟨500, .error "Failed to delete product"⟩, srv, [.readProductsFile]⟩))
      ∧ (parseInt id = none →
          (deleteProduct toPrimitive srv env id).response = ⟨200, .message "Product deleted"⟩
            ∧ (deleteProduct toPrimitive srv env id).server.productsFile
              = some (readLocalProducts srv.productsFile)) := by
  have hfile := deleteProduct_file toPrimitive srv env id hmode hio
  constructor
  · intro hs hno
    have hd := deleteFilter_of_no_strict toPrimitive _ id hno
    rw [if_pos hs] at hd
    constructor
    · intro hthrow
      rw [looseFilter_of_no_throw toPrimitive id _ hthrow] at hd
      rw [hfile.2 _ hd]
      refine ⟨rfl, rfl, ?_⟩
      intro p hp hc
      have hp2 : p ∈ (readLocalProducts srv.productsFile).filter
          (fun p => !decide (looseEqString toPrimitive p.id id = some true)) := hp
      rw [List.mem_filter] at hp2
      have hl := hp2.2
      rw [hc] at hl
      simp [looseEqString] at hl
    · intro hthrow
      rw [(looseFilter_eq_none_iff toPrimitive id _).mpr hthrow] at hd
      exact hfile.1 hd
  · intro hnone
    have hd := deleteFilter_of_no_strict toPrimitive (readLocalProducts srv.productsFile) id
      (by intro p _; rw [hnone]; exact strictEqNumber_none _)
    rw [hnone] at hd
    rw [hfile.2 _ (by simpa using hd)]
    exact ⟨rfl, rfl⟩

/-- With the records "5" and 8 stored, `DELETE /api/products/5` finds no
numeric match, falls back to `==` and removes the record whose id is the
string "5", keeping product 8. -/
theorem C14_string_fallback_witness :
    (deleteProduct (jsonToPrimitive wholeNumberToString)
        (fileServerWith [sampleProduct (.str "5"), sampleProduct (.num 8)])
        (sampleEnv 1000) "5").server.productsFile = some [sampleProduct (.num 8)] := by
  have h := (((C14_string_fallback (jsonToPrimitive wholeNumberToString)
    (fileServerWith [sampleProduct (.str "5"), sampleProduct (.num 8)])
    (sampleEnv 1000) "5" rfl rfl).1
    (by rw [parseInt_five]; rfl)
    (by simp [fileServerWith, readLocalProducts, sampleProduct, strictEqNumber,
          parseInt_five])).1
    (by simp [fileServerWith, readLocalProducts, sampleProduct, looseEqString])).2.1
  rw [h]
  have h5 : stringToNumber "5" = some 5 := by
    simp [stringToNumber, isStrWhiteSpace, startsWithZero, startsWithSign, startsWithMinus,
      unsignedDecimalLiteral, isRadixDigit, digitValue, exponentPart, digitsValue]
  simp [fileServerWith, readLocalProducts, sampleProduct, looseEqString, h5]

/-- C15 as stated fails: with the products 1 and 2 stored,
`DELETE /api/products/1abc` removes product 1, because `parseInt` reads the
integer 1 at the front of the identifier, although the id 1 is not equal to
the requested identifier `1abc`, not even under coercing equality
(`Number("1abc")` is `NaN`). -/
theorem C15_counterexample :
    (deleteProduct (jsonToPrimitive wholeNumberToString)
        (fileServerWith [sampleProduct (.num 1), sampleProduct (.num 2)])
        (sampleEnv 1000) "1abc").response = ⟨200, .message "Product deleted"⟩
      ∧ (deleteProduct (jsonToPrimitive wholeNumberToString)
          (fileServerWith [sampleProduct (.num 1), sampleProduct (.num 2)])
          (sampleEnv 1000) "1abc").server.productsFile = some [sampleProduct (.num 2)]
      ∧ (sampleProduct (.num 1)).id = .num 1
      ∧ parseInt "1abc" = some 1
      ∧ stringToNumber "1abc" = none
      ∧ looseEqString (jsonToPrimitive wholeNumberToString) (sampleProduct (.num 1)).id "1abc"
          = some false := by
  refine ⟨?_, ?_, rfl, parseInt_1abc, stringToNumber_1abc, ?_⟩
  · simp [deleteProduct, fileServerWith, sampleEnv, readLocalProducts, deleteFilter,
      parseInt_1abc, sampleProduct, strictEqNumber]
  · simp [deleteProduct, fileServerWith, sampleEnv, readLocalProducts, deleteFilter,
      parseInt_1abc, sampleProduct, strictEqNumber]
  · simp [looseEqString, sampleProduct, stringToNumber_1abc]

/-- C15 (amended): in file mode with no I/O failure, the collection after a
DELETE is a subsequence of the collection before, records unmodified and in
their original order, and no record whose id is the number `parseInt` reads at
the front of the requested identifier remains. What is removed is fixed in
every case: when some stored id is that number, exactly the records whose id
is strictly equal to it (the identifier itself may differ, as `1abc` from 1);
when the identifier does not parse as an integer, nothing; when no stored id
is that number and no comparison throws, exactly the records whose id is
loosely equal (`==`) to the raw identifier; and when a comparison throws, the
handler writes nothing and the server is left as it was. -/
theorem C15_delete_frame (toPrimitive : JsVal → Option String) (srv : Server) (env : Env)
    (id : String) (hmode : srv.useMongoDB = false) (hio : env.writeFileOk = true) :
    List.Sublist (readLocalProducts (deleteProduct toPrimitive srv env id).server.productsFile)
        (readLocalProducts srv.productsFile)
      ∧ (∀ p ∈ readLocalProducts (deleteProduct toPrimitive srv env id).server.productsFile,
          strictEqNumber p.id (parseInt id) = false)
      ∧ ((∃ p ∈ readLocalProducts srv.productsFile,
            strictEqNumber p.id (parseInt id) = true) →
          (deleteProduct toPrimitive srv env id).server.productsFile
            = some ((readLocalProducts srv.productsFile).filter
                (fun p => !strictEqNumber p.id (parseInt id))))
      ∧ (parseInt id = none →
          (deleteProduct toPrimitive srv env id).server.productsFile
            = some (readLocalProducts srv.productsFile))
      ∧ ((∀ p ∈ readLocalProducts srv.productsFile,
            strictEqNumber p.id (parseInt id) = false) →
          (parseInt id).isSome = true →
          (∀ p ∈ readLocalProducts srv.productsFile,
            looseEqString toPrimitive p.id id ≠ none) →
          (deleteProduct toPrimitive srv env id).server.productsFile
            = some ((readLocalProducts srv.productsFile).filter
                (fun p => !decide (looseEqString toPrimitive p.id id = some true))))
      ∧ ((∀ p ∈ readLocalProducts srv.productsFile,
            strictEqNumber p.id (parseInt id) = false) →
          (parseInt id).isSome = true →
          (∃ p ∈ readLocalProducts srv.productsFile,
            looseEqString toPrimitive p.id id = none) →
          (deleteProduct toPrimitive srv env id).server = srv) := by
  have hfile := deleteProduct_file toPrimitive srv env id hmode hio
  have hsrv := deleteProduct_server toPrimitive srv env id hmode hio
  have hread : (deleteProduct toPrimitive srv env id).server.productsFile
      = deleteStored toPrimitive id srv.productsFile := by
    rw [hsrv]
  refine ⟨?_, ?_, ?_, ?_, ?_, ?_⟩
  · rw [hread]
    rcases deleteStored_read toPrimitive id srv.productsFile with
      ⟨_, hst⟩ | ⟨kept, hsome, hst⟩
    · rw [hst]
    · rw [hst]
      exact (deleteFilter_some toPrimitive _ kept id hsome).1
  · rw [hread]
    exact deleteStored_strict_free toPrimitive id srv.productsFile
  · intro hex
    cases h : deleteFilter toPrimitive (readLocalProducts srv.productsFile) id with
    | none =>
      obtain ⟨p, hp, hst⟩ := hex
      rw [(deleteFilter_none toPrimitive _ id h).1 p hp] at hst
      exact absurd hst (by simp)
    | some kept =>
      rw [hfile.2 kept h]
      rw [(deleteFilter_some toPrimitive _ kept id h).2.2.1 (Or.inl hex)]
  · intro hnone
    cases h : deleteFilter toPrimitive (readLocalProducts srv.productsFile) id with
    | none =>
      have := (deleteFilter_none toPrimitive _ id h).2.1
      rw [hnone] at this
      exact absurd this (by simp)
    | some kept =>
      rw [hfile.2 kept h]
      rw [(deleteFilter_some toPrimitive _ kept id h).2.2.1 (Or.inr hnone)]
      have hself : (readLocalProducts srv.productsFile).filter
          (fun p => !strictEqNumber p.id (parseInt id)) = readLocalProducts srv.productsFile :=
        List.filter_eq_self.mpr (fun p _ => by rw [hnone, strictEqNumber_none]; rfl)
      rw [hself]
  · intro hno hs hthrow
    have hd := deleteFilter_of_no_strict toPrimitive _ id hno
    rw [if_pos hs, looseFilter_of_no_throw toPrimitive id _ hthrow] at hd
    rw [hfile.2 _ hd]
  · intro hno hs hthrow
    have hd := deleteFilter_of_no_strict toPrimitive _ id hno
    rw [if_pos hs, (looseFilter_eq_none_iff toPrimitive id _).mpr hthrow] at hd
    rw [hfile.1 hd]

/-- With the products 7 and 8 stored, deleting id 7 leaves exactly product 8
(numeric match) and deleting `abc` leaves both; with the records "7" and 8
stored, deleting id 7 leaves exactly product 8 (fallback); with the ids
`{"toString": 1}` and "5" stored, deleting id 5 leaves the server as it was. -/
theorem C15_delete_frame_witness :
    (deleteProduct (jsonToPrimitive wholeNumberToString)
        (fileServerWith [sampleProduct (.num 7), sampleProduct (.num 8)])
        (sampleEnv 1000) "7").server.productsFile = some [sampleProduct (.num 8)]
      ∧ (deleteProduct (jsonToPrimitive wholeNumberToString)
          (fileServerWith [sampleProduct (.num 7), sampleProduct (.num 8)])
          (sampleEnv 1000) "abc").server.productsFile
        = some [sampleProduct (.num 7), sampleProduct (.num 8)]
      ∧ (deleteProduct (jsonToPrimitive wholeNumberToString)
          (fileServerWith [sampleProduct (.str "7"), sampleProduct (.num 8)])
          (sampleEnv 1000) "7").server.productsFile = some [sampleProduct (.num 8)]
      ∧ (deleteProduct (jsonToPrimitive wholeNumberToString)
          (fileServerWith [sampleProduct objectId, sampleProduct (.str "5")])
          (sampleEnv 1000) "5").server
        = fileServerWith [sampleProduct objectId, sampleProduct (.str "5")] := by
  refine ⟨?_, ?_, ?_, ?_⟩
  · have h := (C15_delete_frame (jsonToPrimitive wholeNumberToString)
      (fileServerWith [sampleProduct (.num 7), sampleProduct (.num 8)])
      (sampleEnv 1000) "7" rfl rfl).2.2.1
      ⟨sampleProduct (.num 7), by simp [fileServerWith, readLocalProducts],
        by simp [sampleProduct, strictEqNumber, parseInt_seven]⟩
    rw [h]
    simp [fileServerWith, readLocalProducts, sampleProduct, strictEqNumber, parseInt_seven]
  · exact (C15_delete_frame (jsonToPrimitive wholeNumberToString)
      (fileServerWith [sampleProduct (.num 7), sampleProduct (.num 8)])
      (sampleEnv 1000) "abc" rfl rfl).2.2.2.1 parseInt_abc
  · have h := (C15_delete_frame (jsonToPrimitive wholeNumberToString)
      (fileServerWith [sampleProduct (.str "7"), sampleProduct (.num 8)])
      (sampleEnv 1000) "7" rfl rfl).2.2.2.2.1
      (by simp [fileServerWith, readLocalProducts, sampleProduct, strictEqNumber,
            parseInt_seven])
      (by rw [parseInt_seven]; rfl)
      (by simp [fileServerWith, readLocalProducts, sampleProduct, looseEqString])
    rw [h]
    simp [fileServerWith, readLocalProducts, sampleProduct, looseEqString,
      stringToNumber_seven]
  · exact (C15_delete_frame (jsonToPrimitive wholeNumberToString)
      (fileServerWith [sampleProduct objectId, sampleProduct (.str "5")])
      (sampleEnv 1000) "5" rfl rfl).2.2.2.2.2
      (by simp [fileServerWith, readLocalProducts, sampleProduct, strictEqNumber,
            parseInt_five, objectId])
      (by rw [parseInt_five]; rfl)
      ⟨sampleProduct objectId, by simp [fileServerWith, readLocalProducts],
        by simp [sampleProduct, looseEqString, jsonToPrimitive, jsonToString, objectId]⟩

/-! ## Lemmas on JSON text -/

theorem hex4_control (n : Nat) (h : n < 32) :
    hex4 '0' '0' (hexDigit (n / 16)) (hexDigit (n % 16)) = some n := by
  interval_cases n <;> decide

theorem char_eq_of_toNat (c : Char) (n : Nat) (h : c.toNat = n) : c = Char.ofNat n := by
  rw [← h, Char.ofNat_toNat]

theorem parseStringChar_quoteJSONChar (c : Char) (tail : List Char) :
    parseStringChar (quoteJSONChar c ++ tail) = some (c, tail) := by
  unfold quoteJSONChar
  split_ifs with h8 h9 h10 h12 h13 h34 h92 h32
  · rw [char_eq_of_toNat c 8 h8]; simp [parseStringChar, unescapeChar]
  · rw [char_eq_of_toNat c 9 h9]; simp [parseStringChar, unescapeChar]
  · rw [char_eq_of_toNat c 10 h10]; simp [parseStringChar, unescapeChar]
  · rw [char_eq_of_toNat c 12 h12]; simp [parseStringChar, unescapeChar]
  · rw [char_eq_of_toNat c 13 h13]; simp [parseStringChar, unescapeChar]
  · rw [char_eq_of_toNat c 34 h34]; simp [parseStringChar, unescapeChar]
  · rw [char_eq_of_toNat c 92 h92]; simp [parseStringChar, unescapeChar]
  · have hc : Char.ofNat c.toNat = c := Char.ofNat_toNat c
    have hlt : ¬ (55296 ≤ c.toNat ∧ c.toNat < 56320) := by omega
    have hlt2 : ¬ (56320 ≤ c.toNat ∧ c.toNat < 57344) := by omega
    simp [parseStringChar, parseHex4, hex4_control c.toNat h32, hlt, hlt2, hc]
  · simp [parseStringChar, h92, h32]

theorem quoteJSONChar_head (c : Char) (tail : List Char) :
    ∃ d rest, quoteJSONChar c ++ tail = d :: rest ∧ d.toNat ≠ 34 := by
  unfold quoteJSONChar
  split_ifs with h8 h9 h10 h12 h13 h34 h92 h32
  all_goals first
    | exact ⟨_, _, rfl, by decide⟩
    | exact ⟨c, tail, rfl, h34⟩

theorem parseStringBody_quoteJSONBody (cs rest : List Char) :
    ∀ fuel, cs.length < fuel →
      parseStringBody fuel (quoteJSONBody cs ++ Char.ofNat 34 :: rest) = some (cs, rest) := by
  induction cs with
  | nil =>
    intro fuel hf
    obtain ⟨f, rfl⟩ := Nat.exists_eq_succ_of_ne_zero (by omega : fuel ≠ 0)
    simp [quoteJSONBody, parseStringBody]
  | cons c cs ih =>
    intro fuel hf
    obtain ⟨f, rfl⟩ := Nat.exists_eq_succ_of_ne_zero (by omega : fuel ≠ 0)
    have h : quoteJSONBody (c :: cs) = quoteJSONChar c ++ quoteJSONBody cs := by
      simp [quoteJSONBody, List.flatMap_cons]
    rw [h, List.append_assoc]
    obtain ⟨d, tail, htext, hd⟩ := quoteJSONChar_head c (quoteJSONBody cs ++ Char.ofNat 34 :: rest)
    have hchar := parseStringChar_quoteJSONChar c (quoteJSONBody cs ++ Char.ofNat 34 :: rest)
    rw [htext] at hchar ⊢
    have hlen : cs.length < f := by simpa using hf
    simp only [parseStringBody, hd, if_false, hchar, ih f hlen]

theorem length_le_quoteJSONBody (cs : List Char) : cs.length ≤ (quoteJSONBody cs).length := by
  induction cs with
  | nil => simp [quoteJSONBody]
  | cons c cs ih =>
    have h : quoteJSONBody (c :: cs) = quoteJSONChar c ++ quoteJSONBody cs := by
      simp [quoteJSONBody, List.flatMap_cons]
    have h1 : 1 ≤ (quoteJSONChar c).length := by
      unfold quoteJSONChar
      split_ifs <;> simp
    rw [h, List.length_append, List.length_cons]
    omega

theorem parseString_quoteJSONBody (cs rest : List Char) :
    parseString (quoteJSONBody cs ++ Char.ofNat 34 :: rest) = some (cs, rest) := by
  unfold parseString
  apply parseStringBody_quoteJSONBody
  have := length_le_quoteJSONBody cs
  simp only [List.length_append, List.length_cons]
  omega

theorem skipWhiteSpace_append (ws cs : List Char) (h : ws.all isJsonWhiteSpace = true) :
    skipWhiteSpace (ws ++ cs) = skipWhiteSpace cs := by
  induction ws with
  | nil => rfl
  | cons w ws ih =>
    simp only [List.all_cons, Bool.and_eq_true] at h
    simp only [skipWhiteSpace, List.cons_append, List.dropWhile_cons, h.1, if_true]
    exact ih h.2

theorem skipWhiteSpace_cons (c : Char) (cs : List Char) (h : isJsonWhiteSpace c = false) :
    skipWhiteSpace (c :: cs) = c :: cs := by
  simp [skipWhiteSpace, List.dropWhile_cons, h]

theorem jsonIndent_all (level : Nat) : (jsonIndent level).all isJsonWhiteSpace = true := by
  simp [jsonIndent, isJsonWhiteSpace]

theorem newline_indent_all (level : Nat) :
    (Char.ofNat 10 :: jsonIndent level).all isJsonWhiteSpace = true := by
  simp [jsonIndent, isJsonWhiteSpace]

theorem isJsonNumberChar_toNat (c : Char) (h : isJsonNumberChar c = true) :
    (48 ≤ c.toNat ∧ c.toNat ≤ 57) ∨ c.toNat = 43 ∨ c.toNat = 45 ∨ c.toNat = 46 ∨ c.toNat = 69
      ∨ c.toNat = 101 := by
  unfold isJsonNumberChar isRadixDigit digitValue at h
  split_ifs at h with h1 h2 h3
  · exact Or.inl h1
  · simp at h
    omega
  · simp at h
    omega
  · simp at h
    omega

theorem isJsonWhiteSpace_toNat (c : Char) :
    isJsonWhiteSpace c = true ↔ (c.toNat = 9 ∨ c.toNat = 10 ∨ c.toNat = 13 ∨ c.toNat = 32) := by
  simp [isJsonWhiteSpace]

theorem takeWhile_append_stop (p : Char → Bool) (t rest : List Char)
    (ht : t.all p = true) (hrest : ∀ c tail, rest = c :: tail → p c = false) :
    (t ++ rest).takeWhile p = t ∧ (t ++ rest).dropWhile p = rest := by
  induction t with
  | nil =>
    cases rest with
    | nil => simp
    | cons c tail => simp [List.takeWhile_cons, List.dropWhile_cons, hrest c tail rfl]
  | cons a t ih =>
    simp only [List.all_cons, Bool.and_eq_true] at ht
    simp [List.takeWhile_cons, List.dropWhile_cons, ht.1, ih ht.2]

theorem keyBefore_ne (a b : String) (h : keyBefore a b = true) : a ≠ b := by
  intro hab
  rw [hab] at h
  unfold keyBefore at h
  cases hb : arrayIndexOf b with
  | none => simp [hb] at h
  | some j => simp [hb] at h

theorem keyBefore_index (a b : String) (i : Nat) (h : keyBefore a b = true)
    (hb : arrayIndexOf b = some i) : ∃ j, arrayIndexOf a = some j ∧ j < i := by
  unfold keyBefore at h
  cases ha : arrayIndexOf a with
  | none => simp [ha, hb] at h
  | some j =>
    simp [ha, hb] at h
    exact ⟨j, rfl, h⟩

theorem insertIndexed_append (i : Nat) (key : String) (value : JsVal)
    (acc : List (String × JsVal))
    (h : ∀ kv ∈ acc, ∃ j, arrayIndexOf kv.1 = some j ∧ j < i) :
    insertIndexed i key value acc = acc ++ [(key, value)] := by
  induction acc with
  | nil => rfl
  | cons kv acc ih =>
    obtain ⟨k, v⟩ := kv
    obtain ⟨j, hj, hlt⟩ := h (k, v) (List.mem_cons_self _ _)
    have hj2 : arrayIndexOf k = some j := hj
    simp only [insertIndexed, hj2, hlt, if_true, List.cons_append]
    rw [ih (fun kv hkv => h kv (List.mem_cons_of_mem _ hkv))]

theorem defineProperty_append (acc : List (String × JsVal)) (key : String) (value : JsVal)
    (h : ∀ kv ∈ acc, keyBefore kv.1 key = true) :
    defineProperty acc key value = acc ++ [(key, value)] := by
  have hany : acc.any (fun kv => decide (kv.1 = key)) = false := by
    rw [List.any_eq_false]
    intro kv hkv
    simpa using keyBefore_ne kv.1 key (h kv hkv)
  unfold defineProperty
  rw [if_neg (by simp [hany])]
  cases hk : arrayIndexOf key with
  | none => rfl
  | some i =>
    exact insertIndexed_append i key value acc
      (fun kv hkv => keyBefore_index kv.1 key i (h kv hkv) hk)

theorem foldl_defineProperty (kvs : List (String × JsVal)) :
    ∀ acc : List (String × JsVal),
      (∀ kv ∈ acc, ∀ kv2 ∈ kvs, keyBefore kv.1 kv2.1 = true) →
      keysInOrder (kvs.map Prod.fst) = true →
      kvs.foldl (fun props kv => defineProperty props kv.1 kv.2) acc = acc ++ kvs := by
  induction kvs with
  | nil => intro acc _ _; simp
  | cons kv kvs ih =>
    intro acc hacc hord
    simp only [List.map_cons, keysInOrder, Bool.and_eq_true, List.all_eq_true, List.mem_map,
      forall_exists_index, and_imp, forall_apply_eq_imp_iff₂] at hord
    rw [List.foldl_cons,
      defineProperty_append acc kv.1 kv.2 (fun a ha => hacc a ha kv (List.mem_cons_self _ _))]
    rw [ih (acc ++ [(kv.1, kv.2)]) ?_ hord.2]
    · simp
    · intro a ha b hb
      rcases List.mem_append.mp ha with ha | ha
      · exact hacc a ha b (List.mem_cons_of_mem _ hb)
      · simp only [List.mem_singleton] at ha
        rw [ha]
        exact hord.1 b hb

theorem objectOfMembers_eq (kvs : List (String × JsVal))
    (h : keysInOrder (kvs.map Prod.fst) = true) : objectOfMembers kvs = kvs := by
  unfold objectOfMembers
  rw [foldl_defineProperty kvs [] (by simp) h]
  simp

theorem startsValue_cons (d : Char) (tail : List Char) (h1 : isJsonWhiteSpace d = false)
    (h2 : d.toNat ≠ 93) (h3 : d.toNat ≠ 125) : startsValue (d :: tail) :=
  ⟨d, tail, rfl, h1, h2, h3⟩

theorem serializeValue_starts (numberToString : ℚ → String) (level : Nat) (v : JsVal)
    (tail : List Char) (h : isJson numberToString v = true) :
    startsValue (serializeValue numberToString level v ++ tail) := by
  cases v with
  | undefined => simp [isJson] at h
  | null => exact startsValue_cons _ _ (by decide) (by decide) (by decide)
  | bool b =>
    cases b
    · exact startsValue_cons _ _ (by decide) (by decide) (by decide)
    · exact startsValue_cons _ _ (by decide) (by decide) (by decide)
  | num q =>
    simp only [isJson, isNumberText, Bool.and_eq_true, Bool.not_eq_true', List.all_eq_true] at h
    simp only [serializeValue]
    cases ht : (numberToString q).toList with
    | nil => rw [ht] at h; simp at h
    | cons c t =>
      have hc := isJsonNumberChar_toNat c (h.1.2 c (by rw [ht]; exact List.mem_cons_self _ _))
      refine startsValue_cons c _ ?_ (by omega) (by omega)
      cases hw : isJsonWhiteSpace c with
      | false => rfl
      | true =>
        have := (isJsonWhiteSpace_toNat c).mp hw
        omega
  | str s => exact startsValue_cons _ _ (by decide) (by decide) (by decide)
  | arr xs =>
    simp only [serializeValue]
    cases serializeElements numberToString (level + 1) xs with
    | nil => exact startsValue_cons _ _ (by decide) (by decide) (by decide)
    | cons p ps => exact startsValue_cons _ _ (by decide) (by decide) (by decide)
  | obj kvs =>
    simp only [serializeValue]
    cases serializeMembers numberToString (level + 1) kvs with
    | nil => exact startsValue_cons _ _ (by decide) (by decide) (by decide)
    | cons p ps => exact startsValue_cons _ _ (by decide) (by decide) (by decide)

theorem startsWithNumberChar_of_closing (closing rest : List Char) (n : Nat)
    (hc : closing.all isJsonWhiteSpace = true) (hn : n = 93 ∨ n = 125 ∨ n = 44) :
    ∀ d, d.toNat = n → startsWithNumberChar (closing ++ d :: rest) = false := by
  intro d hd
  cases closing with
  | nil =>
    simp only [List.nil_append, startsWithNumberChar]
    cases h : isJsonNumberChar d with
    | false => rfl
    | true =>
      have := isJsonNumberChar_toNat d h
      omega
  | cons w ws =>
    simp only [List.all_cons, Bool.and_eq_true] at hc
    simp only [List.cons_append, startsWithNumberChar]
    cases h : isJsonNumberChar w with
    | false => rfl
    | true =>
      have h1 := isJsonNumberChar_toNat w h
      have h2 := (isJsonWhiteSpace_toNat w).mp hc.1
      omega

theorem serializeMembers_cons (numberToString : ℚ → String) (level : Nat) (key : String)
    (value : JsVal) (rest : List (String × JsVal)) (h : isJson numberToString value = true) :
    serializeMembers numberToString level ((key, value) :: rest)
      = (quoteJSONString key
          ++ (':' :: Char.ofNat 32 :: serializeValue numberToString level value))
        :: serializeMembers numberToString level rest := by
  cases value <;> first | rfl | simp [isJson] at h

theorem joinLines_cons_cons (level : Nat) (p q : List Char) (ps : List (List Char)) :
    joinLines level (p :: q :: ps)
      = p ++ (',' :: Char.ofNat 10 :: (jsonIndent level ++ joinLines level (q :: ps))) := by
  simp [joinLines]

theorem parseValue_literal (fuel : Nat) (ws text rest : List Char) (v : JsVal)
    (hws : ws.all isJsonWhiteSpace = true)
    (h : (text = ['n', 'u', 'l', 'l'] ∧ v = .null) ∨ (text = ['t', 'r', 'u', 'e'] ∧ v = .bool true)
      ∨ (text = ['f', 'a', 'l', 's', 'e'] ∧ v = .bool false)) :
    parseValue (fuel + 1) (ws ++ (text ++ rest)) = some (v, rest) := by
  rcases h with ⟨rfl, rfl⟩ | ⟨rfl, rfl⟩ | ⟨rfl, rfl⟩
  · simp only [List.cons_append, List.nil_append]
    rw [parseValue, skipWhiteSpace_append _ _ hws, skipWhiteSpace_cons _ _ (by decide)]
    simp
  · simp only [List.cons_append, List.nil_append]
    rw [parseValue, skipWhiteSpace_append _ _ hws, skipWhiteSpace_cons _ _ (by decide)]
    simp
  · simp only [List.cons_append, List.nil_append]
    rw [parseValue, skipWhiteSpace_append _ _ hws, skipWhiteSpace_cons _ _ (by decide)]
    simp

theorem parseValue_string (fuel : Nat) (ws rest : List Char) (s : String)
    (hws : ws.all isJsonWhiteSpace = true) :
    parseValue (fuel + 1) (ws ++ (quoteJSONString s ++ rest)) = some (.str s, rest) := by
  simp only [quoteJSONString, List.cons_append, List.append_assoc, List.nil_append]
  rw [parseValue, skipWhiteSpace_append _ _ hws, skipWhiteSpace_cons _ _ (by decide)]
  simp [parseString_quoteJSONBody]

theorem parseValue_number (numberToString : ℚ → String) (fuel : Nat) (ws rest : List Char)
    (q : ℚ) (hws : ws.all isJsonWhiteSpace = true)
    (hq : isNumberText numberToString q = true) (hrest : startsWithNumberChar rest = false) :
    parseValue (fuel + 1) (ws ++ ((numberToString q).toList ++ rest)) = some (.num q, rest) := by
  simp only [isNumberText, Bool.and_eq_true, Bool.not_eq_true', List.all_eq_true,
    decide_eq_true_eq] at hq
  obtain ⟨⟨hne, hall⟩, hread⟩ := hq
  have hall2 : (numberToString q).toList.all isJsonNumberChar = true := by
    simpa [List.all_eq_true] using hall
  have hstop : ∀ c tail, rest = c :: tail → isJsonNumberChar c = false := by
    intro c tail hc
    rw [hc] at hrest
    exact hrest
  obtain ⟨htake, hdrop⟩ := takeWhile_append_stop isJsonNumberChar _ rest hall2 hstop
  cases ht : (numberToString q).toList with
  | nil => rw [ht] at hne; simp at hne
  | cons c t =>
    rw [ht] at htake hdrop hread
    have hc := isJsonNumberChar_toNat c (hall c (by rw [ht]; exact List.mem_cons_self _ _))
    have hnw : isJsonWhiteSpace c = false := by
      cases hw : isJsonWhiteSpace c with
      | false => rfl
      | true =>
        have := (isJsonWhiteSpace_toNat c).mp hw
        omega
    simp only [List.cons_append] at htake hdrop ⊢
    rw [parseValue, skipWhiteSpace_append _ _ hws, skipWhiteSpace_cons _ _ hnw]
    have h91 : c.toNat ≠ 91 := by omega
    have h123 : c.toNat ≠ 123 := by omega
    have h34 : c.toNat ≠ 34 := by omega
    have h110 : c.toNat ≠ 110 := by omega
    have h116 : c.toNat ≠ 116 := by omega
    have h102 : c.toNat ≠ 102 := by omega
    simp only [h91, h123, h34, h110, h116, h102, if_false, htake, hdrop, hread]

theorem parseValue_emptyArray (fuel : Nat) (ws rest : List Char)
    (hws : ws.all isJsonWhiteSpace = true) :
    parseValue (fuel + 1) (ws ++ (['[', ']'] ++ rest)) = some (.arr [], rest) := by
  simp only [List.cons_append, List.nil_append]
  rw [parseValue, skipWhiteSpace_append _ _ hws, skipWhiteSpace_cons _ _ (by decide)]
  simp [skipWhiteSpace_cons _ _ (by decide : isJsonWhiteSpace ']' = false)]

theorem parseValue_emptyObject (fuel : Nat) (ws rest : List Char)
    (hws : ws.all isJsonWhiteSpace = true) :
    parseValue (fuel + 1) (ws ++ ([Char.ofNat 123, Char.ofNat 125] ++ rest))
      = some (.obj [], rest) := by
  simp only [List.cons_append, List.nil_append]
  rw [parseValue, skipWhiteSpace_append _ _ hws, skipWhiteSpace_cons _ _ (by decide)]
  simp [skipWhiteSpace_cons _ _ (by decide : isJsonWhiteSpace (Char.ofNat 125) = false)]

theorem parseValue_array (fuel : Nat) (ws lead inner rest : List Char) (xs : List JsVal)
    (hws : ws.all isJsonWhiteSpace = true) (hlead : lead.all isJsonWhiteSpace = true)
    (hstart : startsValue inner) (h : parseElements fuel inner = some (xs, rest)) :
    parseValue (fuel + 1) (ws ++ ('[' :: (lead ++ inner))) = some (.arr xs, rest) := by
  obtain ⟨d, tail, rfl, hd, h93, _⟩ := hstart
  rw [parseValue, skipWhiteSpace_append _ _ hws, skipWhiteSpace_cons _ _ (by decide)]
  simp only [show ('[' : Char).toNat = 91 from rfl, if_true]
  rw [skipWhiteSpace_append _ _ hlead, skipWhiteSpace_cons _ _ hd]
  simp only [h93, if_false, h]

theorem parseValue_object (fuel : Nat) (ws lead inner rest : List Char)
    (members : List (String × JsVal))
    (hws : ws.all isJsonWhiteSpace = true) (hlead : lead.all isJsonWhiteSpace = true)
    (hstart : startsValue inner) (h : parseMembers fuel inner = some (members, rest)) :
    parseValue (fuel + 1) (ws ++ (Char.ofNat 123 :: (lead ++ inner)))
      = some (.obj (objectOfMembers members), rest) := by
  obtain ⟨d, tail, rfl, hd, _, h125⟩ := hstart
  rw [parseValue, skipWhiteSpace_append _ _ hws, skipWhiteSpace_cons _ _ (by decide)]
  simp only [show (Char.ofNat 123).toNat = 123 from rfl, show ¬ (123 = 91) by decide, if_true,
    if_false]
  rw [skipWhiteSpace_append _ _ hlead, skipWhiteSpace_cons _ _ hd]
  simp only [h125, if_false, h]

theorem parseElements_last (fuel : Nat) (cs closing rest : List Char) (x : JsVal)
    (hclosing : closing.all isJsonWhiteSpace = true)
    (h : parseValue fuel cs = some (x, closing ++ (Char.ofNat 93 :: rest))) :
    parseElements (fuel + 1) cs = some ([x], rest) := by
  rw [parseElements, h]
  simp only [skipWhiteSpace_append _ _ hclosing, skipWhiteSpace_cons _ _
    (by decide : isJsonWhiteSpace (Char.ofNat 93) = false)]
  simp

theorem parseElements_more (fuel : Nat) (cs rest2 after : List Char) (x : JsVal)
    (xs : List JsVal) (h : parseValue fuel cs = some (x, ',' :: rest2))
    (h2 : parseElements fuel rest2 = some (xs, after)) :
    parseElements (fuel + 1) cs = some (x :: xs, after) := by
  rw [parseElements, h]
  simp only [skipWhiteSpace_cons _ _ (by decide : isJsonWhiteSpace ',' = false)]
  simp [h2]

theorem parseMembers_last (fuel : Nat) (ws value closing rest : List Char) (key : String)
    (v : JsVal) (hws : ws.all isJsonWhiteSpace = true)
    (hclosing : closing.all isJsonWhiteSpace = true)
    (h : parseValue fuel (Char.ofNat 32 :: value)
      = some (v, closing ++ (Char.ofNat 125 :: rest))) :
    parseMembers (fuel + 1) (ws ++ (quoteJSONString key ++ (':' :: Char.ofNat 32 :: value)))
      = some ([(key, v)], rest) := by
  simp only [quoteJSONString, List.cons_append, List.append_assoc, List.nil_append]
  rw [parseMembers, skipWhiteSpace_append _ _ hws, skipWhiteSpace_cons _ _ (by decide)]
  simp only [show (Char.ofNat 34).toNat = 34 from rfl, if_true, parseString_quoteJSONBody,
    skipWhiteSpace_cons _ _ (by decide : isJsonWhiteSpace ':' = false),
    show (':' : Char).toNat = 58 from rfl, h, skipWhiteSpace_append _ _ hclosing,
    skipWhiteSpace_cons _ _ (by decide : isJsonWhiteSpace (Char.ofNat 125) = false)]
  simp

theorem parseMembers_more (fuel : Nat) (ws value rest2 after : List Char) (key : String)
    (v : JsVal) (members : List (String × JsVal)) (hws : ws.all isJsonWhiteSpace = true)
    (h : parseValue fuel (Char.ofNat 32 :: value) = some (v, ',' :: rest2))
    (h2 : parseMembers fuel rest2 = some (members, after)) :
    parseMembers (fuel + 1) (ws ++ (quoteJSONString key ++ (':' :: Char.ofNat 32 :: value)))
      = some ((key, v) :: members, after) := by
  simp only [quoteJSONString, List.cons_append, List.append_assoc, List.nil_append]
  rw [parseMembers, skipWhiteSpace_append _ _ hws, skipWhiteSpace_cons _ _ (by decide)]
  simp only [show (Char.ofNat 34).toNat = 34 from rfl, if_true, parseString_quoteJSONBody,
    skipWhiteSpace_cons _ _ (by decide : isJsonWhiteSpace ':' = false),
    show (':' : Char).toNat = 58 from rfl, h,
    skipWhiteSpace_cons _ _ (by decide : isJsonWhiteSpace ',' = false)]
  simp [h2]

theorem joinLines_starts (numberToString : ℚ → String) (level : Nat) (x : JsVal)
    (parts : List (List Char)) (tail : List Char) (h : isJson numberToString x = true) :
    startsValue (joinLines level (serializeValue numberToString level x :: parts) ++ tail) := by
  cases parts with
  | nil => exact serializeValue_starts numberToString level x tail h
  | cons p ps =>
    rw [joinLines_cons_cons, List.append_assoc]
    exact serializeValue_starts numberToString level x _ h

theorem length_wrapLines (level : Nat) (opening closing : Char) (parts : List (List Char)) :
    (wrapLines level opening closing parts).length
      = (joinLines (level + 1) parts).length + 4 * level + 6 := by
  simp [wrapLines, jsonIndent]
  omega

theorem wrapLines_append (level : Nat) (opening closing : Char) (parts : List (List Char))
    (rest : List Char) :
    wrapLines level opening closing parts ++ rest
      = opening :: ((Char.ofNat 10 :: jsonIndent (level + 1))
          ++ (joinLines (level + 1) parts
            ++ ((Char.ofNat 10 :: jsonIndent level) ++ (closing :: rest)))) := by
  simp [wrapLines]

mutual
theorem parseValue_serializeValue (numberToString : ℚ → String) :
    ∀ (v : JsVal) (level fuel : Nat) (ws rest : List Char),
      isJson numberToString v = true →
      (serializeValue numberToString level v).length ≤ fuel →
      ws.all isJsonWhiteSpace = true → startsWithNumberChar rest = false →
      parseValue fuel (ws ++ (serializeValue numberToString level v ++ rest)) = some (v, rest)
  | .undefined, _, _, _, _, hj, _, _, _ => by simp [isJson] at hj
  | .null, level, fuel, ws, rest, _, hfuel, hws, _ => by
    obtain ⟨f, rfl⟩ := Nat.exists_eq_succ_of_ne_zero
      (by simp [serializeValue] at hfuel; omega : fuel ≠ 0)
    exact parseValue_literal f ws _ rest .null hws (Or.inl ⟨rfl, rfl⟩)
  | .bool b, level, fuel, ws, rest, _, hfuel, hws, _ => by
    obtain ⟨f, rfl⟩ := Nat.exists_eq_succ_of_ne_zero
      (by cases b <;> simp [serializeValue] at hfuel <;> omega : fuel ≠ 0)
    cases b
    · exact parseValue_literal f ws _ rest (.bool false) hws (Or.inr (Or.inr ⟨rfl, rfl⟩))
    · exact parseValue_literal f ws _ rest (.bool true) hws (Or.inr (Or.inl ⟨rfl, rfl⟩))
  | .num q, level, fuel, ws, rest, hj, hfuel, hws, hrest => by
    have hq : isNumberText numberToString q = true := by simpa [isJson] using hj
    have hne : (numberToString q).toList ≠ [] := by
      intro hc
      rw [isNumberText, hc] at hq
      simp at hq
    obtain ⟨f, rfl⟩ := Nat.exists_eq_succ_of_ne_zero
      (by
        intro hc
        rw [hc] at hfuel
        simp only [serializeValue, Nat.le_zero, List.length_eq_zero] at hfuel
        exact hne hfuel : fuel ≠ 0)
    exact parseValue_number numberToString f ws rest q hws hq hrest
  | .str s, level, fuel, ws, rest, _, hfuel, hws, _ => by
    obtain ⟨f, rfl⟩ := Nat.exists_eq_succ_of_ne_zero
      (by simp [serializeValue, quoteJSONString] at hfuel; omega : fuel ≠ 0)
    exact parseValue_string f ws rest s hws
  | .arr xs, level, fuel, ws, rest, hj, hfuel, hws, hrest => by
    have hjl : isJsonList numberToString xs = true := by simpa [isJson] using hj
    cases hxs : xs with
    | nil =>
      obtain ⟨f, rfl⟩ := Nat.exists_eq_succ_of_ne_zero
        (by rw [hxs] at hfuel; simp [serializeValue, serializeElements] at hfuel; omega :
          fuel ≠ 0)
      simp only [serializeValue, serializeElements]
      exact parseValue_emptyArray f ws rest hws
    | cons x more =>
      have hser : serializeValue numberToString level (.arr xs)
          = wrapLines level '[' ']' (serializeElements numberToString (level + 1) xs) := by
        rw [hxs]
        simp [serializeValue, serializeElements]
      rw [← hxs, hser, wrapLines_append]
      rw [hser, length_wrapLines] at hfuel
      obtain ⟨f, rfl⟩ := Nat.exists_eq_succ_of_ne_zero (by omega : fuel ≠ 0)
      have hx : isJson numberToString x = true := by
        rw [hxs] at hjl
        simp only [isJsonList, Bool.and_eq_true] at hjl
        exact hjl.1
      have hinner := parseElements_serializeElements numberToString xs (level + 1) f []
        (Char.ofNat 10 :: jsonIndent level) rest (by rw [hxs]; simp) hjl (by omega) rfl
        (newline_indent_all level)
      rw [List.nil_append] at hinner
      refine parseValue_array f ws _ _ rest xs hws (newline_indent_all (level + 1)) ?_ hinner
      rw [hxs]
      exact joinLines_starts numberToString (level + 1) x _ _ hx
  | .obj kvs, level, fuel, ws, rest, hj, hfuel, hws, hrest => by
    have hjp : isJsonProps numberToString kvs = true
        ∧ keysInOrder (kvs.map Prod.fst) = true := by
      simpa [isJson] using hj
    cases hkvs : kvs with
    | nil =>
      obtain ⟨f, rfl⟩ := Nat.exists_eq_succ_of_ne_zero
        (by rw [hkvs] at hfuel; simp [serializeValue, serializeMembers] at hfuel; omega :
          fuel ≠ 0)
      simp only [serializeValue, serializeMembers]
      exact parseValue_emptyObject f ws rest hws
    | cons kv more =>
      obtain ⟨key, value⟩ := kv
      have hv : isJson numberToString value = true := by
        have := hjp.1
        rw [hkvs] at this
        simp only [isJsonProps, Bool.and_eq_true] at this
        exact this.1
      have hparts : serializeMembers numberToString (level + 1) kvs
          = (quoteJSONString key ++ (':' :: Char.ofNat 32
              :: serializeValue numberToString (level + 1) value))
            :: serializeMembers numberToString (level + 1) more := by
        rw [hkvs]
        exact serializeMembers_cons numberToString (level + 1) key value more hv
      have hser : serializeValue numberToString level (.obj kvs)
          = wrapLines level (Char.ofNat 123) (Char.ofNat 125)
              (serializeMembers numberToString (level + 1) kvs) := by
        simp only [serializeValue, hparts]
      rw [← hkvs, hser, wrapLines_append]
      rw [hser, length_wrapLines] at hfuel
      obtain ⟨f, rfl⟩ := Nat.exists_eq_succ_of_ne_zero (by omega : fuel ≠ 0)
      have hinner := parseMembers_serializeMembers numberToString kvs (level + 1) f []
        (Char.ofNat 10 :: jsonIndent level) rest (by rw [hkvs]; simp) hjp.1 (by omega) rfl
        (newline_indent_all level)
      rw [List.nil_append] at hinner
      have hobj := parseValue_object f ws (Char.ofNat 10 :: jsonIndent (level + 1)) _ rest kvs
        hws (newline_indent_all (level + 1)) ?_ hinner
      · rw [hobj, objectOfMembers_eq kvs hjp.2]
      · rw [hparts]
        cases hm : serializeMembers numberToString (level + 1) more with
        | nil =>
          simp only [joinLines, quoteJSONString, List.cons_append]
          exact startsValue_cons _ _ (by decide) (by decide) (by decide)
        | cons p ps =>
          rw [joinLines_cons_cons]
          simp only [quoteJSONString, List.cons_append]
          exact startsValue_cons _ _ (by decide) (by decide) (by decide)
theorem parseElements_serializeElements (numberToString : ℚ → String) :
    ∀ (xs : List JsVal) (level fuel : Nat) (ws closing rest : List Char),
      xs ≠ [] → isJsonList numberToString xs = true →
      (joinLines level (serializeElements numberToString level xs)).length < fuel →
      ws.all isJsonWhiteSpace = true → closing.all isJsonWhiteSpace = true →
      parseElements fuel
          (ws ++ (joinLines level (serializeElements numberToString level xs)
            ++ (closing ++ (Char.ofNat 93 :: rest))))
        = some (xs, rest)
  | [], _, _, _, _, _, hne, _, _, _, _ => absurd rfl hne
  | [x], level, fuel, ws, closing, rest, _, hj, hfuel, hws, hclosing => by
    obtain ⟨f, rfl⟩ := Nat.exists_eq_succ_of_ne_zero (by omega : fuel ≠ 0)
    have hx : isJson numberToString x = true := by
      simpa [isJsonList] using hj
    simp only [serializeElements, joinLines] at hfuel ⊢
    have hv := parseValue_serializeValue numberToString x level f ws
      (closing ++ (Char.ofNat 93 :: rest)) hx (by omega) hws
      (startsWithNumberChar_of_closing closing rest 93 hclosing (Or.inl rfl) _ rfl)
    exact parseElements_last f _ closing rest x hclosing hv
  | x :: y :: more, level, fuel, ws, closing, rest, _, hj, hfuel, hws, hclosing => by
    obtain ⟨f, rfl⟩ := Nat.exists_eq_succ_of_ne_zero (by omega : fuel ≠ 0)
    have hx : isJson numberToString x = true
        ∧ isJsonList numberToString (y :: more) = true := by
      simpa [isJsonList] using hj
    have hparts : serializeElements numberToString level (x :: y :: more)
        = serializeValue numberToString level x
          :: serializeElements numberToString level (y :: more) := rfl
    have hparts2 : serializeElements numberToString level (y :: more)
        = serializeValue numberToString level y
          :: serializeElements numberToString level more := rfl
    rw [hparts, hparts2, joinLines_cons_cons, ← hparts2] at hfuel ⊢
    simp only [List.length_append, List.length_cons] at hfuel
    simp only [List.append_assoc, List.cons_append]
    have hv := parseValue_serializeValue numberToString x level f ws
      (',' :: Char.ofNat 10 :: (jsonIndent level
        ++ (joinLines level (serializeElements numberToString level (y :: more))
          ++ (closing ++ (Char.ofNat 93 :: rest))))) hx.1 (by omega) hws
      (startsWithNumberChar_of_closing [] _ 44 rfl (Or.inr (Or.inr rfl)) _ rfl)
    have hrec := parseElements_serializeElements numberToString (y :: more) level f
      (Char.ofNat 10 :: jsonIndent level) closing rest (by simp) hx.2 (by omega)
      (newline_indent_all level) hclosing
    simp only [List.cons_append] at hrec
    exact parseElements_more f _ _ rest x (y :: more) hv hrec
theorem parseMembers_serializeMembers (numberToString : ℚ → String) :
    ∀ (kvs : List (String × JsVal)) (level fuel : Nat) (ws closing rest : List Char),
      kvs ≠ [] → isJsonProps numberToString kvs = true →
      (joinLines level (serializeMembers numberToString level kvs)).length < fuel →
      ws.all isJsonWhiteSpace = true → closing.all isJsonWhiteSpace = true →
      parseMembers fuel
          (ws ++ (joinLines level (serializeMembers numberToString level kvs)
            ++ (closing ++ (Char.ofNat 125 :: rest))))
        = some (kvs, rest)
  | [], _, _, _, _, _, hne, _, _, _, _ => absurd rfl hne
  | [(key, value)], level, fuel, ws, closing, rest, _, hj, hfuel, hws, hclosing => by
    obtain ⟨f, rfl⟩ := Nat.exists_eq_succ_of_ne_zero (by omega : fuel ≠ 0)
    have hx : isJson numberToString value = true := by
      simpa [isJsonProps] using hj
    rw [serializeMembers_cons numberToString level key value [] hx] at hfuel ⊢
    simp only [serializeMembers, joinLines, List.length_append, List.length_cons] at hfuel ⊢
    simp only [List.append_assoc, List.cons_append]
    have hv := parseValue_serializeValue numberToString value level f [Char.ofNat 32]
      (closing ++ (Char.ofNat 125 :: rest)) hx (by omega) (by decide)
      (startsWithNumberChar_of_closing closing rest 125 hclosing (Or.inr (Or.inl rfl)) _ rfl)
    exact parseMembers_last f ws _ closing rest key value hws hclosing hv
  | (key, value) :: kv2 :: more, level, fuel, ws, closing, rest, _, hj, hfuel, hws,
      hclosing => by
    obtain ⟨f, rfl⟩ := Nat.exists_eq_succ_of_ne_zero (by omega : fuel ≠ 0)
    have hx : isJson numberToString value = true
        ∧ isJsonProps numberToString (kv2 :: more) = true := by
      simpa [isJsonProps] using hj
    obtain ⟨key2, value2⟩ := kv2
    have hx2 : isJson numberToString value2 = true := by
      have := hx.2
      simp only [isJsonProps, Bool.and_eq_true] at this
      exact this.1
    have hparts2 := serializeMembers_cons numberToString level key2 value2 more hx2
    rw [serializeMembers_cons numberToString level key value _ hx.1, hparts2,
      joinLines_cons_cons, ← hparts2] at hfuel ⊢
    simp only [List.length_append, List.length_cons] at hfuel
    simp only [List.append_assoc, List.cons_append]
    have hv := parseValue_serializeValue numberToString value level f [Char.ofNat 32]
      (',' :: Char.ofNat 10 :: (jsonIndent level
        ++ (joinLines level (serializeMembers numberToString level ((key2, value2) :: more))
          ++ (closing ++ (Char.ofNat 125 :: rest))))) hx.1 (by omega) (by decide)
      (startsWithNumberChar_of_closing [] _ 44 rfl (Or.inr (Or.inr rfl)) _ rfl)
    have hrec := parseMembers_serializeMembers numberToString ((key2, value2) :: more) level f
      (Char.ofNat 10 :: jsonIndent level) closing rest (by simp) hx.2 (by omega)
      (newline_indent_all level) hclosing
    simp only [List.cons_append] at hrec
    exact parseMembers_more f ws _ _ rest key value ((key2, value2) :: more) hws hv hrec
end

theorem jsonParse_jsonStringify (numberToString : ℚ → String) (v : JsVal)
    (h : isJson numberToString v = true) :
    jsonParse (jsonStringify numberToString v) = some v := by
  have hv := parseValue_serializeValue numberToString v 0
    (2 * (serializeValue numberToString 0 v).length + 2) [] [] h (by omega) rfl rfl
  simp only [List.nil_append, List.append_nil] at hv
  simp [jsonParse, jsonStringify, String.length, hv, skipWhiteSpace]

theorem skipWhiteSpace_length (cs : List Char) : (skipWhiteSpace cs).length ≤ cs.length :=
  (List.dropWhile_sublist _).length_le

theorem parseHex4_length (cs rest : List Char) (n : Nat) (h : parseHex4 cs = some (n, rest)) :
    rest.length + 4 = cs.length := by
  match cs, h with
  | a :: b :: c :: d :: tail, h =>
    simp only [parseHex4] at h
    cases h4 : hex4 a b c d with
    | none => rw [h4] at h; simp at h
    | some m =>
      rw [h4] at h
      simp only [Option.some.injEq, Prod.mk.injEq] at h
      rw [← h.2]
      simp

theorem parseStringChar_length (cs rest : List Char) (c : Char)
    (h : parseStringChar cs = some (c, rest)) : rest.length < cs.length := by
  cases cs with
  | nil => simp [parseStringChar] at h
  | cons c0 rest0 =>
    simp only [parseStringChar] at h
    split_ifs at h with h92 h32
    · cases rest0 with
      | nil => simp at h
      | cons e rest2 =>
        simp only at h
        split_ifs at h with hu
        · cases hx : parseHex4 rest2 with
          | none => simp [hx] at h
          | some r =>
            obtain ⟨n, rest3⟩ := r
            have hl := parseHex4_length _ _ _ hx
            simp only [hx] at h
            split_ifs at h with hhigh hlow
            · cases rest3 with
              | nil => simp at h
              | cons b t =>
                cases t with
                | nil => simp at h
                | cons u rest4 =>
                  simp only at h
                  split_ifs at h with hbu
                  · cases hy : parseHex4 rest4 with
                    | none => simp [hy] at h
                    | some r2 =>
                      obtain ⟨m, rest5⟩ := r2
                      have hl2 := parseHex4_length _ _ _ hy
                      simp only [hy] at h
                      split_ifs at h with hm
                      · simp only [Option.some.injEq, Prod.mk.injEq] at h
                        rw [← h.2]
                        simp only [List.length_cons] at hl ⊢
                        omega
            · simp only [Option.some.injEq, Prod.mk.injEq] at h
              rw [← h.2]
              simp only [List.length_cons]
              omega
        · cases hx : unescapeChar e with
          | none => simp [hx] at h
          | some ch =>
            simp only [hx, Option.some.injEq, Prod.mk.injEq] at h
            rw [← h.2]
            simp only [List.length_cons]
            omega
    · simp only [Option.some.injEq, Prod.mk.injEq] at h
      rw [← h.2]
      simp

theorem parseStringBody_length (fuel : Nat) :
    ∀ (cs s rest : List Char), parseStringBody fuel cs = some (s, rest) →
      rest.length < cs.length := by
  induction fuel with
  | zero => intro cs s rest h; simp [parseStringBody] at h
  | succ f ih =>
    intro cs s rest h
    cases cs with
    | nil => simp [parseStringBody] at h
    | cons c tail =>
      simp only [parseStringBody] at h
      split_ifs at h with hq
      · simp only [Option.some.injEq, Prod.mk.injEq] at h
        rw [← h.2]
        simp
      · cases hc : parseStringChar (c :: tail) with
        | none => simp [hc] at h
        | some r =>
          obtain ⟨ch, rest2⟩ := r
          have hl := parseStringChar_length _ _ _ hc
          simp only [hc] at h
          cases hb : parseStringBody f rest2 with
          | none => simp [hb] at h
          | some r2 =>
            obtain ⟨s2, after⟩ := r2
            have hl2 := ih rest2 s2 after hb
            simp only [hb, Option.some.injEq, Prod.mk.injEq] at h
            rw [← h.2]
            omega

theorem parseStringBody_fuel (fuel : Nat) :
    ∀ (cs s rest : List Char), parseStringBody fuel cs = some (s, rest) →
      ∀ g, cs.length ≤ g → parseStringBody g cs = some (s, rest) := by
  induction fuel with
  | zero => intro cs s rest h; simp [parseStringBody] at h
  | succ f ih =>
    intro cs s rest h g hg
    cases cs with
    | nil => simp [parseStringBody] at h
    | cons c tail =>
      obtain ⟨g2, rfl⟩ := Nat.exists_eq_succ_of_ne_zero
        (by simp only [List.length_cons] at hg; omega : g ≠ 0)
      simp only [parseStringBody] at h ⊢
      split_ifs at h ⊢ with hq
      · exact h
      · cases hc : parseStringChar (c :: tail) with
        | none => simp [hc] at h
        | some r =>
          obtain ⟨ch, rest2⟩ := r
          have hl := parseStringChar_length _ _ _ hc
          simp only [hc] at h ⊢
          cases hb : parseStringBody f rest2 with
          | none => simp [hb] at h
          | some r2 =>
            obtain ⟨s2, after⟩ := r2
            simp only [List.length_cons] at hl hg
            rw [ih rest2 s2 after hb g2 (by omega)]
            simpa [hb] using h

/-- The bound `parseString` uses is never what stops it: a string that is
read under some bound is read, with the same result, by `parseString`. -/
theorem parseString_of_bound (fuel : Nat) (cs s rest : List Char)
    (h : parseStringBody fuel cs = some (s, rest)) : parseString cs = some (s, rest) :=
  parseStringBody_fuel fuel cs s rest h cs.length (le_refl _)

theorem parseString_length (cs s rest : List Char) (h : parseString cs = some (s, rest)) :
    rest.length < cs.length :=
  parseStringBody_length cs.length cs s rest h


theorem skipWhiteSpace_cons_length (cs : List Char) (c : Char) (rest : List Char)
    (h : skipWhiteSpace cs = c :: rest) : rest.length < cs.length := by
  have := skipWhiteSpace_length cs
  rw [h] at this
  simp only [List.length_cons] at this
  omega

theorem readJsonNumber_ne_nil (token : List Char) (q : ℚ)
    (h : readJsonNumber token = some q) : token ≠ [] := by
  intro hc
  rw [hc] at h
  simp [readJsonNumber, startsWithMinus] at h

theorem dropWhile_length_lt (p : Char → Bool) (cs : List Char)
    (h : cs.takeWhile p ≠ []) : (cs.dropWhile p).length < cs.length := by
  have hsplit := List.takeWhile_append_dropWhile p cs
  have hlen : (cs.takeWhile p).length + (cs.dropWhile p).length = cs.length := by
    rw [← List.length_append, hsplit]
  have hpos : 0 < (cs.takeWhile p).length := List.length_pos.mpr h
  omega

theorem parse_bound (fuel : Nat) :
    (∀ (cs : List Char) (v : JsVal) (rest : List Char),
        parseValue fuel cs = some (v, rest) →
        rest.length < cs.length
          ∧ ∀ g, 2 * cs.length + 1 ≤ g → parseValue g cs = some (v, rest))
      ∧ (∀ (cs : List Char) (xs : List JsVal) (rest : List Char),
        parseElements fuel cs = some (xs, rest) →
        rest.length < cs.length
          ∧ ∀ g, 2 * cs.length + 2 ≤ g → parseElements g cs = some (xs, rest))
      ∧ (∀ (cs : List Char) (members : List (String × JsVal)) (rest : List Char),
        parseMembers fuel cs = some (members, rest) →
        rest.length < cs.length
          ∧ ∀ g, 2 * cs.length + 2 ≤ g → parseMembers g cs = some (members, rest)) := by
  induction fuel with
  | zero =>
    refine ⟨?_, ?_, ?_⟩
    · intro cs v rest h; simp [parseValue] at h
    · intro cs xs rest h; simp [parseElements] at h
    · intro cs ms rest h; simp [parseMembers] at h
  | succ f ih =>
    obtain ⟨ihV, ihE, ihM⟩ := ih
    refine ⟨?_, ?_, ?_⟩
    · intro cs v rest h
      rw [parseValue] at h
      cases hs : skipWhiteSpace cs with
      | nil => simp [hs] at h
      | cons c tail =>
        have hlen := skipWhiteSpace_cons_length cs c tail hs
        simp only [hs] at h
        have key : ∀ g2, 2 * cs.length ≤ g2 →
            rest.length < cs.length ∧ parseValue (g2 + 1) cs = some (v, rest) := by
          intro g2 hg2
          rw [parseValue]
          simp only [hs]
          split_ifs at h ⊢ with h91 h123 h34 h110 h116 h102
          · cases hs2 : skipWhiteSpace tail with
            | nil => simp [hs2] at h
            | cons d rest2 =>
              have hlen2 := skipWhiteSpace_cons_length tail d rest2 hs2
              simp only [hs2] at h ⊢
              split_ifs at h ⊢ with h93
              · simp only [Option.some.injEq, Prod.mk.injEq] at h
                obtain ⟨rfl, rfl⟩ := h
                exact ⟨by omega, rfl⟩
              · cases he : parseElements f (d :: rest2) with
                | none => simp [he] at h
                | some r =>
                  obtain ⟨xs, after⟩ := r
                  obtain ⟨hl, hfuel⟩ := ihE _ _ _ he
                  simp only [List.length_cons] at hl hfuel
                  simp only [he, Option.some.injEq, Prod.mk.injEq] at h
                  obtain ⟨rfl, rfl⟩ := h
                  rw [hfuel g2 (by omega)]
                  exact ⟨by omega, rfl⟩
          · cases hs2 : skipWhiteSpace tail with
            | nil => simp [hs2] at h
            | cons d rest2 =>
              have hlen2 := skipWhiteSpace_cons_length tail d rest2 hs2
              simp only [hs2] at h ⊢
              split_ifs at h ⊢ with h125
              · simp only [Option.some.injEq, Prod.mk.injEq] at h
                obtain ⟨rfl, rfl⟩ := h
                exact ⟨by omega, rfl⟩
              · cases he : parseMembers f (d :: rest2) with
                | none => simp [he] at h
                | some r =>
                  obtain ⟨ms, after⟩ := r
                  obtain ⟨hl, hfuel⟩ := ihM _ _ _ he
                  simp only [List.length_cons] at hl hfuel
                  simp only [he, Option.some.injEq, Prod.mk.injEq] at h
                  obtain ⟨rfl, rfl⟩ := h
                  rw [hfuel g2 (by omega)]
                  exact ⟨by omega, rfl⟩
          · cases hp : parseString tail with
            | none => simp [hp] at h
            | some r =>
              obtain ⟨str, after⟩ := r
              have hl := parseString_length _ _ _ hp
              simp only [hp, Option.some.injEq, Prod.mk.injEq] at h
              obtain ⟨rfl, rfl⟩ := h
              exact ⟨by omega, rfl⟩
          · split at h
            · simp only [Option.some.injEq, Prod.mk.injEq] at h
              obtain ⟨rfl, rfl⟩ := h
              simp only [List.length_cons] at hlen
              exact ⟨by omega, rfl⟩
            · simp at h
          · split at h
            · simp only [Option.some.injEq, Prod.mk.injEq] at h
              obtain ⟨rfl, rfl⟩ := h
              simp only [List.length_cons] at hlen
              exact ⟨by omega, rfl⟩
            · simp at h
          · split at h
            · simp only [Option.some.injEq, Prod.mk.injEq] at h
              obtain ⟨rfl, rfl⟩ := h
              simp only [List.length_cons] at hlen
              exact ⟨by omega, rfl⟩
            · simp at h
          · cases hr : readJsonNumber (List.takeWhile isJsonNumberChar (c :: tail)) with
            | none => simp [hr] at h
            | some q =>
              have hne := readJsonNumber_ne_nil _ _ hr
              have hl := dropWhile_length_lt isJsonNumberChar (c :: tail) hne
              simp only [hr, Option.some.injEq, Prod.mk.injEq] at h
              obtain ⟨rfl, rfl⟩ := h
              simp only [List.length_cons] at hl
              exact ⟨by omega, rfl⟩
        refine ⟨(key (2 * cs.length) (le_refl _)).1, ?_⟩
        intro g hg
        obtain ⟨g2, rfl⟩ := Nat.exists_eq_succ_of_ne_zero (by omega : g ≠ 0)
        exact (key g2 (by omega)).2
    · intro cs xs rest h
      rw [parseElements] at h
      cases hv : parseValue f cs with
      | none => simp [hv] at h
      | some r =>
        obtain ⟨x, rest1⟩ := r
        obtain ⟨hl1, hfuel1⟩ := ihV _ _ _ hv
        simp only [hv] at h
        cases hs : skipWhiteSpace rest1 with
        | nil => simp [hs] at h
        | cons d rest2 =>
          have hlen := skipWhiteSpace_cons_length rest1 d rest2 hs
          simp only [hs] at h
          have key : ∀ g2, 2 * cs.length + 1 ≤ g2 →
              rest.length < cs.length ∧ parseElements (g2 + 1) cs = some (xs, rest) := by
            intro g2 hg2
            rw [parseElements, hfuel1 g2 hg2]
            simp only [hs]
            split_ifs at h ⊢ with h44 h93
            · cases he : parseElements f rest2 with
              | none => simp [he] at h
              | some r2 =>
                obtain ⟨more, after⟩ := r2
                obtain ⟨hl, hfuel⟩ := ihE _ _ _ he
                simp only [he, Option.some.injEq, Prod.mk.injEq] at h
                obtain ⟨rfl, rfl⟩ := h
                rw [hfuel g2 (by omega)]
                exact ⟨by omega, rfl⟩
            · simp only [Option.some.injEq, Prod.mk.injEq] at h
              obtain ⟨rfl, rfl⟩ := h
              exact ⟨by omega, rfl⟩
          refine ⟨(key (2 * cs.length + 1) (le_refl _)).1, ?_⟩
          intro g hg
          obtain ⟨g2, rfl⟩ := Nat.exists_eq_succ_of_ne_zero (by omega : g ≠ 0)
          exact (key g2 (by omega)).2
    · intro cs ms rest h
      rw [parseMembers] at h
      cases hs : skipWhiteSpace cs with
      | nil => simp [hs] at h
      | cons q rest0 =>
        have hlen0 := skipWhiteSpace_cons_length cs q rest0 hs
        simp only [hs] at h
        split_ifs at h with h34
        cases hp : parseString rest0 with
        | none => simp [hp] at h
        | some r =>
          obtain ⟨key, rest2⟩ := r
          have hlen2 := parseString_length _ _ _ hp
          simp only [hp] at h
          cases hs3 : skipWhiteSpace rest2 with
          | nil => simp [hs3] at h
          | cons colon rest3 =>
            have hlen3 := skipWhiteSpace_cons_length rest2 colon rest3 hs3
            simp only [hs3] at h
            split_ifs at h with h58
            cases hv : parseValue f rest3 with
            | none => simp [hv] at h
            | some r2 =>
              obtain ⟨value, rest4⟩ := r2
              obtain ⟨hl4, hfuel4⟩ := ihV _ _ _ hv
              simp only [hv] at h
              cases hs5 : skipWhiteSpace rest4 with
              | nil => simp [hs5] at h
              | cons d rest5 =>
                have hlen5 := skipWhiteSpace_cons_length rest4 d rest5 hs5
                simp only [hs5] at h
                have hkey : ∀ g2, 2 * cs.length + 1 ≤ g2 →
                    rest.length < cs.length
                      ∧ parseMembers (g2 + 1) cs = some (ms, rest) := by
                  intro g2 hg2
                  rw [parseMembers]
                  simp only [hs, h34, if_true, hp, hs3, h58, hfuel4 g2 (by omega), hs5]
                  split_ifs at h ⊢ with h44 h125
                  · cases he : parseMembers f rest5 with
                    | none => simp [he] at h
                    | some r3 =>
                      obtain ⟨more, after⟩ := r3
                      obtain ⟨hl, hfuel⟩ := ihM _ _ _ he
                      simp only [he, Option.some.injEq, Prod.mk.injEq] at h
                      obtain ⟨rfl, rfl⟩ := h
                      rw [hfuel g2 (by omega)]
                      exact ⟨by omega, rfl⟩
                  · simp only [Option.some.injEq, Prod.mk.injEq] at h
                    obtain ⟨rfl, rfl⟩ := h
                    exact ⟨by omega, rfl⟩
                refine ⟨(hkey (2 * cs.length + 1) (le_refl _)).1, ?_⟩
                intro g hg
                obtain ⟨g2, rfl⟩ := Nat.exists_eq_succ_of_ne_zero (by omega : g ≠ 0)
                exact (hkey g2 (by omega)).2

/-- The bound `jsonParse` hands to `parseValue` is never what stops it: a
text that denotes a value under some bound is parsed to that value by
`jsonParse`. -/
theorem jsonParse_of_bound (fuel : Nat) (text : String) (v : JsVal) (rest : List Char)
    (h : parseValue fuel text.toList = some (v, rest))
    (hrest : (skipWhiteSpace rest).isEmpty = true) : jsonParse text = some v := by
  have hlen : text.toList.length = text.length := rfl
  have hb := ((parse_bound fuel).1 _ _ _ h).2 (2 * text.length + 2) (by omega)
  have hempty : skipWhiteSpace rest = [] := by simpa using hrest
  unfold jsonParse
  rw [hb]
  simp [hempty]

theorem keysInOrder_filter (p : String × JsVal → Bool) (props : List (String × JsVal))
    (h : keysInOrder (props.map Prod.fst) = true) :
    keysInOrder ((props.filter p).map Prod.fst) = true := by
  induction props with
  | nil => rfl
  | cons kv props ih =>
    simp only [List.map_cons, keysInOrder, Bool.and_eq_true, List.all_eq_true, List.mem_map,
      forall_exists_index, and_imp, forall_apply_eq_imp_iff₂] at h
    rw [List.filter_cons]
    split_ifs with hp
    · simp only [List.map_cons, keysInOrder, Bool.and_eq_true, List.all_eq_true, List.mem_map,
        forall_exists_index, and_imp, forall_apply_eq_imp_iff₂]
      exact ⟨fun a ha => h.1 a (List.mem_filter.mp ha).1, ih h.2⟩
    · exact ih h.2

theorem isJsonProps_definedProps (numberToString : ℚ → String)
    (props : List (String × JsVal))
    (h : ∀ kv ∈ props, (isUndefined kv.2 || isJson numberToString kv.2) = true) :
    isJsonProps numberToString (definedProps props) = true := by
  induction props with
  | nil => rfl
  | cons kv props ih =>
    obtain ⟨key, value⟩ := kv
    have hrest := ih (fun kv hkv => h kv (List.mem_cons_of_mem _ hkv))
    have hv := h (key, value) (List.mem_cons_self _ _)
    unfold definedProps at hrest ⊢
    rw [List.filter_cons]
    cases hu : isUndefined value with
    | true => simpa [hu] using hrest
    | false =>
      have hj : isJson numberToString value = true := by simpa [hu] using hv
      simp only [hu, Bool.not_false, if_true, isJsonProps, hj, hrest, Bool.and_self]

theorem isJson_toJson (numberToString : ℚ → String) (toISOString : Nat → String)
    (c : CustomerRecord) (h : c.fieldsAreJson numberToString = true) :
    isJson numberToString (c.toJson toISOString) = true := by
  simp only [CustomerRecord.fieldsAreJson, List.all_cons, List.all_nil, Bool.and_true,
    Bool.and_eq_true] at h
  obtain ⟨h1, h2, h3, h4, h5, h6, h7, h8, h9, h10, h11⟩ := h
  simp only [CustomerRecord.toJson, isJson, Bool.and_eq_true]
  constructor
  · apply isJsonProps_definedProps
    intro kv hkv
    simp only [List.mem_cons, List.mem_singleton, List.not_mem_nil, or_false] at hkv
    rcases hkv with rfl | rfl | rfl | rfl | rfl | rfl | rfl | rfl | rfl | rfl | rfl | rfl
    · exact h1
    · exact h2
    · exact h3
    · exact h4
    · exact h5
    · exact h6
    · exact h7
    · exact h8
    · exact h9
    · exact h10
    · exact h11
    · simp [isJson, isUndefined]
  · apply keysInOrder_filter
    simp only [List.map_cons, List.map_nil]
    decide

theorem isJsonList_map_toJson (numberToString : ℚ → String) (toISOString : Nat → String)
    (customers : List CustomerRecord)
    (h : ∀ c ∈ customers, c.fieldsAreJson numberToString = true) :
    isJsonList numberToString (customers.map (CustomerRecord.toJson toISOString)) = true := by
  induction customers with
  | nil => rfl
  | cons c customers ih =>
    simp only [List.map_cons, isJsonList, Bool.and_eq_true]
    exact ⟨isJson_toJson numberToString toISOString c (h c (List.mem_cons_self _ _)),
      ih (fun c hc => h c (List.mem_cons_of_mem _ hc))⟩

theorem readBack_customersFileText (numberToString : ℚ → String) (toISOString : Nat → String)
    (customers : List CustomerRecord)
    (h : ∀ c ∈ customers, c.fieldsAreJson numberToString = true) :
    jsonParse (customersFileText numberToString toISOString customers)
      = some (.arr (customers.map (CustomerRecord.toJson toISOString))) := by
  unfold customersFileText
  apply jsonParse_jsonStringify
  simp only [isJson]
  exact isJsonList_map_toJson numberToString toISOString customers h

/-! ## Reading the collection files -/

theorem wholeNumberToString_zero : wholeNumberToString 0 = "0" := by
  rfl

theorem isNumberText_zero : isNumberText wholeNumberToString 0 = true := by
  simp [isNumberText, wholeNumberToString_zero, readJsonNumber, isJsonNumberChar, isRadixDigit,
    digitValue, startsWithMinus, startsWithZeroDigit, exponentPart, digitsValue]

theorem jsonParse_emptyObject : jsonParse "\x7b\x7d" = some (.obj []) := by
  simp [jsonParse, parseValue, skipWhiteSpace, isJsonWhiteSpace]

theorem jsonParse_null : jsonParse "null" = some .null := by
  simp [jsonParse, parseValue, skipWhiteSpace, isJsonWhiteSpace]

theorem jsonParse_emptyText : jsonParse "" = none := by
  simp [jsonParse, parseValue, skipWhiteSpace]

theorem jsonParse_truncated : jsonParse "[1," = none := by
  simp [jsonParse, parseValue, parseElements, skipWhiteSpace, isJsonWhiteSpace, readJsonNumber,
    isJsonNumberChar, isRadixDigit, digitValue, startsWithMinus, startsWithZeroDigit,
    exponentPart, digitsValue]

theorem jsOr_fieldIsJson (numberToString : ℚ → String) (x d : JsVal)
    (hx : (isUndefined x || isJson numberToString x) = true)
    (hd : isJson numberToString d = true) :
    (isUndefined (jsOr x d) || isJson numberToString (jsOr x d)) = true := by
  unfold jsOr
  split_ifs with ht
  · exact hx
  · simp [hd]

theorem newCustomerData_fieldsAreJson (numberToString : ℚ → String) (body : CustomerBody)
    (env : Env) (hbody : body.fieldsAreJson numberToString = true)
    (hzero : isNumberText numberToString 0 = true) :
    (newCustomerData body env).fieldsAreJson numberToString = true := by
  simp only [CustomerBody.fieldsAreJson, List.all_cons, List.all_nil, Bool.and_true,
    Bool.and_eq_true] at hbody
  obtain ⟨h1, h2, h3, h4, h5, h6, h7, h8, h9, h10, h11⟩ := hbody
  have hz : isJson numberToString (.num 0) = true := by simpa [isJson] using hzero
  have ha : isJson numberToString (.arr []) = true := by simp [isJson, isJsonList]
  simp only [CustomerRecord.fieldsAreJson, newCustomerData, List.all_cons, List.all_nil,
    Bool.and_true, Bool.and_eq_true]
  exact ⟨h1, h2, h3, h4, h5, jsOr_fieldIsJson numberToString _ _ h6 hz,
    jsOr_fieldIsJson numberToString _ _ h7 hz, jsOr_fieldIsJson numberToString _ _ h8 hz,
    jsOr_fieldIsJson numberToString _ _ h9 hz, jsOr_fieldIsJson numberToString _ _ h10 hz,
    jsOr_fieldIsJson numberToString _ _ h11 ha⟩

/-- C16 as stated fails: a customers file holding the valid JSON text `{}` is
read without an error, but what is returned and listed (status 200) is that
object, which is not a list; a products file holding the text `null` is listed
as `null`. -/
theorem C16_counterexample :
    FileRead.ofText (some "\x7b\x7d") = .parsed (.obj [])
      ∧ (FileRead.ofText (some "\x7b\x7d")).readLocalCustomers = .obj []
      ∧ (FileRead.ofText (some "\x7b\x7d")).getCustomers = (200, .obj [])
      ∧ isArray (FileRead.ofText (some "\x7b\x7d")).getCustomers.2 = false
      ∧ (FileRead.ofText (some "null")).getProducts = (200, .null)
      ∧ isArray (FileRead.ofText (some "null")).getProducts.2 = false := by
  simp [FileRead.ofText, jsonParse_emptyObject, jsonParse_null, FileRead.readLocalCustomers,
    FileRead.readLocalProducts, FileRead.getCustomers, FileRead.getProducts, isArray]

/-- C16 (amended): `readLocalCustomers` and `readLocalProducts` never surface
an error: when reading the file throws (missing, unreadable) or parsing its
text throws (not JSON) they return the empty list, and a file whose text
parses is returned as `JSON.parse` yields it, without a check. A file-mode
listing therefore always answers 200 with the value read, and that value is a
list exactly when the file is missing, unreadable, not JSON, or holds a JSON
array. On the files the typed handlers range over (missing or unparseable, or
an array of records) the listings answer 200 with the list read, the empty
one for a missing or unparseable file. -/
theorem C16_read_never_fails (read : FileRead) (text : String) (srv : Server) (env : Env) :
    ((FileRead.ofText none).readLocalCustomers = .arr []
        ∧ (FileRead.ofText none).readLocalProducts = .arr [])
      ∧ (jsonParse text = none →
          (FileRead.ofText (some text)).readLocalCustomers = .arr []
            ∧ (FileRead.ofText (some text)).readLocalProducts = .arr [])
      ∧ (∀ value : JsVal, jsonParse text = some value →
          (FileRead.ofText (some text)).readLocalCustomers = value
            ∧ (FileRead.ofText (some text)).readLocalProducts = value)
      ∧ (FileRead.readFileThrows.readLocalCustomers = .arr []
          ∧ FileRead.parseThrows.readLocalCustomers = .arr []
          ∧ FileRead.readFileThrows.readLocalProducts = .arr []
          ∧ FileRead.parseThrows.readLocalProducts = .arr [])
      ∧ (∀ value : JsVal, (FileRead.parsed value).readLocalCustomers = value
          ∧ (FileRead.parsed value).readLocalProducts = value)
      ∧ (read.getCustomers = (200, read.readLocalCustomers)
          ∧ read.getProducts = (200, read.readLocalProducts))
      ∧ (isArray read.getCustomers.2 = true ↔
          (read = .readFileThrows ∨ read = .parseThrows ∨ ∃ xs, read = .parsed (.arr xs)))
      ∧ (isArray read.getProducts.2 = true ↔
          (read = .readFileThrows ∨ read = .parseThrows ∨ ∃ xs, read = .parsed (.arr xs)))
      ∧ (readLocalCustomers none = [] ∧ readLocalProducts none = [])
      ∧ (srv.useMongoDB = false →
          getCustomers srv env = ⟨200, .customers (readLocalCustomers srv.customersFile)⟩
            ∧ getProducts srv env = ⟨200, .products (readLocalProducts srv.productsFile)⟩)
      ∧ (srv.useMongoDB = false → srv.customersFile = none →
          getCustomers srv env = ⟨200, .customers []⟩)
      ∧ (srv.useMongoDB = false → srv.productsFile = none →
          getProducts srv env = ⟨200, .products []⟩) := by
  have harr : ∀ r : FileRead, isArray r.readLocalCustomers = true ↔
      (r = .readFileThrows ∨ r = .parseThrows ∨ ∃ xs, r = .parsed (.arr xs)) := by
    intro r
    cases r with
    | readFileThrows => simp [FileRead.readLocalCustomers, isArray]
    | parseThrows => simp [FileRead.readLocalCustomers, isArray]
    | parsed value => cases value <;> simp [FileRead.readLocalCustomers, isArray]
  have harr2 : ∀ r : FileRead, isArray r.readLocalProducts = true ↔
      (r = .readFileThrows ∨ r = .parseThrows ∨ ∃ xs, r = .parsed (.arr xs)) := by
    intro r
    cases r with
    | readFileThrows => simp [FileRead.readLocalProducts, isArray]
    | parseThrows => simp [FileRead.readLocalProducts, isArray]
    | parsed value => cases value <;> simp [FileRead.readLocalProducts, isArray]
  refine ⟨⟨rfl, rfl⟩, ?_, ?_, ⟨rfl, rfl, rfl, rfl⟩, fun _ => ⟨rfl, rfl⟩, ⟨rfl, rfl⟩, harr read,
    harr2 read, ⟨rfl, rfl⟩, ?_, ?_, ?_⟩
  · intro hnone
    simp [FileRead.ofText, hnone, FileRead.readLocalCustomers, FileRead.readLocalProducts]
  · intro value hsome
    simp [FileRead.ofText, hsome, FileRead.readLocalCustomers, FileRead.readLocalProducts]
  · intro hmode
    simp [getCustomers, getProducts, hmode]
  · intro hmode hfile
    simp [getCustomers, hmode, hfile, readLocalCustomers]
  · intro hmode hfile
    simp [getProducts, hmode, hfile, readLocalProducts]

/-- A file cut off in the middle of a write (`[1,`) and an empty file are
read as the empty list, a file holding `{}` is read as that object, and on a
server in file mode whose files do not exist both listings are the empty
list. -/
theorem C16_read_never_fails_witness :
    (FileRead.ofText (some "[1,")).readLocalCustomers = .arr []
      ∧ (FileRead.ofText (some "")).readLocalProducts = .arr []
      ∧ (FileRead.ofText (some "\x7b\x7d")).readLocalCustomers = .obj []
      ∧ getCustomers freshFileServer (sampleEnv 1000) = ⟨200, .customers []⟩
      ∧ getProducts freshFileServer (sampleEnv 1000) = ⟨200, .products []⟩ :=
  ⟨((C16_read_never_fails .readFileThrows "[1," freshFileServer (sampleEnv 1000)).2.1
      jsonParse_truncated).1,
    ((C16_read_never_fails .readFileThrows "" freshFileServer (sampleEnv 1000)).2.1
      jsonParse_emptyText).2,
    ((C16_read_never_fails .readFileThrows "\x7b\x7d" freshFileServer
      (sampleEnv 1000)).2.2.1 (.obj []) jsonParse_emptyObject).1,
    (C16_read_never_fails .readFileThrows "" freshFileServer
      (sampleEnv 1000)).2.2.2.2.2.2.2.2.2.2.1 rfl rfl,
    (C16_read_never_fails .readFileThrows "" freshFileServer
      (sampleEnv 1000)).2.2.2.2.2.2.2.2.2.2.2 rfl rfl⟩

set_option maxRecDepth 100000 in
theorem customersFileText_sample :
    customersFileText wholeNumberToString sampleISOString
        [newCustomerData (sampleCustomerBody "Anand") (sampleEnv 1000)]
      = sampleCustomersFileText := by
  rfl

theorem toJson_sample :
    (newCustomerData (sampleCustomerBody "Anand") (sampleEnv 1000)).toJson sampleISOString
      = .obj [("fullname", .str "Anand"), ("phone", .str "9876543210"),
          ("address", .str "12 Main Road"), ("attender", .str "Ravi"),
          ("attenderPhone", .str "9123456780"), ("totalAmount", .num 0), ("totalArea", .num 0),
          ("totalWeight", .num 0), ("loadingCharges", .num 0), ("totalTileCost", .num 0),
          ("rooms", .arr []), ("createdAt", .str "1970-01-01T00:00:01.000Z")] := by
  rfl

/-- C17: file-mode round trip. An accepted `POST /api/customers` in file mode
writes the list made of the new record followed by the records read; the text
`JSON.stringify(customers, null, 2)` gives for that list is read back by
`JSON.parse`, hence by `readLocalCustomers`, as the JSON form of the same
list: the same records in the same order with the same field values,
`createdAt` as its ISO text. So the following listing answers 200 with that
list, and its first record is the JSON form of the record the POST returned.
The request body and the stored records are JSON values, and `0`, the default
of the totals, has a text that reads back as 0. -/
theorem C17_customer_round_trip (numberToString : ℚ → String) (toISOString : Nat → String)
    (srv : Server) (env envGet : Env) (body : CustomerBody)
    (hmode : srv.useMongoDB = false)
    (hok : (postCustomers srv env body).response.status = 201)
    (hbody : body.fieldsAreJson numberToString = true)
    (hzero : isNumberText numberToString 0 = true)
    (hstored : ∀ c ∈ readLocalCustomers srv.customersFile,
      c.fieldsAreJson numberToString = true) :
    (postCustomers srv env body).server.customersFile
        = some (newCustomerData body env :: readLocalCustomers srv.customersFile)
      ∧ jsonParse (customersFileText numberToString toISOString
            (newCustomerData body env :: readLocalCustomers srv.customersFile))
        = some (.arr ((newCustomerData body env).toJson toISOString
            :: (readLocalCustomers srv.customersFile).map (CustomerRecord.toJson toISOString)))
      ∧ (FileRead.ofText (some (customersFileText numberToString toISOString
            (newCustomerData body env :: readLocalCustomers srv.customersFile)))).getCustomers
        = (200, .arr ((newCustomerData body env).toJson toISOString
            :: (readLocalCustomers srv.customersFile).map (CustomerRecord.toJson toISOString)))
      ∧ ∃ (c : CustomerRecord) (rest : List CustomerRecord),
          (postCustomers srv env body).response.customer = some c
            ∧ getCustomers (postCustomers srv env body).server envGet
              = ⟨200, .customers (c :: rest)⟩
            ∧ (FileRead.ofText (some (customersFileText numberToString toISOString
                (readLocalCustomers
                  (postCustomers srv env body).server.customersFile)))).readLocalCustomers
              = .arr (c.toJson toISOString :: rest.map (CustomerRecord.toJson toISOString)) := by
  obtain ⟨hsrv, hcust⟩ := postCustomers_created srv env body hmode hok
  have hall : ∀ c ∈ newCustomerData body env :: readLocalCustomers srv.customersFile,
      c.fieldsAreJson numberToString = true := by
    intro c hc
    rcases List.mem_cons.mp hc with hc | hc
    · rw [hc]
      exact newCustomerData_fieldsAreJson numberToString body env hbody hzero
    · exact hstored c hc
  have hback := readBack_customersFileText numberToString toISOString _ hall
  rw [List.map_cons] at hback
  have hfile : (postCustomers srv env body).server.customersFile
      = some (newCustomerData body env :: readLocalCustomers srv.customersFile) := by
    rw [hsrv]
  refine ⟨hfile, hback, ?_, newCustomerData body env, readLocalCustomers srv.customersFile,
    hcust, ?_, ?_⟩
  · simp only [FileRead.getCustomers, FileRead.ofText, hback, FileRead.readLocalCustomers]
  · rw [hsrv]
    simp [getCustomers, hmode, readLocalCustomers]
  · rw [hfile]
    have hread : readLocalCustomers
        (some (newCustomerData body env :: readLocalCustomers srv.customersFile))
        = newCustomerData body env :: readLocalCustomers srv.customersFile := rfl
    rw [hread]
    simp only [FileRead.ofText, hback, FileRead.readLocalCustomers]

/-- A customer created on an empty store: the text the handler writes for the
one-record list is the sample text, two spaces per nesting level, and parsing
that text gives the JSON form of the record back. -/
theorem C17_customer_round_trip_witness :
    customersFileText wholeNumberToString sampleISOString
        [newCustomerData (sampleCustomerBody "Anand") (sampleEnv 1000)]
        = sampleCustomersFileText
      ∧ jsonParse sampleCustomersFileText
        = some (.arr [.obj [("fullname", .str "Anand"), ("phone", .str "9876543210"),
            ("address", .str "12 Main Road"), ("attender", .str "Ravi"),
            ("attenderPhone", .str "9123456780"), ("totalAmount", .num 0),
            ("totalArea", .num 0), ("totalWeight", .num 0), ("loadingCharges", .num 0),
            ("totalTileCost", .num 0), ("rooms", .arr []),
            ("createdAt", .str "1970-01-01T00:00:01.000Z")]]) := by
  have h := (C17_customer_round_trip wholeNumberToString sampleISOString freshFileServer
    (sampleEnv 1000) (sampleEnv 2000) (sampleCustomerBody "Anand") rfl
    (by simp [postCustomers, sampleCustomerBody, sampleEnv, freshFileServer, truthy])
    (by simp [CustomerBody.fieldsAreJson, sampleCustomerBody, isUndefined, isJson])
    isNumberText_zero
    (by simp [freshFileServer, readLocalCustomers])).2.1
  have h0 : readLocalCustomers freshFileServer.customersFile = [] := rfl
  rw [h0, List.map_nil, customersFileText_sample, toJson_sample] at h
  exact ⟨customersFileText_sample, h⟩

/-! ## The storage mode -/

theorem postCustomers_mode (srv : Server) (env : Env) (body : CustomerBody) :
    (postCustomers srv env body).server.useMongoDB = srv.useMongoDB := by
  unfold postCustomers
  split_ifs
  · rfl
  · cases env.mongoSaveCustomer <;> rfl
  · rfl
  · rfl

theorem postProducts_mode (srv : Server) (env : Env) (body : ProductBody) :
    (postProducts srv env body).server.useMongoDB = srv.useMongoDB := by
  unfold postProducts
  split_ifs
  · rfl
  · cases env.mongoSaveProduct <;> rfl
  · rfl
  · rfl

theorem deleteProduct_mode (toPrimitive : JsVal → Option String) (srv : Server) (env : Env)
    (id : String) :
    (deleteProduct toPrimitive srv env id).server.useMongoDB = srv.useMongoDB := by
  unfold deleteProduct
  split_ifs
  · rfl
  · rfl
  · cases deleteFilter toPrimitive (readLocalProducts srv.productsFile) id <;> rfl
  · cases deleteFilter toPrimitive (readLocalProducts srv.productsFile) id <;> rfl

theorem step_mode (toPrimitive : JsVal → Option String) (srv : Server) (e : Event) :
    (step toPrimitive srv e).useMongoDB = (srv.useMongoDB || e.isConnectResolved) := by
  cases e <;>
    simp [step, Event.isConnectResolved, postCustomers_mode, postProducts_mode,
      deleteProduct_mode]

theorem run_mode_true (toPrimitive : JsVal → Option String) (events : List Event) :
    ∀ srv : Server, srv.useMongoDB = true →
      (run toPrimitive srv events).useMongoDB = true := by
  induction events with
  | nil => intro srv h; exact h
  | cons e rest ih =>
    intro srv h
    exact ih (step toPrimitive srv e) (by rw [step_mode, h]; rfl)

theorem modesServed_of_true (toPrimitive : JsVal → Option String) (events : List Event) :
    ∀ srv : Server, srv.useMongoDB = true →
      ∀ m ∈ modesServed toPrimitive srv events, m = true := by
  induction events with
  | nil => intro srv _ m hm; simp [modesServed] at hm
  | cons e rest ih =>
    intro srv h m hm
    have hstep : (step toPrimitive srv e).useMongoDB = true := by rw [step_mode, h]; rfl
    unfold modesServed at hm
    split_ifs at hm
    · rcases List.mem_cons.mp hm with h1 | h1
      · rw [h1, h]
      · exact ih _ hstep m h1
    · exact ih _ hstep m hm

theorem modesServed_pairwise (toPrimitive : JsVal → Option String) (events : List Event) :
    ∀ srv : Server, (modesServed toPrimitive srv events).Pairwise
      (fun earlier later => earlier = true → later = true) := by
  induction events with
  | nil => intro srv; simp [modesServed]
  | cons e rest ih =>
    intro srv
    unfold modesServed
    split_ifs with hreq
    · refine List.pairwise_cons.mpr ⟨?_, ih _⟩
      intro later hlater hflag
      have hstep : (step toPrimitive srv e).useMongoDB = true := by
        rw [step_mode, hflag]; rfl
      exact modesServed_of_true toPrimitive rest _ hstep later hlater
    · exact ih _

theorem modesServed_of_no_connect (toPrimitive : JsVal → Option String) (events : List Event) :
    ∀ srv : Server, srv.useMongoDB = false → (∀ e ∈ events, e.isConnectResolved = false) →
      ∀ m ∈ modesServed toPrimitive srv events, m = false := by
  induction events with
  | nil => intro srv _ _ m hm; simp [modesServed] at hm
  | cons e rest ih =>
    intro srv h hno m hm
    have he : e.isConnectResolved = false := hno e (List.mem_cons_self _ _)
    have hstep : (step toPrimitive srv e).useMongoDB = false := by
      rw [step_mode, h, he]; rfl
    have hrest : ∀ x ∈ rest, x.isConnectResolved = false :=
      fun x hx => hno x (List.mem_cons_of_mem _ hx)
    unfold modesServed at hm
    split_ifs at hm
    · rcases List.mem_cons.mp hm with h1 | h1
      · rw [h1, h]
      · exact ih _ hstep hrest m h1
    · exact ih _ hstep hrest m hm

/-- C18: `useMongoDB` starts `false`; an event leaves it `true` exactly when it
was `true` before or the event is the successful connection, so no operation
sets it back to `false`; hence in every sequence of events no request served
in database mode is followed by one served in file mode, and as long as the
connection has not resolved every request is served in file mode. -/
theorem C18_mode_decided_once (toPrimitive : JsVal → Option String)
    (customersFile : Option (List CustomerRecord)) (productsFile : Option (List ProductRecord))
    (srv : Server) (e : Event) (events : List Event) :
    (initialServer customersFile productsFile).useMongoDB = false
      ∧ (step toPrimitive srv e).useMongoDB = (srv.useMongoDB || e.isConnectResolved)
      ∧ (srv.useMongoDB = true → (run toPrimitive srv events).useMongoDB = true)
      ∧ (modesServed toPrimitive srv events).Pairwise
          (fun earlier later => earlier = true → later = true)
      ∧ ((∀ x ∈ events, x.isConnectResolved = false) →
          ∀ m ∈ modesServed toPrimitive (initialServer customersFile productsFile) events,
            m = false) :=
  ⟨rfl, step_mode toPrimitive srv e, run_mode_true toPrimitive events srv,
    modesServed_pairwise toPrimitive events srv,
    modesServed_of_no_connect toPrimitive events _ rfl⟩

/-- A listing served before the connection callback has run is served in file
mode. -/
theorem C18_mode_decided_once_witness :
    ∀ m ∈ modesServed (jsonToPrimitive wholeNumberToString) (initialServer none none)
        [Event.getProducts (sampleEnv 1000), Event.connectRejected,
         Event.getCustomers (sampleEnv 2000)],
      m = false :=
  (C18_mode_decided_once (jsonToPrimitive wholeNumberToString) none none freshFileServer
    Event.connectRejected
    [Event.getProducts (sampleEnv 1000), Event.connectRejected,
     Event.getCustomers (sampleEnv 2000)]).2.2.2.2
    (by simp [Event.isConnectResolved])

/-! ## The product type in file mode -/

/-- C19 fails in file mode: a create whose type is `ceiling` is accepted with
201 and the record is stored in the products file with that type. -/
theorem C19_file_mode_stores_any_type :
    (postProducts freshFileServer (sampleEnv 1000)
        { sampleProductBody (.num 7) "Marble White" with type := .str "ceiling" }).response.status
        = 201
      ∧ ((postProducts freshFileServer (sampleEnv 1000)
          { sampleProductBody (.num 7) "Marble White" with
            type := .str "ceiling" }).server.productsFile).map
            (List.map ProductRecord.type) = some [.str "ceiling"] := by
  constructor <;>
    simp [postProducts, sampleProductBody, sampleEnv, freshFileServer, truthy,
      readLocalProducts, newProductData]

/-! ## The tile picker -/

/-- C20: for every wall state and every pending wall tile `t`,
`applyWallTile('all')` sets the four wall slots front, back, left and right to
`t`, whatever they held, and leaves the floor tile unchanged. -/
theorem C20_apply_to_all_walls (st : Visualizer) (t : Tile)
    (hpending : st.pendingWallTile = some t) :
    (applyWallTile st "all").walls = ⟨some t, some t, some t, some t⟩
      ∧ (applyWallTile st "all").floorTile = st.floorTile := by
  unfold applyWallTile
  rw [hpending]
  simp

/-- With three different tiles on the walls and one slot empty, applying the
pending tile to all walls fills the four slots with it. -/
theorem C20_apply_to_all_walls_witness :
    (applyWallTile
        (sampleVisualizer
          ⟨some (sampleTile "Wood Finish"), none, some (sampleTile "Slate"),
            some (sampleTile "Brick")⟩
          (some (sampleTile "Marble White"))) "all").walls
      = ⟨some (sampleTile "Marble White"), some (sampleTile "Marble White"),
          some (sampleTile "Marble White"), some (sampleTile "Marble White")⟩ :=
  (C20_apply_to_all_walls
    (sampleVisualizer
      ⟨some (sampleTile "Wood Finish"), none, some (sampleTile "Slate"),
        some (sampleTile "Brick")⟩
      (some (sampleTile "Marble White")))
    (sampleTile "Marble White") rfl).1

theorem applyWallTile_single (st : Visualizer) (u : Tile) (s : WallType)
    (hp : st.pendingWallTile = some u) :
    (applyWallTile st s.key).walls.get s = some u
      ∧ ∀ other : WallType, other ≠ s →
          (applyWallTile st s.key).walls.get other = st.walls.get other := by
  unfold applyWallTile
  rw [hp]
  refine ⟨?_, ?_⟩
  · cases s <;> simp [WallType.key, Walls.get]
  · intro other hne
    cases s <;> cases other <;> simp_all [WallType.key, Walls.get]

theorem applyWallTile_all (st : Visualizer) (t : Tile) (hp : st.pendingWallTile = some t) :
    applyWallTile st "all"
      = { st with
          walls := ⟨some t, some t, some t, some t⟩
          showWallModal := false
          pendingWallTile := none } := by
  unfold applyWallTile
  rw [hp]
  simp

/-- C21: for every wall state, every pending tile `u` and every single-wall
scope `s` among front, back, left, right, `applyWallTile(s)` sets slot `s` to
`u` and leaves the other three slots unchanged; after `applyWallTile('all')`
with tile `t`, a new wall tile `u` selected and `applyWallTile(s)`, slot `s`
holds `u` and the other three slots hold `t`. -/
theorem C21_apply_to_single_wall (st : Visualizer) (t u : Tile) (s : WallType) :
    (st.pendingWallTile = some u →
        (applyWallTile st s.key).walls.get s = some u
          ∧ ∀ other : WallType, other ≠ s →
              (applyWallTile st s.key).walls.get other = st.walls.get other)
      ∧ (st.pendingWallTile = some t → st.pickerType = "wall" →
          (applyWallTile (selectTile (applyWallTile st "all") u) s.key).walls.get s = some u
            ∧ ∀ other : WallType, other ≠ s →
                (applyWallTile (selectTile (applyWallTile st "all") u) s.key).walls.get other
                  = some t) := by
  constructor
  · intro hp
    exact applyWallTile_single st u s hp
  · intro hp hpick
    have h2 : (selectTile (applyWallTile st "all") u).pendingWallTile = some u
        ∧ (selectTile (applyWallTile st "all") u).walls = ⟨some t, some t, some t, some t⟩ := by
      rw [applyWallTile_all st t hp]
      simp [selectTile, hpick]
    obtain ⟨hs, hother⟩ := applyWallTile_single _ u s h2.1
    refine ⟨hs, ?_⟩
    intro other hne
    rw [hother other hne, h2.2]
    cases other <;> rfl

/-- Four walls tiled with "Marble White" by apply-to-all, then "Slate" applied
to the left wall: the left slot holds "Slate", the front slot "Marble White". -/
theorem C21_apply_to_single_wall_witness :
    (applyWallTile (selectTile (applyWallTile
        (sampleVisualizer ⟨none, none, none, none⟩ (some (sampleTile "Marble White"))) "all")
        (sampleTile "Slate")) WallType.left.key).walls.get .left = some (sampleTile "Slate")
      ∧ (applyWallTile (selectTile (applyWallTile
          (sampleVisualizer ⟨none, none, none, none⟩ (some (sampleTile "Marble White"))) "all")
          (sampleTile "Slate")) WallType.left.key).walls.get .front
        = some (sampleTile "Marble White") :=
  ⟨((C21_apply_to_single_wall
      (sampleVisualizer ⟨none, none, none, none⟩ (some (sampleTile "Marble White")))
      (sampleTile "Marble White") (sampleTile "Slate") .left).2 rfl rfl).1,
    ((C21_apply_to_single_wall
      (sampleVisualizer ⟨none, none, none, none⟩ (some (sampleTile "Marble White")))
      (sampleTile "Marble White") (sampleTile "Slate") .left).2 rfl rfl).2 .front
      (by decide)⟩

/-- C22: cancelling a pending wall choice sets the pending wall tile to `null`
and closes the scope modal, leaving the four wall slots and the floor tile as
they were. -/
theorem C22_cancel_discards_pending (st : Visualizer) :
    (cancelWallChoice st).pendingWallTile = none
      ∧ (cancelWallChoice st).showWallModal = false
      ∧ (cancelWallChoice st).walls = st.walls
      ∧ (cancelWallChoice st).floorTile = st.floorTile :=
  ⟨rfl, rfl, rfl, rfl⟩

/-- C23 as stated fails: `handleResetDesign` is not the apply operation, yet it
empties a wall slot that held a tile. -/
theorem C23_counterexample :
    (sampleVisualizer ⟨some (sampleTile "Wood Finish"), none, none, none⟩ none).walls.front
        = some (sampleTile "Wood Finish")
      ∧ (handleResetDesign
          (sampleVisualizer ⟨some (sampleTile "Wood Finish"), none, none, none⟩
            none)).walls.front = none
      ∧ (handleResetDesign
          (sampleVisualizer ⟨some (sampleTile "Wood Finish"), none, none, none⟩
            none)).walls.front
        ≠ (sampleVisualizer ⟨some (sampleTile "Wood Finish"), none, none, none⟩
            none).walls.front := by
  refine ⟨rfl, rfl, ?_⟩
  simp [handleResetDesign, sampleVisualizer]

/-- C23 (amended): the wall mapping has the four slots front, back, left and
right, each empty or holding one tile; `selectTile`, cancel and
`handleDimensionChange` change no wall slot, and besides the apply operation
only `handleResetDesign` writes the mapping, emptying all four slots. -/
theorem C23_wall_slots_frame (st : Visualizer) (tile : Tile) (val : ℚ) (dim : Dimension) :
    (selectTile st tile).walls = st.walls
      ∧ (cancelWallChoice st).walls = st.walls
      ∧ (handleDimensionChange st val dim).walls = st.walls
      ∧ (handleResetDesign st).walls = ⟨none, none, none, none⟩
      ∧ (∀ s : WallType, (handleResetDesign st).walls.get s = none) := by
  refine ⟨?_, rfl, rfl, rfl, ?_⟩
  · unfold selectTile
    split_ifs <;> rfl
  · intro s
    cases s <;> rfl

/-- C24: `selectTile(t)` with the collection filter `floor` makes `t` the floor
tile and leaves the pending tile, the modal flag (closed stays closed) and the
walls as they were; with the filter `wall` it makes `t` the pending tile and
opens the scope modal, leaving the floor tile and the four wall slots
unchanged. -/
theorem C24_select_tile (st : Visualizer) (t : Tile) :
    (st.pickerType = "floor" →
        (selectTile st t).floorTile = some t
          ∧ (selectTile st t).pendingWallTile = st.pendingWallTile
          ∧ (selectTile st t).showWallModal = st.showWallModal
          ∧ (selectTile st t).walls = st.walls)
      ∧ (st.pickerType = "wall" →
          (selectTile st t).pendingWallTile = some t
            ∧ (selectTile st t).showWallModal = true
            ∧ (selectTile st t).floorTile = st.floorTile
            ∧ (selectTile st t).walls = st.walls) := by
  constructor
  · intro h
    simp [selectTile, h]
  · intro h
    simp [selectTile, h]

/-- With the wall filter active, selecting "Slate" makes it the pending tile
and opens the modal. -/
theorem C24_select_tile_witness :
    (selectTile (sampleVisualizer ⟨none, none, none, none⟩ none)
        (sampleTile "Slate")).pendingWallTile = some (sampleTile "Slate")
      ∧ (selectTile (sampleVisualizer ⟨none, none, none, none⟩ none)
          (sampleTile "Slate")).showWallModal = true :=
  ⟨((C24_select_tile (sampleVisualizer ⟨none, none, none, none⟩ none)
      (sampleTile "Slate")).2 rfl).1,
    ((C24_select_tile (sampleVisualizer ⟨none, none, none, none⟩ none)
      (sampleTile "Slate")).2 rfl).2.1⟩

/-! ## The camera -/

theorem RoomScene_cameraPosition (setup : Setup) (floorTile : Option Tile) (walls : Walls) :
    (RoomScene setup floorTile walls).cameraPosition
      = ⟨mathMax (roomW setup) (roomL setup) * (18 / 10), roomH setup * (12 / 10) + 2 / 10,
          mathMax (roomW setup) (roomL setup) * (18 / 10)⟩ := rfl

/-- C25 as stated fails: no constant `k` makes the camera height `k * roomH`
for every room (heights 9 ft and 18 ft already need different factors). -/
theorem C25_counterexample :
    ¬ ∃ k : ℚ, ∀ (setup : Setup) (floorTile : Option Tile) (walls : Walls),
        (RoomScene setup floorTile walls).cameraPosition.y = k * roomH setup := by
  rintro ⟨k, hk⟩
  have h9 := hk ⟨15, 20, 9, 300, "Living Room", "Normal Room"⟩ none ⟨none, none, none, none⟩
  have h18 := hk ⟨15, 20, 18, 300, "Living Room", "Normal Room"⟩ none ⟨none, none, none, none⟩
  rw [RoomScene_cameraPosition] at h9 h18
  simp only [roomH, mathMax_eq_max, SCALE_FT] at h9 h18
  norm_num at h9 h18
  linarith

/-- C25 (amended): the camera set by `RoomScene` has x and z coordinates both
equal to `1.8 * max(roomW, roomL)`, and its height is `1.2 * roomH + 0.2`: it
grows linearly with the scaled height from a fixed offset of 0.2, and looks at
the point `(0, 0.45 * roomH, 0)`. -/
theorem C25_camera_framing (setup : Setup) (floorTile : Option Tile) (walls : Walls) :
    (RoomScene setup floorTile walls).cameraPosition.x
        = 18 / 10 * max (roomW setup) (roomL setup)
      ∧ (RoomScene setup floorTile walls).cameraPosition.z
        = 18 / 10 * max (roomW setup) (roomL setup)
      ∧ (RoomScene setup floorTile walls).cameraPosition.y = 12 / 10 * roomH setup + 2 / 10
      ∧ (RoomScene setup floorTile walls).cameraTarget = ⟨0, roomH setup * (45 / 100), 0⟩ := by
  rw [RoomScene_cameraPosition]
  refine ⟨?_, ?_, ?_, rfl⟩
  · simp only [mathMax_eq_max]; ring
  · simp only [mathMax_eq_max]; ring
  · ring

/-! ## The room dimensions -/

theorem handleDimensionChange_area (st : Visualizer) (val : ℚ) (dim : Dimension)
    (h : st.setup.area = st.setup.width * st.setup.length) :
    (handleDimensionChange st val dim).setup.area
      = (handleDimensionChange st val dim).setup.width
          * (handleDimensionChange st val dim).setup.length := by
  cases dim <;> simp [handleDimensionChange, h]

/-- C28: after a change of width or of length the area is the new width times
the new length, whatever it was before; a change of height leaves area, width
and length unchanged; so from a state with `area = width * length` every
sequence of dimension changes keeps `area = width * length` (on the raw
values). -/
theorem C28_area_follows_dimensions (st : Visualizer) (val : ℚ)
    (changes : List (ℚ × Dimension)) :
    ((handleDimensionChange st val .width).setup.width = val
        ∧ (handleDimensionChange st val .width).setup.length = st.setup.length
        ∧ (handleDimensionChange st val .width).setup.area = val * st.setup.length)
      ∧ ((handleDimensionChange st val .length).setup.length = val
        ∧ (handleDimensionChange st val .length).setup.width = st.setup.width
        ∧ (handleDimensionChange st val .length).setup.area = st.setup.width * val)
      ∧ ((handleDimensionChange st val .height).setup.height = val
        ∧ (handleDimensionChange st val .height).setup.area = st.setup.area
        ∧ (handleDimensionChange st val .height).setup.width = st.setup.width
        ∧ (handleDimensionChange st val .height).setup.length = st.setup.length)
      ∧ (st.setup.area = st.setup.width * st.setup.length →
          (dimensionChanges st changes).setup.area
            = (dimensionChanges st changes).setup.width
                * (dimensionChanges st changes).setup.length) := by
  refine ⟨⟨rfl, rfl, rfl⟩, ⟨rfl, rfl, rfl⟩, ⟨rfl, rfl, rfl, rfl⟩, ?_⟩
  induction changes generalizing st with
  | nil => intro h; exact h
  | cons c rest ih =>
    intro h
    exact ih (handleDimensionChange st c.1 c.2) (handleDimensionChange_area st c.1 c.2 h)

/-- From the default 15 by 20 room (area 300), width 10, then height 12, then
length 8 leaves area 80 = 10 * 8. -/
theorem C28_area_follows_dimensions_witness :
    (dimensionChanges (sampleVisualizer ⟨none, none, none, none⟩ none)
        [(10, .width), (12, .height), (8, .length)]).setup.area
      = (dimensionChanges (sampleVisualizer ⟨none, none, none, none⟩ none)
          [(10, .width), (12, .height), (8, .length)]).setup.width
        * (dimensionChanges (sampleVisualizer ⟨none, none, none, none⟩ none)
          [(10, .width), (12, .height), (8, .length)]).setup.length :=
  (C28_area_follows_dimensions (sampleVisualizer ⟨none, none, none, none⟩ none) 0
    [(10, .width), (12, .height), (8, .length)]).2.2.2
    (by simp [sampleVisualizer]; norm_num)

/-! ## Applying without a pending tile or with an unknown scope -/

/-- C29: `applyWallTile` called while no tile is pending returns the state as
it is; called with a pending tile and any scope string it leaves no pending
tile and the modal closed, and when the scope is none of `all`, `front`,
`back`, `left`, `right` the wall slots are unchanged. -/
theorem C29_apply_guard (st : Visualizer) (t : Tile) (scope : String) :
    (st.pendingWallTile = none → applyWallTile st scope = st)
      ∧ (st.pendingWallTile = some t →
          (applyWallTile st scope).pendingWallTile = none
            ∧ (applyWallTile st scope).showWallModal = false
            ∧ (applyWallTile st scope).floorTile = st.floorTile
            ∧ (scope ≠ "all" → scope ≠ "front" → scope ≠ "back" → scope ≠ "left" →
                scope ≠ "right" → (applyWallTile st scope).walls = st.walls)) := by
  constructor
  · intro h
    unfold applyWallTile
    rw [h]
  · intro h
    unfold applyWallTile
    rw [h]
    refine ⟨rfl, rfl, rfl, ?_⟩
    intro h1 h2 h3 h4 h5
    simp [h1, h2, h3, h4, h5]

/-- With a pending tile and the scope `ceiling`, the picker returns to idle and
the walls stay as they were. -/
theorem C29_apply_guard_witness :
    (applyWallTile
        (sampleVisualizer ⟨some (sampleTile "Wood Finish"), none, none, none⟩
          (some (sampleTile "Slate"))) "ceiling").pendingWallTile = none
      ∧ (applyWallTile
          (sampleVisualizer ⟨some (sampleTile "Wood Finish"), none, none, none⟩
            (some (sampleTile "Slate"))) "ceiling").walls
        = ⟨some (sampleTile "Wood Finish"), none, none, none⟩ :=
  ⟨((C29_apply_guard
      (sampleVisualizer ⟨some (sampleTile "Wood Finish"), none, none, none⟩
        (some (sampleTile "Slate"))) (sampleTile "Slate") "ceiling").2 rfl).1,
    ((C29_apply_guard
      (sampleVisualizer ⟨some (sampleTile "Wood Finish"), none, none, none⟩
        (some (sampleTile "Slate"))) (sampleTile "Slate") "ceiling").2 rfl).2.2.2
      (by decide) (by decide) (by decide) (by decide) (by decide)⟩

/-! ## Creating on an unreadable file -/

/-- C30: when the collection file is missing or cannot be parsed, a successful
file-mode create rewrites it to hold exactly the newly created record, for
customers and for products alike: the read gave the empty list. -/
theorem C30_create_on_unreadable_file (srv : Server) (env : Env) (cbody : CustomerBody)
    (pbody : ProductBody) (hmode : srv.useMongoDB = false) :
    (srv.customersFile = none → (postCustomers srv env cbody).response.status = 201 →
        (postCustomers srv env cbody).server.customersFile = some [newCustomerData cbody env]
          ∧ (postCustomers srv env cbody).response.customer = some (newCustomerData cbody env))
      ∧ (srv.productsFile = none → (postProducts srv env pbody).response.status = 201 →
          (postProducts srv env pbody).server.productsFile = some [newProductData pbody env]
            ∧ (postProducts srv env pbody).response.product = some (newProductData pbody env)) := by
  constructor
  · intro hfile hok
    obtain ⟨hsrv, hcust⟩ := postCustomers_created srv env cbody hmode hok
    refine ⟨?_, hcust⟩
    rw [hsrv, hfile]
    rfl
  · intro hfile hok
    obtain ⟨hsrv, hprod⟩ := postProducts_created srv env pbody hmode hok
    refine ⟨?_, hprod⟩
    rw [hsrv, hfile]
    rfl

/-- On a server whose files do not exist, creating one customer leaves a
customers file with exactly that record. -/
theorem C30_create_on_unreadable_file_witness :
    (postCustomers freshFileServer (sampleEnv 1000)
        (sampleCustomerBody "Anand")).server.customersFile
      = some [newCustomerData (sampleCustomerBody "Anand") (sampleEnv 1000)] :=
  ((C30_create_on_unreadable_file freshFileServer (sampleEnv 1000)
    (sampleCustomerBody "Anand") (sampleProductBody (.num 7) "Marble White") rfl).1 rfl
    (by simp [postCustomers, sampleCustomerBody, sampleEnv, freshFileServer, truthy])).1

/-! ## The chatbot -/

theorem generateResponse_eq_firstMatchingReply (toLowerCase : String → String)
    (query : String) :
    generateResponse toLowerCase query = firstMatchingReply (toLowerCase query) := by
  unfold generateResponse firstMatchingReply chatRules
  simp only [List.find?, List.any, Bool.or_false]
  cases includes (toLowerCase query) "price" <;>
    cases includes (toLowerCase query) "cost" <;>
    cases includes (toLowerCase query) "bathroom" <;>
    cases includes (toLowerCase query) "toilet" <;>
    cases includes (toLowerCase query) "kitchen" <;>
    cases includes (toLowerCase query) "living" <;>
    cases includes (toLowerCase query) "thank" <;> rfl

theorem generateResponse_fallback_iff (toLowerCase : String → String) (query : String) :
    generateResponse toLowerCase query = fallbackReply ↔
      ∀ keyword ∈ ["price", "cost", "bathroom", "toilet", "kitchen", "living", "thank"],
        includes (toLowerCase query) keyword = false := by
  have h1 : priceReply ≠ fallbackReply := by decide
  have h2 : bathroomReply ≠ fallbackReply := by decide
  have h3 : kitchenReply ≠ fallbackReply := by decide
  have h4 : livingReply ≠ fallbackReply := by decide
  have h5 : thankReply ≠ fallbackReply := by decide
  unfold generateResponse
  simp only [List.forall_mem_cons, List.not_mem_nil, false_implies, implies_true, and_true]
  cases includes (toLowerCase query) "price" <;>
    cases includes (toLowerCase query) "cost" <;>
    cases includes (toLowerCase query) "bathroom" <;>
    cases includes (toLowerCase query) "toilet" <;>
    cases includes (toLowerCase query) "kitchen" <;>
    cases includes (toLowerCase query) "living" <;>
    cases includes (toLowerCase query) "thank" <;>
    simp [h1, h2, h3, h4, h5]

theorem generateResponse_price (toLowerCase : String → String) (query : String)
    (h : includes (toLowerCase query) "price" = true) :
    generateResponse toLowerCase query = priceReply := by
  simp [generateResponse, h]

theorem asciiToLowerCase_keeps_price (query : String)
    (h : includes query "price" = true) :
    includes (asciiToLowerCase query) "price" = true := by
  unfold includes at h ⊢
  rw [decide_eq_true_eq] at h ⊢
  have hm := List.IsInfix.map Char.toLower h
  have hk : List.map Char.toLower "price".toList = "price".toList := by decide
  rw [hk] at hm
  exact hm

/-- C26: `generateResponse` lower-cases the query and returns the reply of the
first rule, in the order (price, cost), (bathroom, toilet), kitchen, living,
thank, one of whose keywords occurs in the lower-cased query; it returns the
fallback reply exactly when no keyword occurs; a query in which both `kitchen`
and `price` occur gets the price reply. -/
theorem C26_first_rule_wins (toLowerCase : String → String) (query : String) :
    generateResponse toLowerCase query = firstMatchingReply (toLowerCase query)
      ∧ (generateResponse toLowerCase query = fallbackReply ↔
          ∀ keyword ∈ ["price", "cost", "bathroom", "toilet", "kitchen", "living", "thank"],
            includes (toLowerCase query) keyword = false)
      ∧ (includes (toLowerCase query) "kitchen" = true →
          includes (toLowerCase query) "price" = true →
          generateResponse toLowerCase query = priceReply)
      ∧ ((includes query "price" = true → includes (toLowerCase query) "price" = true) →
          includes query "kitchen" = true → includes query "price" = true →
          generateResponse toLowerCase query = priceReply)
      ∧ (includes query "kitchen" = true → includes query "price" = true →
          generateResponse asciiToLowerCase query = priceReply) :=
  ⟨generateResponse_eq_firstMatchingReply toLowerCase query,
    generateResponse_fallback_iff toLowerCase query,
    fun _ hp => generateResponse_price toLowerCase query hp,
    fun hkeep _ hp => generateResponse_price toLowerCase query (hkeep hp),
    fun _ hp => generateResponse_price asciiToLowerCase query
      (asciiToLowerCase_keeps_price query hp)⟩

/-- The query "What is the price for kitchen tiles" names a kitchen and a
price: the reply is the price reply, not the kitchen reply. -/
theorem C26_first_rule_wins_witness :
    generateResponse asciiToLowerCase "What is the price for kitchen tiles" = priceReply :=
  (C26_first_rule_wins asciiToLowerCase "What is the price for kitchen tiles").2.2.2.2
    (by decide) (by decide)

/-! ## The advisory simulations -/

theorem enum_map_snd_comp {α β : Type} (f : α → β) (l : List α) :
    l.enum.map (fun p => f p.2) = l.map f := by
  have h : (fun p : ℕ × α => f p.2) = f ∘ Prod.snd := rfl
  rw [h, ← List.map_map, List.enum_map_snd]

theorem styleMatcherResults_eq (shuffle : List Tile → List Tile) (random : Nat → ℚ)
    (allTiles : List Tile) (hshuffle : ∀ l, (shuffle l).Perm l) :
    styleMatcherResults shuffle random allTiles
      = ((shuffle allTiles).take 3).enum.map (fun p =>
          { id := p.2.id
            name := p.2.design
            type := p.2.type
            matchText := toString (mathFloor (random p.1 * (99 - 85) + 85)) ++ "%"
            img := p.2.image }) := by
  unfold styleMatcherResults
  split_ifs with h
  · rfl
  · have hnil : allTiles = [] := by
      cases allTiles with
      | nil => rfl
      | cons a l => simp at h
    have hs : shuffle allTiles = [] := by
      have := hshuffle allTiles
      rw [hnil] at this ⊢
      exact List.Perm.eq_nil this
    rw [hs]
    rfl

/-- C27: for every catalog of `n` tiles and every outcome of the shuffle (any
permutation), `StyleMatcher` sets exactly `min(3, n)` suggestions and the
suggestions `IntelligentPairing` sets are at most 2; in both the suggestions
are built, in order, from tiles chosen at distinct places of the catalog, and
no `IntelligentPairing` suggestion has an id strictly equal to the selected
base tile. `IntelligentPairing` sets suggestions whenever the selected id is
truthy. -/
theorem C27_suggestions_bounded (sameObject : JsVal → JsVal → Bool)
    (toText : JsVal → String) (shuffle : List Tile → List Tile) (random : Nat → ℚ)
    (allTiles : List Tile) (selectedTile : JsVal)
    (hshuffle : ∀ l, (shuffle l).Perm l) :
    (styleMatcherResults shuffle random allTiles).length = min 3 allTiles.length
      ∧ (∃ chosen : List Tile, chosen.Subperm allTiles
          ∧ (styleMatcherResults shuffle random allTiles).map MatchSuggestion.id
              = chosen.map Tile.id
          ∧ (styleMatcherResults shuffle random allTiles).map MatchSuggestion.name
              = chosen.map Tile.design
          ∧ (styleMatcherResults shuffle random allTiles).map MatchSuggestion.img
              = chosen.map Tile.image)
      ∧ (truthy selectedTile = true →
          ∃ recs, pairingSuggestions sameObject toText shuffle random allTiles selectedTile
            = some recs)
      ∧ (∀ recs : List PairingSuggestion,
          pairingSuggestions sameObject toText shuffle random allTiles selectedTile = some recs →
          recs.length ≤ 2
            ∧ (∃ chosen : List Tile, chosen.Subperm allTiles
                ∧ recs.map PairingSuggestion.id = chosen.map Tile.id
                ∧ recs.map PairingSuggestion.name = chosen.map Tile.design
                ∧ recs.map PairingSuggestion.img = chosen.map Tile.image)
            ∧ ∀ r ∈ recs, strictEquals sameObject r.id selectedTile = false) := by
  refine ⟨?_, ?_, ?_, ?_⟩
  · rw [styleMatcherResults_eq shuffle random allTiles hshuffle]
    simp only [List.length_map, List.enum_length, List.length_take, (hshuffle allTiles).length_eq]
  · refine ⟨(shuffle allTiles).take 3,
      (List.take_sublist 3 _).subperm.trans (hshuffle allTiles).subperm, ?_, ?_, ?_⟩
    · rw [styleMatcherResults_eq shuffle random allTiles hshuffle, List.map_map]
      exact enum_map_snd_comp Tile.id _
    · rw [styleMatcherResults_eq shuffle random allTiles hshuffle, List.map_map]
      exact enum_map_snd_comp Tile.design _
    · rw [styleMatcherResults_eq shuffle random allTiles hshuffle, List.map_map]
      exact enum_map_snd_comp Tile.image _
  · intro ht
    simp [pairingSuggestions, ht]
  · intro recs hrecs
    unfold pairingSuggestions at hrecs
    split_ifs at hrecs with ht
    simp only [Option.some.injEq] at hrecs
    have hperm := hshuffle (allTiles.filter (fun t => !strictEquals sameObject t.id selectedTile))
    have hid : recs.map PairingSuggestion.id
        = ((shuffle (allTiles.filter
            (fun t => !strictEquals sameObject t.id selectedTile))).take 2).map Tile.id := by
      rw [← hrecs, List.map_map]
      exact enum_map_snd_comp Tile.id _
    refine ⟨?_, ⟨_, (List.take_sublist 2 _).subperm.trans
        (hperm.subperm.trans (List.filter_sublist _).subperm), hid, ?_, ?_⟩, ?_⟩
    · rw [← hrecs]
      simp only [List.length_map, List.enum_length, List.length_take]
      exact Nat.min_le_left _ _
    · rw [← hrecs, List.map_map]
      exact enum_map_snd_comp Tile.design _
    · rw [← hrecs, List.map_map]
      exact enum_map_snd_comp Tile.image _
    · intro r hr
      have hmem : r.id ∈ recs.map PairingSuggestion.id := List.mem_map_of_mem _ hr
      rw [hid] at hmem
      obtain ⟨t, ht2, hteq⟩ := List.mem_map.mp hmem
      have ht3 : t ∈ allTiles.filter (fun t => !strictEquals sameObject t.id selectedTile) :=
        hperm.subset (List.mem_of_mem_take ht2)
      have hne := (List.mem_filter.mp ht3).2
      rw [← hteq]
      simpa using hne

/-- With the shuffle that reverses and a catalog of four tiles, `StyleMatcher`
sets three suggestions. -/
theorem C27_suggestions_bounded_witness :
    (styleMatcherResults List.reverse (fun _ => 1 / 2)
        [sampleTile "Marble White", sampleTile "Granite Grey", sampleTile "Wood Finish",
         sampleTile "Slate"]).length = min 3 4 :=
  (C27_suggestions_bounded (fun _ _ => false) plainObjectToString List.reverse
    (fun _ => 1 / 2)
    [sampleTile "Marble White", sampleTile "Granite Grey", sampleTile "Wood Finish",
     sampleTile "Slate"] (.num 1) (fun l => List.reverse_perm l)).1

end TileShop
